import Mathlib

/-!
# Case management: case lifecycle and access control

A shallow embedding of `backend/controllers/caseController.js`,
`backend/models/Case.js` and `backend/utils/constants.js`.

Conventions of the embedding.

* A JavaScript value that may be `undefined` is an `Option`; `none` is `undefined`.
  A request body gives a field a value of its type or leaves it out; a field sent as
  `null` is not among the inputs of the embedding.
* An `ObjectId` is a natural number.  `a.toString() === b` on two ids is equality of the
  numbers, and every id is truthy.
* A `Date` is a calendar year and the milliseconds elapsed in that year, so that
  `getFullYear()` is a projection and `new Date(y, 0, 1)` is `⟨y, 0⟩`.
* A handler `async (req, res) => ...` is a function from the environment, the database
  and the request to the response it sends and the database it leaves behind.
* The constant tables of `constants.js` are association lists; `T.KEY` is a lookup that
  yields `none` for a key the table does not have.
* The collection holds the documents as they are stored, and `Case.findById` returns the
  stored document: a path that was assigned `undefined` is absent from it.  The schema
  defaults that Mongoose fills in for the absent paths of a loaded document are not
  embedded; the properties below read the stored documents.
* `populate` replaces a reference by the user document it resolves to.  The text
  `doc.toString()` of a document is what `util.inspect` prints for it, an object literal;
  the text of an id is its digits.
-/

namespace CaseManagement

/-! ## Values -/

abbrev ObjectId := Nat

/-- A point in time: calendar year and milliseconds since the start of that year. -/
structure Date where
  year : Nat
  offset : Nat
deriving DecidableEq, Repr

/-- Strict order on dates, as MongoDB compares them. -/
def Date.lt (a b : Date) : Bool :=
  decide (a.year < b.year) || (decide (a.year = b.year) && decide (a.offset < b.offset))

/-- Non-strict order on dates. -/
def Date.le (a b : Date) : Bool := !(Date.lt b a)

/-- JavaScript truthiness of a value that is a string or `undefined`. -/
def truthy (v : Option String) : Bool :=
  match v with
  | none => false
  | some s => decide (s ≠ "")

/-! ## `utils/constants.js` -/

/-- Property access `table.KEY`: `undefined` when the table has no such key. -/
def prop (table : List (String × String)) (key : String) : Option String :=
  table.lookup key

/-- The list `Object.values(table)`. -/
def objectValues (table : List (String × String)) : List String :=
  table.map Prod.snd

def USER_ROLES : List (String × String) :=
  [("REGISTRAR", "registrar"), ("JUDGE", "judge"), ("LAWYER", "lawyer"), ("USER", "user")]

def CASE_STATUS : List (String × String) :=
  [("REGISTERED", "registered"), ("CASE_ADMITTED", "case_admitted"),
   ("NOTICE_ISSUED", "notice_issued"), ("APPEARANCE", "appearance"),
   ("EVIDENCE_STAGE", "evidence_stage"), ("ARGUMENTS", "arguments"),
   ("RESERVED", "reserved"), ("DISPOSED", "disposed"), ("DISMISSED", "dismissed"),
   ("WITHDRAWN", "withdrawn")]

def CASE_PRIORITY : List (String × String) :=
  [("NORMAL", "normal"), ("URGENT", "urgent"), ("HIGH", "high")]

def HEARING_TYPES : List (String × String) :=
  [("FIRST_HEARING", "first_hearing"), ("REGULAR_HEARING", "regular_hearing"),
   ("EVIDENCE_HEARING", "evidence_hearing"), ("ARGUMENT_HEARING", "argument_hearing"),
   ("JUDGMENT", "judgment"), ("INTERIM_APPLICATION", "interim_application")]

def COURT_TYPES : List (String × String) :=
  [("DISTRICT_COURT", "district_court"), ("HIGH_COURT", "high_court"),
   ("SUPREME_COURT", "supreme_court"), ("FAMILY_COURT", "family_court"),
   ("COMMERCIAL_COURT", "commercial_court"), ("CONSUMER_COURT", "consumer_court"),
   ("LABOR_COURT", "labor_court"), ("REVENUE_COURT", "revenue_court")]

namespace HTTP_STATUS
def OK : Nat := 200
def CREATED : Nat := 201
def BAD_REQUEST : Nat := 400
def UNAUTHORIZED : Nat := 401
def FORBIDDEN : Nat := 403
def NOT_FOUND : Nat := 404
def CONFLICT : Nat := 409
def INTERNAL_SERVER_ERROR : Nat := 500
end HTTP_STATUS

namespace MESSAGES
def CASE_CREATED : String := "Case created successfully"
def CASE_UPDATED : String := "Case updated successfully"
def HEARING_SCHEDULED : String := "Hearing scheduled successfully"
def FORBIDDEN : String := "Access forbidden"
def CASE_NOT_FOUND : String := "Case not found"
def SERVER_ERROR : String := "Internal server error"
end MESSAGES

/-! ## `models/User.js` and `models/Case.js` -/

/-- A user document, with the fields the case controller reads. -/
structure User where
  _id : ObjectId
  role : String
  firstName : String
  lastName : String
deriving DecidableEq, Repr

/-- An element of `parties` (`partySchema`). -/
structure Party where
  user : Option ObjectId
  role : String
  assignedLawyer : Option ObjectId
  isMainParty : Bool
deriving DecidableEq, Repr

/-- An element of `hearings` (`hearingSchema`). -/
structure Hearing where
  hearingDate : Option Date
  hearingTime : Option String
  hearingType : Option String
  courtRoom : Option String
  judge : ObjectId
  status : String
  remarks : Option String
deriving DecidableEq, Repr

/-- The embedded object `nextHearing`. -/
structure NextHearing where
  date : Option Date
  time : Option String
  courtRoom : Option String
  purpose : Option String
deriving DecidableEq, Repr

/-- An element of `orders` (`caseOrderSchema`). -/
structure CaseOrder where
  orderDate : Date
  orderType : Option String
  orderText : Option String
  passedBy : ObjectId
deriving DecidableEq, Repr

/-- An element of `caseHistory`. -/
structure HistoryEntry where
  action : String
  actionBy : ObjectId
  actionDate : Date
  description : String
deriving DecidableEq, Repr

/-- A case document (`caseSchema`).  The fields no handler of the case controller touches
(documents, fees, judgment, tags, notifications) are left out. -/
structure Case where
  _id : ObjectId
  caseNumber : Option String
  registrationDate : Date
  registeredBy : ObjectId
  title : Option String
  caseType : Option String
  courtType : Option String
  parties : List Party
  assignedJudge : Option ObjectId
  courtNumber : Option String
  status : Option String
  priority : Option String
  description : Option String
  causeOfAction : Option String
  reliefSought : Option String
  hearings : List Hearing
  nextHearing : Option NextHearing
  orders : List CaseOrder
  caseHistory : List HistoryEntry
  isDisposed : Bool
  disposalDate : Option Date
  isActive : Bool
  createdAt : Option Date
  updatedAt : Option Date
deriving DecidableEq, Repr

/-- The two collections. -/
structure Db where
  users : List User
  cases : List Case
deriving DecidableEq, Repr

/-- What a request gets from outside the program: the clock (`new Date()`), the id
MongoDB gives to a document created during the request, the date parser behind
`new Date(text)` (`none` is an invalid date), the matcher behind a query
`$regex: pattern, $options: i`, applied as `regexTest pattern text`, and the connection
option `ignoreUndefined` (set in `config/database.js`): whether a filter key whose value
is `undefined` is dropped or sent as `null`. -/
structure Env where
  now : Date
  newId : ObjectId
  parseDate : String → Option Date
  regexTest : String → String → Bool
  ignoreUndefined : Bool

/-- The authenticated principal `req.user`. -/
structure Principal where
  id : ObjectId
  role : String
  firstName : String
  lastName : String
deriving DecidableEq, Repr

/-- The response a handler sends: `res.status(status).json(\x7b success, message, ... \x7d)`. -/
structure Response (α : Type) where
  status : Nat
  success : Bool
  message : Option String
  data : Option α
deriving DecidableEq, Repr

/-- A failure response: `success: false` and a message. -/
def Response.failure {α : Type} (status : Nat) (message : String) : Response α :=
  { status := status, success := false, message := some message, data := none }

/-- The catch block of every handler: status 500 and the server-error message. -/
def Response.serverError {α : Type} : Response α :=
  Response.failure HTTP_STATUS.INTERNAL_SERVER_ERROR MESSAGES.SERVER_ERROR

/-- `User.findById(id)`; `findById(undefined)` finds nothing. -/
def User.findById (users : List User) (id : Option ObjectId) : Option User :=
  match id with
  | none => none
  | some i => users.find? (fun u => decide (u._id = i))

/-- `Case.findById(id)`. -/
def Case.findById (cases : List Case) (id : ObjectId) : Option Case :=
  cases.find? (fun c => decide (c._id = id))

/-- Text of an id inside a template literal. -/
def showId (id : Option ObjectId) : String :=
  match id with
  | none => "undefined"
  | some i => toString i

/-- Text of a string-or-undefined value inside a template literal. -/
def showText (v : Option String) : String :=
  match v with
  | none => "undefined"
  | some s => s

/-! ## Schema validators (`models/Case.js`) -/

/-- The `required` validator of a string path: `undefined` and the empty string fail. -/
def requiredText (v : Option String) : Bool := truthy v

/-- The `enum` validator: passes on `undefined`, else the value must be listed. -/
def enumText (allowed : List String) (v : Option String) : Bool :=
  match v with
  | none => true
  | some s => decide (s ∈ allowed)

/-- The property `length` of a JavaScript string: the number of UTF-16 code units, two for
a character outside the basic plane. -/
def utf16Length (s : String) : Nat :=
  (s.toList.map (fun c => if c.toNat < 65536 then 1 else 2)).sum

/-- The `maxlength` validator: `v.length <= n`. -/
def maxlengthText (n : Nat) (v : Option String) : Bool :=
  match v with
  | none => true
  | some s => decide (utf16Length s ≤ n)

/-- The characters `String.prototype.trim` strips: white space (tab, vertical tab, form
feed, the space separators, the byte order mark) and line terminators. -/
def isSpace (c : Char) : Bool :=
  let n := c.toNat
  (decide (9 ≤ n) && decide (n ≤ 13)) || n == 32 || n == 160 || n == 5760 ||
  (decide (8192 ≤ n) && decide (n ≤ 8202)) || n == 8232 || n == 8233 || n == 8239 ||
  n == 8287 || n == 12288 || n == 65279

/-- The setter behind `trim: true`: `v.trim()`. -/
def trimText (s : String) : String :=
  String.mk (((s.toList.dropWhile isSpace).reverse.dropWhile isSpace).reverse)

def caseTypeValues : List String :=
  ["civil", "criminal", "family", "commercial", "property", "labor", "constitutional",
   "administrative", "other"]

def partyRoleValues : List String := ["petitioner", "respondent"]

def hearingStatusValues : List String := ["scheduled", "completed", "adjourned", "cancelled"]

def orderTypeValues : List String := ["interim", "final", "direction", "notice", "summons"]

/-- Validators of `partySchema`. -/
def Party.validate (p : Party) : Bool :=
  p.user.isSome && requiredText (some p.role) && enumText partyRoleValues (some p.role)

/-- Validators of `hearingSchema`. -/
def Hearing.validate (h : Hearing) : Bool :=
  h.hearingDate.isSome && requiredText h.hearingTime &&
  requiredText h.hearingType && enumText (objectValues HEARING_TYPES) h.hearingType &&
  requiredText h.courtRoom && enumText hearingStatusValues (some h.status)

/-- Validators of `caseOrderSchema`. -/
def CaseOrder.validate (o : CaseOrder) : Bool :=
  requiredText o.orderType && enumText orderTypeValues o.orderType && requiredText o.orderText

/-- Validators of `caseSchema`, run by `save()` before the document is written.  For a loaded
document Mongoose checks the required paths and the modified ones; the other paths passed
the same validators when the document was inserted, so the whole schema is checked. -/
def Case.validate (c : Case) : Bool :=
  requiredText c.title && maxlengthText 500 c.title &&
  requiredText c.caseType && enumText caseTypeValues c.caseType &&
  requiredText c.courtType && enumText (objectValues COURT_TYPES) c.courtType &&
  c.parties.all Party.validate &&
  enumText (objectValues CASE_STATUS) c.status &&
  enumText (objectValues CASE_PRIORITY) c.priority &&
  requiredText c.description && maxlengthText 5000 c.description &&
  maxlengthText 2000 c.causeOfAction && maxlengthText 2000 c.reliefSought &&
  c.hearings.all Hearing.validate && c.orders.all CaseOrder.validate

/-! ## The pre-save hook and `save()` -/

/-- The chain of conditionals that picks the court code of a case number. -/
def courtPrefixOf (courtType : Option String) : String :=
  if courtType = some "district_court" then "DC"
  else if courtType = some "high_court" then "HC"
  else if courtType = some "supreme_court" then "SC"
  else if courtType = some "family_court" then "FC"
  else if courtType = some "commercial_court" then "CC"
  else "CT"

/-- `text.padStart(n, fill)` for a one-character fill. -/
def padStart (text : String) (n : Nat) (fill : Char) : String :=
  String.mk (List.replicate (n - text.length) fill) ++ text

/-- `countDocuments` over `createdAt` within the calendar year `year`:
`$gte: new Date(year, 0, 1)` and `$lt: new Date(year + 1, 0, 1)`. -/
def countCreatedIn (cases : List Case) (year : Nat) : Nat :=
  cases.countP (fun c =>
    match c.createdAt with
    | none => false
    | some d => Date.le ⟨year, 0⟩ d && Date.lt d ⟨year + 1, 0⟩)

/-- What `caseSchema.pre(save)` does: a document without a case number gets one. -/
def preSave (env : Env) (cases : List Case) (c : Case) : Case :=
  if truthy c.caseNumber then c
  else
    let year := env.now.year
    let count := countCreatedIn cases year
    let sequence := padStart (toString (count + 1)) 4 '0'
    { c with caseNumber := some (courtPrefixOf c.courtType ++ "/" ++ toString year ++ "/" ++ sequence) }

/-- `updateOne` by `_id`: the first document with the id of `c` becomes `c`. -/
def updateOne (cases : List Case) (c : Case) : List Case :=
  match cases with
  | [] => []
  | d :: ds => if d._id = c._id then c :: ds else d :: updateOne ds c

/-- The option `timestamps: true`: `createdAt` on insertion, `updatedAt` on every save. -/
def stamp (env : Env) (isNew : Bool) (c : Case) : Case :=
  { c with createdAt := (if isNew then some env.now else c.createdAt),
           updatedAt := some env.now }

/-- `doc.save()`: validation, the pre-save hook, the timestamps, then the write, which
the unique indexes on `_id` and `caseNumber` can refuse.  `none` is a thrown error; on
success the saved document and the new database are returned. -/
def Case.save (env : Env) (db : Db) (isNew : Bool) (c : Case) : Option (Case × Db) :=
  if !c.validate then none
  else
    let stamped := stamp env isNew (preSave env db.cases c)
    if isNew then
      if db.cases.any (fun d => decide (d._id = stamped._id) ||
          decide (d.caseNumber = stamped.caseNumber)) then none
      else some (stamped, { db with cases := db.cases ++ [stamped] })
    else
      if !truthy c.caseNumber &&
          db.cases.any (fun d => decide (d._id ≠ stamped._id) &&
            decide (d.caseNumber = stamped.caseNumber)) then none
      else some (stamped, { db with cases := updateOne db.cases stamped })

/-- The method `addHistoryEntry(action, actionBy, description)`; `now` is `new Date()`. -/
def Case.addHistoryEntry (c : Case) (now : Date) (action : String) (actionBy : ObjectId)
    (description : String) : Case :=
  let entry : HistoryEntry :=
    { action := action, actionBy := actionBy, description := description, actionDate := now }
  { c with caseHistory := c.caseHistory ++ [entry] }

/-! ## `registerCase` -/

/-- The body of `POST /api/cases`. -/
structure RegisterBody where
  title : Option String
  description : Option String
  caseType : Option String
  courtType : Option String
  priority : Option String
  parties : Option (List Party)
  assignedJudge : Option ObjectId
  courtNumber : Option String
  causeOfAction : Option String
  reliefSought : Option String
deriving DecidableEq, Repr

/-- The loop over the parties: the first failing party ends the request with its response;
`none` means every party passed. -/
def checkParties (users : List User) (parties : List Party) : Option (Response Case) :=
  match parties with
  | [] => none
  | party :: rest =>
    match User.findById users party.user with
    | none =>
      some (Response.failure HTTP_STATUS.BAD_REQUEST
        ("User not found for party: " ++ showId party.user))
    | some user =>
      if some user.role ≠ prop USER_ROLES "USER" then
        some (Response.failure HTTP_STATUS.BAD_REQUEST
          "Only users with \x27user\x27 role can be parties in a case")
      else
        match party.assignedLawyer with
        | some lawyerId =>
          match User.findById users (some lawyerId) with
          | none =>
            some (Response.failure HTTP_STATUS.BAD_REQUEST
              ("Invalid lawyer assignment for " ++ party.role))
          | some lawyer =>
            if some lawyer.role ≠ prop USER_ROLES "LAWYER" then
              some (Response.failure HTTP_STATUS.BAD_REQUEST
                ("Invalid lawyer assignment for " ++ party.role))
            else checkParties users rest
        | none => checkParties users rest

/-- The check on the optional `assignedJudge` of a registration: `true` when it is absent
or resolves to a judge. -/
def judgeOk (users : List User) (judgeId : Option ObjectId) : Bool :=
  match judgeId with
  | none => true
  | some j =>
    match User.findById users (some j) with
    | none => false
    | some judge => decide (some judge.role = prop USER_ROLES "JUDGE")

/-- The document `new Case(...)` builds in `registerCase`, schema defaults applied. -/
def newCase (env : Env) (user : Principal) (body : RegisterBody) (parties : List Party) : Case :=
  { _id := env.newId
    caseNumber := none
    registrationDate := env.now
    registeredBy := user.id
    title := body.title.map trimText
    caseType := body.caseType
    courtType := body.courtType
    parties := parties
    assignedJudge := body.assignedJudge
    courtNumber := body.courtNumber
    status := prop CASE_STATUS "REGISTERED"
    priority := some (body.priority.getD "normal")
    description := body.description
    causeOfAction := body.causeOfAction
    reliefSought := body.reliefSought
    hearings := []
    nextHearing := none
    orders := []
    caseHistory := []
    isDisposed := false
    disposalDate := none
    isActive := true
    createdAt := none
    updatedAt := none }

/-- The new document with its first history entry, as `registerCase` hands it to `save()`. -/
def createdCase (env : Env) (user : Principal) (body : RegisterBody) (parties : List Party) :
    Case :=
  (newCase env user body parties).addHistoryEntry env.now "CASE_REGISTERED" user.id
    ("Case registered by " ++ user.firstName ++ " " ++ user.lastName)

/-- The handler `registerCase`.  The response carries the saved document (`populate`, which
only decorates the references of the copy sent back, is not embedded). -/
def registerCase (env : Env) (db : Db) (user : Principal) (body : RegisterBody) :
    Response Case × Db :=
  if some user.role ≠ prop USER_ROLES "REGISTRAR" then
    (Response.failure HTTP_STATUS.FORBIDDEN "Only court registrars can register new cases", db)
  else
    match body.parties with
    | none =>
      (Response.failure HTTP_STATUS.BAD_REQUEST
        "Title, description, case type, court type, and parties are required", db)
    | some parties =>
      if !truthy body.title || !truthy body.description || !truthy body.caseType ||
          !truthy body.courtType || decide (parties.length = 0) then
        (Response.failure HTTP_STATUS.BAD_REQUEST
          "Title, description, case type, court type, and parties are required", db)
      else
        let hasPetitioner := parties.any (fun party => decide (party.role = "petitioner"))
        let hasRespondent := parties.any (fun party => decide (party.role = "respondent"))
        if !hasPetitioner || !hasRespondent then
          (Response.failure HTTP_STATUS.BAD_REQUEST
            "Case must have at least one petitioner and one respondent", db)
        else
          match checkParties db.users parties with
          | some response => (response, db)
          | none =>
            if !judgeOk db.users body.assignedJudge then
              (Response.failure HTTP_STATUS.BAD_REQUEST "Invalid judge assignment", db)
            else
              match Case.save env db true (createdCase env user body parties) with
              | none => (Response.serverError, db)
              | some (saved, db1) =>
                ({ status := HTTP_STATUS.CREATED, success := true,
                   message := some MESSAGES.CASE_CREATED, data := some saved }, db1)

/-! ## `getCases`: the query filter -/

/-- The query string of `GET /api/cases`, without the paging and sorting keys. -/
structure CasesQuery where
  status : Option String
  caseType : Option String
  priority : Option String
  search : Option String
deriving DecidableEq, Repr

/-- One alternative of a `$or` list. -/
inductive Clause where
  | assignedJudgeIs (id : ObjectId)
  | assignedJudgeMissing
  | titleRegex (pattern : String)
  | caseNumberRegex (pattern : String)
  | descriptionRegex (pattern : String)
deriving DecidableEq, Repr

/-- The filter object the handlers build; a key that was never assigned is `none`.  The
value assigned to `status` can itself be `undefined`. -/
structure Filter where
  isActive : Option Bool
  or : Option (List Clause)
  partiesAssignedLawyer : Option ObjectId
  partiesUser : Option ObjectId
  assignedJudge : Option ObjectId
  status : Option (Option String)
  caseType : Option String
  priority : Option String
deriving DecidableEq, Repr

/-- The filter `\x7b isActive: true \x7d`. -/
def Filter.base : Filter :=
  { isActive := some true, or := none, partiesAssignedLawyer := none, partiesUser := none,
    assignedJudge := none, status := none, caseType := none, priority := none }

/-- Whether a document satisfies one alternative of a `$or` list. -/
def Clause.holds (env : Env) (cl : Clause) (c : Case) : Bool :=
  match cl with
  | .assignedJudgeIs id => decide (c.assignedJudge = some id)
  | .assignedJudgeMissing => c.assignedJudge.isNone
  | .titleRegex pattern =>
    match c.title with
    | none => false
    | some text => env.regexTest pattern text
  | .caseNumberRegex pattern =>
    match c.caseNumber with
    | none => false
    | some text => env.regexTest pattern text
  | .descriptionRegex pattern =>
    match c.description with
    | none => false
    | some text => env.regexTest pattern text

/-- One equality condition of a filter on an optional path; an unassigned key binds nothing. -/
def keyHolds {α : Type} [DecidableEq α] (key : Option α) (value : Option α) : Bool :=
  match key with
  | none => true
  | some k => decide (value = some k)

/-- The condition on `status`.  A key whose value is `undefined` binds nothing when the
driver drops it; sent as `null` it matches the documents without the path. -/
def statusHolds (env : Env) (key : Option (Option String)) (value : Option String) : Bool :=
  match key with
  | none => true
  | some none => env.ignoreUndefined || value.isNone
  | some (some wanted) => decide (value = some wanted)

/-- Whether a document matches a filter: every assigned key must hold. -/
def Filter.matches (env : Env) (f : Filter) (c : Case) : Bool :=
  keyHolds f.isActive (some c.isActive) &&
  (match f.or with
   | none => true
   | some clauses => clauses.any (fun cl => cl.holds env c)) &&
  (match f.partiesAssignedLawyer with
   | none => true
   | some id => c.parties.any (fun party => decide (party.assignedLawyer = some id))) &&
  (match f.partiesUser with
   | none => true
   | some id => c.parties.any (fun party => decide (party.user = some id))) &&
  keyHolds f.assignedJudge c.assignedJudge &&
  statusHolds env f.status c.status &&
  keyHolds f.caseType c.caseType &&
  keyHolds f.priority c.priority

/-- The role switch of `getCases`; `none` is the default branch, which answers 403. -/
def roleFilter (user : Principal) : Option Filter :=
  if some user.role = prop USER_ROLES "REGISTRAR" then some Filter.base
  else if some user.role = prop USER_ROLES "JUDGE" then
    some { Filter.base with
      or := some [Clause.assignedJudgeIs user.id, Clause.assignedJudgeMissing] }
  else if some user.role = prop USER_ROLES "LAWYER" then
    some { Filter.base with partiesAssignedLawyer := some user.id }
  else if some user.role = prop USER_ROLES "USER" then
    some { Filter.base with partiesUser := some user.id }
  else none

/-- The statements under "Apply additional filters": each assigns a key of the filter. -/
def applyQuery (filter : Filter) (q : CasesQuery) : Filter :=
  let f1 := if truthy q.status then { filter with status := some q.status } else filter
  let f2 := if truthy q.caseType then { f1 with caseType := q.caseType } else f1
  let f3 := if truthy q.priority then { f2 with priority := q.priority } else f2
  match q.search with
  | none => f3
  | some search =>
    if search ≠ "" then
      { f3 with or := some [Clause.titleRegex search, Clause.caseNumberRegex search,
                            Clause.descriptionRegex search] }
    else f3

/-- The filter `getCases` hands to `Case.find` and `Case.countDocuments`. -/
def getCasesFilter (user : Principal) (q : CasesQuery) : Option Filter :=
  match roleFilter user with
  | none => none
  | some filter => some (applyQuery filter q)

/-- The payload of `getCases`: the documents that match the filter, of which `sort`, `skip`
and `limit` send one page, and `totalCases`. -/
structure CaseList where
  matched : List Case
  totalCases : Nat
deriving DecidableEq, Repr

/-- The handler `getCases`, up to paging. -/
def getCases (env : Env) (db : Db) (user : Principal) (q : CasesQuery) : Response CaseList :=
  match getCasesFilter user q with
  | none => Response.failure HTTP_STATUS.FORBIDDEN MESSAGES.FORBIDDEN
  | some filter =>
    let matched := db.cases.filter (fun c => filter.matches env c)
    { status := HTTP_STATUS.OK, success := true, message := none,
      data := some { matched := matched, totalCases := matched.length } }

/-! ## `assignJudge` -/

/-- The body of `PUT /api/cases/:id/assign-judge`. -/
structure AssignJudgeBody where
  judgeId : Option ObjectId
  courtNumber : Option String
deriving DecidableEq, Repr

/-- The loaded document after the assignments of `assignJudge` and its history entry. -/
def assignedCase (env : Env) (user : Principal) (judge : User) (body : AssignJudgeBody)
    (caseData : Case) : Case :=
  let assigned : Case :=
    { caseData with assignedJudge := body.judgeId, courtNumber := body.courtNumber,
                    status := prop CASE_STATUS "ADMITTED" }
  assigned.addHistoryEntry env.now "JUDGE_ASSIGNED" user.id
    ("Judge " ++ judge.firstName ++ " " ++ judge.lastName ++ " assigned to case")

/-- The handler `assignJudge`. -/
def assignJudge (env : Env) (db : Db) (user : Principal) (id : ObjectId)
    (body : AssignJudgeBody) : Response Case × Db :=
  if some user.role ∉ [prop USER_ROLES "REGISTRAR", prop USER_ROLES "ADMIN"] then
    (Response.failure HTTP_STATUS.FORBIDDEN "Only registrars or admins can assign judges", db)
  else
    match User.findById db.users body.judgeId with
    | none => (Response.failure HTTP_STATUS.BAD_REQUEST "Invalid judge ID", db)
    | some judge =>
      if some judge.role ≠ prop USER_ROLES "JUDGE" then
        (Response.failure HTTP_STATUS.BAD_REQUEST "Invalid judge ID", db)
      else
        match Case.findById db.cases id with
        | none => (Response.failure HTTP_STATUS.NOT_FOUND MESSAGES.CASE_NOT_FOUND, db)
        | some caseData =>
          match Case.save env db false (assignedCase env user judge body caseData) with
          | none => (Response.serverError, db)
          | some (saved, db1) =>
            ({ status := HTTP_STATUS.OK, success := true,
               message := some "Judge assigned successfully", data := some saved }, db1)

/-! ## `scheduleHearing` -/

/-- The body of `POST /api/cases/:id/hearings`. -/
structure HearingBody where
  hearingDate : Option String
  hearingTime : Option String
  hearingType : Option String
  courtRoom : Option String
  remarks : Option String
deriving DecidableEq, Repr

/-- The hearing object `scheduleHearing` builds. -/
def newHearing (env : Env) (user : Principal) (body : HearingBody) (caseData : Case) : Hearing :=
  { hearingDate := body.hearingDate.bind env.parseDate
    hearingTime := body.hearingTime
    hearingType := body.hearingType
    courtRoom := body.courtRoom
    judge := caseData.assignedJudge.getD user.id
    status := "scheduled"
    remarks := body.remarks }

/-- The loaded document after the mutations of `scheduleHearing` and its history entry. -/
def scheduledCase (env : Env) (user : Principal) (body : HearingBody) (caseData : Case) : Case :=
  let hearing := newHearing env user body caseData
  let next : NextHearing :=
    { date := hearing.hearingDate, time := hearing.hearingTime,
      courtRoom := hearing.courtRoom, purpose := hearing.hearingType }
  let scheduled : Case :=
    { caseData with hearings := caseData.hearings ++ [hearing], nextHearing := some next,
                    status := prop CASE_STATUS "PENDING" }
  scheduled.addHistoryEntry env.now "HEARING_SCHEDULED" user.id
    ("Hearing scheduled for " ++ showText body.hearingDate ++ " at " ++
      showText body.hearingTime)

/-- The handler `scheduleHearing`. -/
def scheduleHearing (env : Env) (db : Db) (user : Principal) (id : ObjectId)
    (body : HearingBody) : Response Hearing × Db :=
  if some user.role ∉ [prop USER_ROLES "JUDGE", prop USER_ROLES "REGISTRAR"] then
    (Response.failure HTTP_STATUS.FORBIDDEN "Only judges or registrars can schedule hearings", db)
  else
    match Case.findById db.cases id with
    | none => (Response.failure HTTP_STATUS.NOT_FOUND MESSAGES.CASE_NOT_FOUND, db)
    | some caseData =>
      match Case.save env db false (scheduledCase env user body caseData) with
      | none => (Response.serverError, db)
      | some (saved, db1) =>
        ({ status := HTTP_STATUS.CREATED, success := true,
           message := some MESSAGES.HEARING_SCHEDULED, data := saved.hearings.getLast? }, db1)

/-! ## `addCaseOrder` -/

/-- The body of `POST /api/cases/:id/orders`. -/
structure OrderBody where
  orderType : Option String
  orderText : Option String
deriving DecidableEq, Repr

/-- The expression `t.charAt(0).toUpperCase() + t.slice(1)`. -/
def capitalize (t : String) : String :=
  match t.toList with
  | [] => ""
  | c :: cs => String.mk (c.toUpper :: cs)

/-- The order object `addCaseOrder` builds; `orderDate` is the schema default `Date.now`. -/
def newOrder (env : Env) (user : Principal) (body : OrderBody) : CaseOrder :=
  { orderDate := env.now, orderType := body.orderType, orderText := body.orderText,
    passedBy := user.id }

/-- The loaded document after the push of `addCaseOrder` and its history entry. -/
def orderedCase (env : Env) (user : Principal) (body : OrderBody) (orderType : String)
    (caseData : Case) : Case :=
  let ordered : Case := { caseData with orders := caseData.orders ++ [newOrder env user body] }
  ordered.addHistoryEntry env.now "ORDER_PASSED" user.id (capitalize orderType ++ " order passed")

/-- The handler `addCaseOrder`.  With `orderType` undefined the call `orderType.charAt`
throws, and the catch block answers 500. -/
def addCaseOrder (env : Env) (db : Db) (user : Principal) (id : ObjectId)
    (body : OrderBody) : Response CaseOrder × Db :=
  if some user.role ≠ prop USER_ROLES "JUDGE" then
    (Response.failure HTTP_STATUS.FORBIDDEN "Only judges can pass orders", db)
  else
    match Case.findById db.cases id with
    | none => (Response.failure HTTP_STATUS.NOT_FOUND MESSAGES.CASE_NOT_FOUND, db)
    | some caseData =>
      if caseData.assignedJudge ≠ some user.id then
        (Response.failure HTTP_STATUS.FORBIDDEN
          "You can only pass orders for cases assigned to you", db)
      else
        match body.orderType with
        | none => (Response.serverError, db)
        | some orderType =>
          match Case.save env db false (orderedCase env user body orderType caseData) with
          | none => (Response.serverError, db)
          | some (saved, db1) =>
            ({ status := HTTP_STATUS.CREATED, success := true,
               message := some "Order added successfully", data := saved.orders.getLast? }, db1)

/-! ## `updateCaseStatus` -/

/-- The body of `PUT /api/cases/:id/status`. -/
structure StatusBody where
  status : Option String
  remarks : Option String
deriving DecidableEq, Repr

/-- The loaded document after the mutations of `updateCaseStatus` and its history entry. -/
def statusCase (env : Env) (user : Principal) (body : StatusBody) (caseData : Case) : Case :=
  let oldStatus := caseData.status
  let changed : Case := { caseData with status := body.status }
  let disposed : Case :=
    if body.status = prop CASE_STATUS "DISPOSED" then
      { changed with isDisposed := true, disposalDate := some env.now }
    else changed
  disposed.addHistoryEntry env.now "STATUS_UPDATED" user.id
    ("Case status changed from " ++ showText oldStatus ++ " to " ++ showText body.status ++
      (if truthy body.remarks then ": " ++ showText body.remarks else ""))

/-- The handler `updateCaseStatus`. -/
def updateCaseStatus (env : Env) (db : Db) (user : Principal) (id : ObjectId)
    (body : StatusBody) : Response Case × Db :=
  if some user.role ∉ [prop USER_ROLES "JUDGE", prop USER_ROLES "REGISTRAR"] then
    (Response.failure HTTP_STATUS.FORBIDDEN
      "Only judges or registrars can update case status", db)
  else
    match Case.findById db.cases id with
    | none => (Response.failure HTTP_STATUS.NOT_FOUND MESSAGES.CASE_NOT_FOUND, db)
    | some caseData =>
      match Case.save env db false (statusCase env user body caseData) with
      | none => (Response.serverError, db)
      | some (saved, db1) =>
        ({ status := HTTP_STATUS.OK, success := true,
           message := some MESSAGES.CASE_UPDATED, data := some saved }, db1)

/-! ## `checkCaseAccess` and `getCaseById` -/

/-- The text `doc.toString()` of a populated user document: the object literal that
`util.inspect` prints for the document (line breaks aside, with the fields of `User`). -/
def User.inspect (u : User) : String :=
  "\x7b _id: new ObjectId(\x27" ++ toString u._id ++ "\x27), firstName: \x27" ++
    u.firstName ++ "\x27, lastName: \x27" ++ u.lastName ++ "\x27 \x7d"

/-- The text of an id, as `req.user.id` carries it. -/
def idText (id : ObjectId) : String := toString id

/-- An element of `parties` after `populate`: each reference is the user document it
resolves to, `none` (`null`) when it resolves to none. -/
structure PopulatedParty where
  user : Option User
  role : String
  assignedLawyer : Option User
  isMainParty : Bool
deriving DecidableEq, Repr

/-- The document `getCaseById` works with: the stored case with the references
`assignedJudge`, `parties.user` and `parties.assignedLawyer` populated. -/
structure PopulatedCase where
  stored : Case
  assignedJudge : Option User
  parties : List PopulatedParty

/-- The chain `.populate(assignedJudge).populate(parties.user).populate(parties.assignedLawyer)`
of `getCaseById`, on the references `checkCaseAccess` reads. -/
def populate (users : List User) (c : Case) : PopulatedCase :=
  { stored := c
    assignedJudge := User.findById users c.assignedJudge
    parties := c.parties.map (fun party =>
      { user := User.findById users party.user, role := party.role,
        assignedLawyer := User.findById users party.assignedLawyer,
        isMainParty := party.isMainParty }) }

/-- The test `parties.some(party => party.user.toString() === id)`.  `none` is the
TypeError that `toString` throws at a party whose user is `null`, which ends the
iteration. -/
def someUserIs (parties : List PopulatedParty) (id : String) : Option Bool :=
  match parties with
  | [] => some false
  | party :: rest =>
    match party.user with
    | none => none
    | some doc => if doc.inspect = id then some true else someUserIs rest id

/-- The helper `checkCaseAccess`, on the populated document its one caller passes; `none`
is a thrown error. -/
def checkCaseAccess (user : Principal) (caseData : PopulatedCase) : Option Bool :=
  if some user.role = prop USER_ROLES "REGISTRAR" then some true
  else if some user.role = prop USER_ROLES "JUDGE" then
    match caseData.assignedJudge with
    | none => some true
    | some doc => some (decide (doc.inspect = idText user.id))
  else if some user.role = prop USER_ROLES "LAWYER" then
    some (caseData.parties.any (fun party =>
      match party.assignedLawyer with
      | none => false
      | some doc => decide (doc.inspect = idText user.id)))
  else if some user.role = prop USER_ROLES "USER" then
    someUserIs caseData.parties (idText user.id)
  else some false

/-- The handler `getCaseById`. -/
def getCaseById (db : Db) (user : Principal) (id : ObjectId) : Response PopulatedCase :=
  match Case.findById db.cases id with
  | none => Response.failure HTTP_STATUS.NOT_FOUND MESSAGES.CASE_NOT_FOUND
  | some stored =>
    let caseData := populate db.users stored
    match checkCaseAccess user caseData with
    | none => Response.serverError
    | some hasAccess =>
      if !hasAccess then Response.failure HTTP_STATUS.FORBIDDEN MESSAGES.FORBIDDEN
      else { status := HTTP_STATUS.OK, success := true, message := none, data := some caseData }

/-! ## `getDashboardStats` -/

/-- The object `stats` of the response. -/
structure DashboardStats where
  registered : Nat
  pending : Nat
  inProgress : Nat
  disposed : Nat
  total : Nat
deriving DecidableEq, Repr

/-- `Case.countDocuments(filter)`. -/
def countDocuments (env : Env) (cases : List Case) (filter : Filter) : Nat :=
  cases.countP (fun c => filter.matches env c)

/-- The role switch of `getDashboardStats`, which has three cases and no default. -/
def statsFilter (user : Principal) : Filter :=
  if some user.role = prop USER_ROLES "JUDGE" then
    { Filter.base with assignedJudge := some user.id }
  else if some user.role = prop USER_ROLES "LAWYER" then
    { Filter.base with partiesAssignedLawyer := some user.id }
  else if some user.role = prop USER_ROLES "USER" then
    { Filter.base with partiesUser := some user.id }
  else Filter.base

/-- The handler `getDashboardStats`. -/
def getDashboardStats (env : Env) (db : Db) (user : Principal) : Response DashboardStats :=
  let filter := statsFilter user
  let stats : DashboardStats :=
    { registered :=
        countDocuments env db.cases { filter with status := some (prop CASE_STATUS "REGISTERED") }
      pending :=
        countDocuments env db.cases { filter with status := some (prop CASE_STATUS "PENDING") }
      inProgress :=
        countDocuments env db.cases
          { filter with status := some (prop CASE_STATUS "IN_PROGRESS") }
      disposed :=
        countDocuments env db.cases { filter with status := some (prop CASE_STATUS "DISPOSED") }
      total := countDocuments env db.cases filter }
  { status := HTTP_STATUS.OK, success := true, message := none, data := some stats }

/-! ## Sequences of requests -/

/-- A request to one of the five lifecycle handlers. -/
inductive Request where
  | register (user : Principal) (body : RegisterBody)
  | assign (user : Principal) (id : ObjectId) (body : AssignJudgeBody)
  | schedule (user : Principal) (id : ObjectId) (body : HearingBody)
  | order (user : Principal) (id : ObjectId) (body : OrderBody)
  | status (user : Principal) (id : ObjectId) (body : StatusBody)

/-- The database a request leaves behind, whether it succeeds or fails. -/
def step (db : Db) (env : Env) (request : Request) : Db :=
  match request with
  | .register user body => (registerCase env db user body).2
  | .assign user id body => (assignJudge env db user id body).2
  | .schedule user id body => (scheduleHearing env db user id body).2
  | .order user id body => (addCaseOrder env db user id body).2
  | .status user id body => (updateCaseStatus env db user id body).2

/-- The requests of a trace served one after another, each in its own environment. -/
def run (db : Db) (trace : List (Env × Request)) : Db :=
  trace.foldl (fun current item => step current item.1 item.2) db

/-- The acting principal of a request. -/
def Request.user (request : Request) : Principal :=
  match request with
  | .register user _ => user
  | .assign user _ _ => user
  | .schedule user _ _ => user
  | .order user _ _ => user
  | .status user _ _ => user

/-- Whether the request is one of the four mutations and names the case `id`. -/
def Request.mutates (request : Request) (id : ObjectId) : Bool :=
  match request with
  | .register _ _ => false
  | .assign _ target _ => decide (target = id)
  | .schedule _ target _ => decide (target = id)
  | .order _ target _ => decide (target = id)
  | .status _ target _ => decide (target = id)

/-- The field `success` of the response to a request. -/
def succeeds (db : Db) (env : Env) (request : Request) : Bool :=
  match request with
  | .register user body => (registerCase env db user body).1.success
  | .assign user id body => (assignJudge env db user id body).1.success
  | .schedule user id body => (scheduleHearing env db user id body).1.success
  | .order user id body => (addCaseOrder env db user id body).1.success
  | .status user id body => (updateCaseStatus env db user id body).1.success

/-- The number of requests of a trace that are mutations of the case `id` and succeed. -/
def countMutations (id : ObjectId) (db : Db) (trace : List (Env × Request)) : Nat :=
  match trace with
  | [] => 0
  | item :: rest =>
    (if item.2.mutates id && succeeds db item.1 item.2 then 1 else 0) +
      countMutations id (step db item.1 item.2) rest

/-! ## Vocabulary of the properties -/

/-- A document as `save()` leaves it in the collection: it passes the schema validators
and carries a case number. -/
def Case.wellFormed (c : Case) : Bool :=
  c.validate && truthy c.caseNumber

/-- Order fields that pass `caseOrderSchema`: a listed order type and a non-empty text. -/
def OrderBody.wellFormed (body : OrderBody) : Bool :=
  requiredText body.orderType && enumText orderTypeValues body.orderType &&
  requiredText body.orderText

/-- The id resolves to an existing user document with the given role. -/
def resolvesTo (users : List User) (id : Option ObjectId) (role : String) : Bool :=
  match User.findById users id with
  | none => false
  | some u => decide (u.role = role)

/-- The invariant on `parties`: a petitioner, a respondent, every party a `user`, every
assigned lawyer a `lawyer`. -/
def partiesInvariant (users : List User) (c : Case) : Prop :=
  (∃ party ∈ c.parties, party.role = "petitioner") ∧
  (∃ party ∈ c.parties, party.role = "respondent") ∧
  (∀ party ∈ c.parties, resolvesTo users party.user "user" = true) ∧
  (∀ party ∈ c.parties, ∀ lawyerId, party.assignedLawyer = some lawyerId →
    resolvesTo users (some lawyerId) "lawyer" = true)

/-- The invariant on `assignedJudge`: absent, or the id of a `judge`. -/
def judgeInvariant (users : List User) (c : Case) : Prop :=
  ∀ judgeId, c.assignedJudge = some judgeId → resolvesTo users (some judgeId) "judge" = true

/-- The court codes of a case number as the specification lists them. -/
def courtCodes : List (String × String) :=
  [("district_court", "DC"), ("high_court", "HC"), ("supreme_court", "SC"),
   ("family_court", "FC"), ("commercial_court", "CC")]

/-- The court code of a court type in the words of the specification: the listed code, and
CT for every other court type. -/
def specCourtCode (courtType : Option String) : String :=
  match courtType with
  | none => "CT"
  | some listed => (courtCodes.lookup listed).getD "CT"

/-- A number left-padded with zeros to four digits: its decimal digits, preceded by as many
zeros as it has digits fewer than four. -/
def fourDigitText (n : Nat) : String :=
  String.mk (List.replicate (4 - (Nat.toDigits 10 n).length) '0' ++ Nat.toDigits 10 n)

/-- The case number in the words of the specification, for a court type, a year and the
count of cases already created in that year. -/
def specCaseNumber (courtType : Option String) (year count : Nat) : String :=
  specCourtCode courtType ++ "/" ++ toString year ++ "/" ++ fourDigitText (count + 1)

/-- The number of cases created in a calendar year. -/
def createdInYear (cases : List Case) (year : Nat) : Nat :=
  cases.countP (fun c => decide (c.createdAt.map Date.year = some year))

/-- The text consists of `n` capital letters. -/
def isCapitals (n : Nat) (text : List Char) : Bool :=
  decide (text.length = n) && text.all Char.isUpper

/-- The text consists of `n` decimal digits. -/
def isDigits (n : Nat) (text : List Char) : Bool :=
  decide (text.length = n) && text.all Char.isDigit

/-- The pattern of a case number: two or three capital letters, a slash, four digits, a
slash, four digits, and nothing else. -/
def matchesCaseNumberPattern (text : String) : Bool :=
  match text.toList.splitOn '/' with
  | [code, year, sequence] =>
    (isCapitals 2 code || isCapitals 3 code) && isDigits 4 year && isDigits 4 sequence
  | _ => false

/-- The sequence number the pre-save hook generates while a request is served: for a
registration that succeeds, the count of cases created in the year of the request, plus
one; none for every other request. -/
def generatedSequence (db : Db) (env : Env) (request : Request) : List Nat :=
  match request with
  | .register _ _ =>
    if succeeds db env request then [countCreatedIn db.cases env.now.year + 1] else []
  | _ => []

/-- The sequence numbers generated along a trace, in the order of the requests. -/
def sequenceNumbers (db : Db) (trace : List (Env × Request)) : List Nat :=
  match trace with
  | [] => []
  | item :: rest =>
    generatedSequence db item.1 item.2 ++ sequenceNumbers (step db item.1 item.2) rest

/-- The cache `nextHearing` shows the last element of `hearings`, when there is one. -/
def mirrorsLastHearing (c : Case) : Prop :=
  ∀ hearing, c.hearings.getLast? = some hearing →
    c.nextHearing = some ⟨hearing.hearingDate, hearing.hearingTime, hearing.courtRoom,
      hearing.hearingType⟩

/-- The invariant on disposal: a disposed status comes with the flag, and the flag with a
disposal date. -/
def disposalInvariant (c : Case) : Prop :=
  (c.status = some "disposed" → c.isDisposed = true) ∧
  (c.isDisposed = true → c.disposalDate ≠ none)

/-- The second document has the title, description, case type, court type, parties and
registrar of the first. -/
def keepsBusinessFacts (before after : Case) : Prop :=
  after.title = before.title ∧ after.description = before.description ∧
  after.caseType = before.caseType ∧ after.courtType = before.courtType ∧
  after.parties = before.parties ∧ after.registeredBy = before.registeredBy

/-- The status values the specification gives a case along its lifecycle: registered at
creation, admitted after `assignJudge`, pending after `scheduleHearing`, in_progress (a
bucket of the dashboard) and disposed. -/
def specStatuses : List String :=
  ["registered", "admitted", "pending", "in_progress", "disposed"]

/-! ## Sample data -/

/-- A `$regex` with option `i` whose pattern has no metacharacter: the text contains the
pattern, letter case aside. -/
def containsIgnoreCase (pattern text : String) : Bool :=
  let needle := pattern.toList.map Char.toLower
  (text.toList.map Char.toLower).tails.any (fun rest => needle.isPrefixOf rest)

namespace Sample

def users : List User :=
  [⟨1, "registrar", "Rana", "Khan"⟩, ⟨2, "judge", "Javed", "Iqbal"⟩,
   ⟨3, "user", "Umar", "Ali"⟩, ⟨4, "user", "Usman", "Butt"⟩,
   ⟨5, "lawyer", "Laila", "Shah"⟩, ⟨6, "judge", "Jamil", "Noor"⟩]

def env : Env :=
  { now := ⟨2025, 100⟩, newId := 10,
    parseDate := fun text => if text = "" then none else some ⟨2025, 5000⟩,
    regexTest := containsIgnoreCase, ignoreUndefined := false }

def registrar : Principal := ⟨1, "registrar", "Rana", "Khan"⟩
def judge : Principal := ⟨2, "judge", "Javed", "Iqbal"⟩
def otherJudge : Principal := ⟨6, "judge", "Jamil", "Noor"⟩
def lawyer : Principal := ⟨5, "lawyer", "Laila", "Shah"⟩

def parties : List Party :=
  [⟨some 3, "petitioner", some 5, true⟩, ⟨some 4, "respondent", none, false⟩]

def body : RegisterBody :=
  { title := some "Ali v Butt", description := some "Boundary dispute",
    caseType := some "civil", courtType := some "high_court", priority := none,
    parties := some parties, assignedJudge := none, courtNumber := none,
    causeOfAction := none, reliefSought := none }

/-- No case yet. -/
def db0 : Db := ⟨users, []⟩

/-- After the registrar registered `body`: one case, with `_id` 10. -/
def db1 : Db := (registerCase env db0 registrar body).2

/-- After the registrar assigned judge 2 to case 10. -/
def db2 : Db := (assignJudge env db1 registrar 10 ⟨some 2, some "Court 1"⟩).2

def hearingBody : HearingBody :=
  { hearingDate := some "2025-03-01", hearingTime := some "10:00",
    hearingType := some "first_hearing", courtRoom := some "Room 4", remarks := none }

def orderBody : OrderBody := { orderType := some "interim", orderText := some "Stay granted" }

/-- A whole life of the sample case: registration, judge assignment, a hearing, an order
and a status update. -/
def trace : List (Env × Request) :=
  [(env, .register registrar body),
   (env, .assign registrar 10 ⟨some 2, some "Court 1"⟩),
   (env, .schedule judge 10 hearingBody),
   (env, .order judge 10 orderBody),
   (env, .status judge 10 ⟨some "disposed", none⟩)]

/-- The collection of `db1` with its case soft-deleted (`isActive: false`). -/
def inactiveDb : Db :=
  { db1 with cases := db1.cases.map (fun c => { c with isActive := false }) }

/-- A principal whose role is none of the four. -/
def clerk : Principal := ⟨7, "clerk", "Kamran", "Aziz"⟩

/-- A litigant: user 3, the petitioner of the sample case. -/
def litigant : Principal := ⟨3, "user", "Umar", "Ali"⟩

/-- A query string without any explicit filter. -/
def noQuery : CasesQuery := ⟨none, none, none, none⟩

/-- The sample environment with the driver set to drop the filter keys whose value is
`undefined`. -/
def envDropping : Env := { env with ignoreUndefined := true }

/-- A case document created in 2025, with the given id and case number. -/
def stored (id : ObjectId) (caseNumber : String) : Case :=
  { _id := id, caseNumber := some caseNumber, registrationDate := ⟨2025, 1⟩,
    registeredBy := 1, title := some "Ali v Butt", caseType := some "civil",
    courtType := some "high_court", parties := parties, assignedJudge := none,
    courtNumber := none, status := some "registered", priority := some "normal",
    description := some "Boundary dispute", causeOfAction := none, reliefSought := none,
    hearings := [], nextHearing := none, orders := [], caseHistory := [],
    isDisposed := false, disposalDate := none, isActive := true,
    createdAt := some ⟨2025, 1⟩, updatedAt := some ⟨2025, 1⟩ }

/-- A collection of 9999 cases created in 2025. -/
def fullYear : List Case :=
  (List.range 9999).map (fun i => stored (100 + i) ("N" ++ toString i))

/-- The sample registration, as `registerCase` hands it to `save()`. -/
def draft : Case := createdCase env registrar body parties

/-- The other requests of the sample trace, after the registration. -/
def mutations : List (Env × Request) := trace.tail

/-- A second registration, in a district court, with judge 6 assigned. -/
def secondBody : RegisterBody :=
  { body with title := some "Shah v Mir", courtType := some "district_court",
              assignedJudge := some 6 }

/-- Two registrations in 2025, the second with a fresh id, around a judge assignment. -/
def registrations : List (Env × Request) :=
  [(env, .register registrar body),
   (env, .assign registrar 10 ⟨some 2, some "Court 1"⟩),
   ({ env with newId := 11 }, .register registrar secondBody)]

/-- The sample registration with a petitioner whose user id, 99, is the id of no user. -/
def unknownPartyBody : RegisterBody :=
  { body with parties := some [⟨some 99, "petitioner", none, true⟩,
                               ⟨some 4, "respondent", none, false⟩] }

end Sample

/-! # Properties -/

/-! ## Constants -/

theorem role_registrar : prop USER_ROLES "REGISTRAR" = some "registrar" := by decide
theorem role_judge : prop USER_ROLES "JUDGE" = some "judge" := by decide
theorem role_lawyer : prop USER_ROLES "LAWYER" = some "lawyer" := by decide
theorem role_user : prop USER_ROLES "USER" = some "user" := by decide
theorem role_admin : prop USER_ROLES "ADMIN" = none := by decide
theorem status_registered : prop CASE_STATUS "REGISTERED" = some "registered" := by decide
theorem status_disposed : prop CASE_STATUS "DISPOSED" = some "disposed" := by decide
theorem status_admitted : prop CASE_STATUS "ADMITTED" = none := by decide
theorem status_pending : prop CASE_STATUS "PENDING" = none := by decide

theorem mem_judge_registrar (role : String) :
    some role ∈ [prop USER_ROLES "JUDGE", prop USER_ROLES "REGISTRAR"] ↔
      role = "judge" ∨ role = "registrar" := by
  rw [role_judge, role_registrar]; simp

theorem mem_registrar_admin (role : String) :
    some role ∈ [prop USER_ROLES "REGISTRAR", prop USER_ROLES "ADMIN"] ↔ role = "registrar" := by
  rw [role_registrar, role_admin]; simp

/-! ## Lookups and writes -/

theorem findById_id {cases : List Case} {id : ObjectId} {c : Case}
    (h : Case.findById cases id = some c) : c._id = id := by
  unfold Case.findById at h
  have := List.find?_some h
  simpa using this

theorem findById_mem {cases : List Case} {id : ObjectId} {c : Case}
    (h : Case.findById cases id = some c) : c ∈ cases := by
  unfold Case.findById at h
  exact List.mem_of_find?_eq_some h

theorem mem_updateOne {cases : List Case} {s x : Case} (h : x ∈ updateOne cases s) :
    x ∈ cases ∨ x = s := by
  induction cases with
  | nil => simp [updateOne] at h
  | cons d ds ih =>
    unfold updateOne at h
    split at h
    · rcases List.mem_cons.1 h with h | h
      · exact Or.inr h
      · exact Or.inl (List.mem_cons_of_mem _ h)
    · rcases List.mem_cons.1 h with h | h
      · exact Or.inl (h ▸ List.mem_cons_self _ _)
      · rcases ih h with h | h
        · exact Or.inl (List.mem_cons_of_mem _ h)
        · exact Or.inr h

theorem findById_updateOne {cases : List Case} {id : ObjectId} {c s : Case}
    (h : Case.findById cases id = some c) (hs : s._id = id) :
    Case.findById (updateOne cases s) id = some s := by
  induction cases with
  | nil => simp [Case.findById] at h
  | cons d ds ih =>
    unfold updateOne
    by_cases hd : d._id = s._id
    · simp [hd, Case.findById, hs]
    · have hne : d._id ≠ id := by rw [← hs]; exact hd
      simp only [hd, if_false]
      simp only [Case.findById, List.find?_cons, hne, decide_False] at h ⊢
      exact ih h

/-! ## The pre-save hook, the timestamps and `save()` -/

theorem preSave_numbered (env : Env) (cases : List Case) (c : Case)
    (h : truthy c.caseNumber = true) : preSave env cases c = c := by
  simp [preSave, h]

theorem preSave_id (env : Env) (cases : List Case) (c : Case) :
    (preSave env cases c)._id = c._id := by
  unfold preSave; split <;> rfl

theorem preSave_parties (env : Env) (cases : List Case) (c : Case) :
    (preSave env cases c).parties = c.parties := by
  unfold preSave; split <;> rfl

theorem preSave_assignedJudge (env : Env) (cases : List Case) (c : Case) :
    (preSave env cases c).assignedJudge = c.assignedJudge := by
  unfold preSave; split <;> rfl

theorem preSave_courtNumber (env : Env) (cases : List Case) (c : Case) :
    (preSave env cases c).courtNumber = c.courtNumber := by
  unfold preSave; split <;> rfl

theorem preSave_status (env : Env) (cases : List Case) (c : Case) :
    (preSave env cases c).status = c.status := by
  unfold preSave; split <;> rfl

theorem preSave_registeredBy (env : Env) (cases : List Case) (c : Case) :
    (preSave env cases c).registeredBy = c.registeredBy := by
  unfold preSave; split <;> rfl

theorem preSave_caseHistory (env : Env) (cases : List Case) (c : Case) :
    (preSave env cases c).caseHistory = c.caseHistory := by
  unfold preSave; split <;> rfl

/-- What a successful `save()` did: the document was valid, the saved copy is the hooked
and stamped document, the users are untouched and the case is appended or rewritten. -/
theorem save_some {env : Env} {db db1 : Db} {isNew : Bool} {c s : Case}
    (h : Case.save env db isNew c = some (s, db1)) :
    c.validate = true ∧ s = stamp env isNew (preSave env db.cases c) ∧ db1.users = db.users ∧
      db1.cases = (if isNew then db.cases ++ [s] else updateOne db.cases s) := by
  unfold Case.save at h
  by_cases hv : c.validate = true
  · simp only [hv, Bool.not_true, Bool.false_eq_true, if_false] at h
    cases isNew with
    | true =>
      simp only [if_true] at h
      split at h
      · exact absurd h (by simp)
      · simp only [Option.some.injEq, Prod.mk.injEq] at h
        obtain ⟨h1, h2⟩ := h
        subst h1; subst h2
        exact ⟨hv, rfl, rfl, by simp⟩
    | false =>
      simp only [Bool.false_eq_true, if_false] at h
      split at h
      · exact absurd h (by simp)
      · simp only [Option.some.injEq, Prod.mk.injEq] at h
        obtain ⟨h1, h2⟩ := h
        subst h1; subst h2
        exact ⟨hv, rfl, rfl, by simp⟩
  · simp [hv] at h

/-- Saving a loaded, valid, numbered document succeeds and rewrites it in place. -/
theorem save_loaded (env : Env) (db : Db) (c : Case)
    (hv : c.validate = true) (hn : truthy c.caseNumber = true) :
    Case.save env db false c =
      some (stamp env false c, { db with cases := updateOne db.cases (stamp env false c) }) := by
  simp [Case.save, hv, hn, preSave_numbered]

/-! ## The documents the handlers hand to `save()` -/

theorem orderedCase_validate (env : Env) (user : Principal) (body : OrderBody) (t : String)
    (c : Case) :
    (orderedCase env user body t c).validate =
      (c.validate && (newOrder env user body).validate) := by
  simp only [orderedCase, Case.addHistoryEntry, Case.validate, List.all_append, List.all_cons,
    List.all_nil, Bool.and_true, Bool.and_assoc]

/-! ## Outcomes of the handlers -/

theorem checkParties_failure {users : List User} {parties : List Party} {r : Response Case}
    (h : checkParties users parties = some r) :
    r.status = HTTP_STATUS.BAD_REQUEST ∧ r.success = false ∧ r.data = none := by
  induction parties with
  | nil => simp [checkParties] at h
  | cons p ps ih =>
    unfold checkParties at h
    split at h
    · simp only [Option.some.injEq] at h; subst h; exact ⟨rfl, rfl, rfl⟩
    · split at h
      · simp only [Option.some.injEq] at h; subst h; exact ⟨rfl, rfl, rfl⟩
      · split at h
        · split at h
          · simp only [Option.some.injEq] at h; subst h; exact ⟨rfl, rfl, rfl⟩
          · split at h
            · simp only [Option.some.injEq] at h; subst h; exact ⟨rfl, rfl, rfl⟩
            · exact ih h
        · exact ih h

/-- Every way `registerCase` can end: a failure that leaves the database as it was, or a
saved document built from parties that passed every check. -/
theorem registerCase_outcome (env : Env) (db : Db) (user : Principal) (body : RegisterBody) :
    ((registerCase env db user body).1.success = false ∧
      (registerCase env db user body).1.data = none ∧
      (registerCase env db user body).2 = db) ∨
    (∃ parties saved db1,
      user.role = "registrar" ∧ body.parties = some parties ∧
      truthy body.title = true ∧ truthy body.description = true ∧
      truthy body.caseType = true ∧ truthy body.courtType = true ∧ parties ≠ [] ∧
      parties.any (fun party => decide (party.role = "petitioner")) = true ∧
      parties.any (fun party => decide (party.role = "respondent")) = true ∧
      checkParties db.users parties = none ∧ judgeOk db.users body.assignedJudge = true ∧
      Case.save env db true (createdCase env user body parties) = some (saved, db1) ∧
      registerCase env db user body =
        ({ status := HTTP_STATUS.CREATED, success := true,
           message := some MESSAGES.CASE_CREATED, data := some saved }, db1)) := by
  unfold registerCase
  by_cases hr : user.role = "registrar"
  · have hrole : ¬ (some user.role ≠ prop USER_ROLES "REGISTRAR") := by
      rw [hr, role_registrar]; simp
    rw [if_neg hrole]
    cases hp : body.parties with
    | none => left; exact ⟨rfl, rfl, rfl⟩
    | some parties =>
      simp only
      split
      · left; exact ⟨rfl, rfl, rfl⟩
      · rename_i h1
        simp only [Bool.or_eq_true, Bool.not_eq_true', decide_eq_true_eq, not_or,
          Bool.not_eq_false, List.length_eq_zero] at h1
        obtain ⟨⟨⟨⟨ht, hd⟩, hct⟩, hcourt⟩, hne⟩ := h1
        split
        · left; exact ⟨rfl, rfl, rfl⟩
        · rename_i h2
          simp only [Bool.or_eq_true, Bool.not_eq_true', not_or, Bool.not_eq_false] at h2
          cases hcp : checkParties db.users parties with
          | some r =>
            left; exact ⟨(checkParties_failure hcp).2.1, (checkParties_failure hcp).2.2, rfl⟩
          | none =>
            simp only
            split
            · left; exact ⟨rfl, rfl, rfl⟩
            · rename_i h3
              simp only [Bool.not_eq_true', Bool.not_eq_false] at h3
              cases hs : Case.save env db true (createdCase env user body parties) with
              | none => left; exact ⟨rfl, rfl, rfl⟩
              | some pr =>
                obtain ⟨saved, db1⟩ := pr
                right
                exact ⟨parties, saved, db1, hr, rfl, ht, hd, hct, hcourt, hne, h2.1, h2.2, hcp, h3, hs, rfl⟩
  · left
    simp [role_registrar, hr, Response.failure]


/-- Every way `assignJudge` can end. -/
theorem assignJudge_outcome (env : Env) (db : Db) (user : Principal) (id : ObjectId)
    (body : AssignJudgeBody) :
    ((assignJudge env db user id body).1.success = false ∧
      (assignJudge env db user id body).1.data = none ∧
      (assignJudge env db user id body).2 = db) ∨
    (∃ judge c saved db1,
      user.role = "registrar" ∧ User.findById db.users body.judgeId = some judge ∧
      judge.role = "judge" ∧ Case.findById db.cases id = some c ∧
      Case.save env db false (assignedCase env user judge body c) = some (saved, db1) ∧
      assignJudge env db user id body =
        ({ status := HTTP_STATUS.OK, success := true,
           message := some "Judge assigned successfully", data := some saved }, db1)) := by
  unfold assignJudge
  by_cases hr : user.role = "registrar"
  · have hrole : ¬ (some user.role ∉ [prop USER_ROLES "REGISTRAR", prop USER_ROLES "ADMIN"]) :=
      not_not.2 ((mem_registrar_admin _).2 hr)
    rw [if_neg hrole]
    cases hj : User.findById db.users body.judgeId with
    | none => left; exact ⟨rfl, rfl, rfl⟩
    | some judge =>
      simp only
      by_cases hjr : judge.role = "judge"
      · have hjrole : ¬ (some judge.role ≠ prop USER_ROLES "JUDGE") := by
          rw [hjr, role_judge]; simp
        rw [if_neg hjrole]
        cases hc : Case.findById db.cases id with
        | none => left; exact ⟨rfl, rfl, rfl⟩
        | some c =>
          simp only
          cases hs : Case.save env db false (assignedCase env user judge body c) with
          | none => left; exact ⟨rfl, rfl, rfl⟩
          | some pr =>
            obtain ⟨saved, db1⟩ := pr
            right
            exact ⟨judge, c, saved, db1, hr, rfl, hjr, rfl, hs, rfl⟩
      · have hjrole : some judge.role ≠ prop USER_ROLES "JUDGE" := by
          rw [role_judge]; simpa using hjr
        rw [if_pos hjrole]
        left; exact ⟨rfl, rfl, rfl⟩
  · left
    rw [if_pos (fun h => hr ((mem_registrar_admin _).1 h))]
    exact ⟨rfl, rfl, rfl⟩

/-- Every way `scheduleHearing` can end. -/
theorem scheduleHearing_outcome (env : Env) (db : Db) (user : Principal) (id : ObjectId)
    (body : HearingBody) :
    ((scheduleHearing env db user id body).1.success = false ∧
      (scheduleHearing env db user id body).1.data = none ∧
      (scheduleHearing env db user id body).2 = db) ∨
    (∃ c saved db1,
      (user.role = "judge" ∨ user.role = "registrar") ∧ Case.findById db.cases id = some c ∧
      Case.save env db false (scheduledCase env user body c) = some (saved, db1) ∧
      scheduleHearing env db user id body =
        ({ status := HTTP_STATUS.CREATED, success := true,
           message := some MESSAGES.HEARING_SCHEDULED, data := saved.hearings.getLast? }, db1)) := by
  unfold scheduleHearing
  by_cases hr : user.role = "judge" ∨ user.role = "registrar"
  · have hrole : ¬ (some user.role ∉ [prop USER_ROLES "JUDGE", prop USER_ROLES "REGISTRAR"]) :=
      not_not.2 ((mem_judge_registrar _).2 hr)
    rw [if_neg hrole]
    cases hc : Case.findById db.cases id with
    | none => left; exact ⟨rfl, rfl, rfl⟩
    | some c =>
      simp only
      cases hs : Case.save env db false (scheduledCase env user body c) with
      | none => left; exact ⟨rfl, rfl, rfl⟩
      | some pr =>
        obtain ⟨saved, db1⟩ := pr
        right
        exact ⟨c, saved, db1, hr, rfl, hs, rfl⟩
  · left
    have hrole : some user.role ∉ [prop USER_ROLES "JUDGE", prop USER_ROLES "REGISTRAR"] :=
      fun h => hr ((mem_judge_registrar _).1 h)
    rw [if_pos hrole]
    exact ⟨rfl, rfl, rfl⟩

/-- Every way `addCaseOrder` can end. -/
theorem addCaseOrder_outcome (env : Env) (db : Db) (user : Principal) (id : ObjectId)
    (body : OrderBody) :
    ((addCaseOrder env db user id body).1.success = false ∧
      (addCaseOrder env db user id body).1.data = none ∧
      (addCaseOrder env db user id body).2 = db) ∨
    (∃ c orderType saved db1,
      user.role = "judge" ∧ Case.findById db.cases id = some c ∧
      c.assignedJudge = some user.id ∧ body.orderType = some orderType ∧
      Case.save env db false (orderedCase env user body orderType c) = some (saved, db1) ∧
      addCaseOrder env db user id body =
        ({ status := HTTP_STATUS.CREATED, success := true,
           message := some "Order added successfully", data := saved.orders.getLast? }, db1)) := by
  unfold addCaseOrder
  by_cases hr : user.role = "judge"
  · have hrole : ¬ (some user.role ≠ prop USER_ROLES "JUDGE") := by
      rw [hr, role_judge]; simp
    rw [if_neg hrole]
    cases hc : Case.findById db.cases id with
    | none => left; exact ⟨rfl, rfl, rfl⟩
    | some c =>
      simp only
      by_cases hj : c.assignedJudge = some user.id
      · rw [if_neg (not_not.2 hj)]
        cases hot : body.orderType with
        | none => left; exact ⟨rfl, rfl, rfl⟩
        | some orderType =>
          simp only
          cases hs : Case.save env db false (orderedCase env user body orderType c) with
          | none => left; exact ⟨rfl, rfl, rfl⟩
          | some pr =>
            obtain ⟨saved, db1⟩ := pr
            right
            exact ⟨c, orderType, saved, db1, hr, rfl, hj, rfl, hs, rfl⟩
      · rw [if_pos hj]
        left; exact ⟨rfl, rfl, rfl⟩
  · left
    have hrole : some user.role ≠ prop USER_ROLES "JUDGE" := by
      rw [role_judge]; simpa using hr
    rw [if_pos hrole]
    exact ⟨rfl, rfl, rfl⟩

/-- Every way `updateCaseStatus` can end. -/
theorem updateCaseStatus_outcome (env : Env) (db : Db) (user : Principal) (id : ObjectId)
    (body : StatusBody) :
    ((updateCaseStatus env db user id body).1.success = false ∧
      (updateCaseStatus env db user id body).1.data = none ∧
      (updateCaseStatus env db user id body).2 = db) ∨
    (∃ c saved db1,
      (user.role = "judge" ∨ user.role = "registrar") ∧ Case.findById db.cases id = some c ∧
      Case.save env db false (statusCase env user body c) = some (saved, db1) ∧
      updateCaseStatus env db user id body =
        ({ status := HTTP_STATUS.OK, success := true,
           message := some MESSAGES.CASE_UPDATED, data := some saved }, db1)) := by
  unfold updateCaseStatus
  by_cases hr : user.role = "judge" ∨ user.role = "registrar"
  · have hrole : ¬ (some user.role ∉ [prop USER_ROLES "JUDGE", prop USER_ROLES "REGISTRAR"]) :=
      not_not.2 ((mem_judge_registrar _).2 hr)
    rw [if_neg hrole]
    cases hc : Case.findById db.cases id with
    | none => left; exact ⟨rfl, rfl, rfl⟩
    | some c =>
      simp only
      cases hs : Case.save env db false (statusCase env user body c) with
      | none => left; exact ⟨rfl, rfl, rfl⟩
      | some pr =>
        obtain ⟨saved, db1⟩ := pr
        right
        exact ⟨c, saved, db1, hr, rfl, hs, rfl⟩
  · left
    have hrole : some user.role ∉ [prop USER_ROLES "JUDGE", prop USER_ROLES "REGISTRAR"] :=
      fun h => hr ((mem_judge_registrar _).1 h)
    rw [if_pos hrole]
    exact ⟨rfl, rfl, rfl⟩

/-! ## Invariants along a trace -/

theorem checkParties_none {users : List User} {parties : List Party}
    (h : checkParties users parties = none) :
    ∀ party ∈ parties, resolvesTo users party.user "user" = true ∧
      ∀ lawyerId, party.assignedLawyer = some lawyerId →
        resolvesTo users (some lawyerId) "lawyer" = true := by
  induction parties with
  | nil => intro party hp; simp at hp
  | cons p ps ih =>
    unfold checkParties at h
    split at h
    · exact absurd h (by simp)
    · rename_i u hu
      split at h
      · exact absurd h (by simp)
      · rename_i hrole
        have huser : resolvesTo users p.user "user" = true := by
          rw [role_user] at hrole
          simp only [ne_eq, Option.some.injEq, not_not] at hrole
          simp [resolvesTo, hu, hrole]
        split at h
        · rename_i l hl
          split at h
          · exact absurd h (by simp)
          · rename_i lw hlw
            split at h
            · exact absurd h (by simp)
            · rename_i hlrole
              rw [role_lawyer] at hlrole
              simp only [ne_eq, Option.some.injEq, not_not] at hlrole
              intro party hp
              rcases List.mem_cons.1 hp with hp | hp
              · subst hp
                refine ⟨huser, ?_⟩
                intro lawyerId hl2
                rw [hl] at hl2
                simp only [Option.some.injEq] at hl2
                subst hl2
                simp [resolvesTo, hlw, hlrole]
              · exact ih h party hp
        · rename_i hl
          intro party hp
          rcases List.mem_cons.1 hp with hp | hp
          · subst hp
            refine ⟨huser, ?_⟩
            intro lawyerId hl2
            rw [hl] at hl2
            exact absurd hl2 (by simp)
          · exact ih h party hp

theorem judgeOk_resolves {users : List User} {judgeId : ObjectId}
    (h : judgeOk users (some judgeId) = true) : resolvesTo users (some judgeId) "judge" = true := by
  unfold judgeOk at h
  simp only at h
  unfold resolvesTo
  split at h
  · exact absurd h (by simp)
  · rw [role_judge] at h
    simpa using h

/-- Both invariants on one case. -/
theorem saved_parties {env : Env} {db db1 : Db} {isNew : Bool} {c s : Case}
    (h : Case.save env db isNew c = some (s, db1)) : s.parties = c.parties := by
  rw [(save_some h).2.1]
  show (preSave env db.cases c).parties = _
  exact preSave_parties _ _ _

theorem saved_assignedJudge {env : Env} {db db1 : Db} {isNew : Bool} {c s : Case}
    (h : Case.save env db isNew c = some (s, db1)) : s.assignedJudge = c.assignedJudge := by
  rw [(save_some h).2.1]
  show (preSave env db.cases c).assignedJudge = _
  exact preSave_assignedJudge _ _ _

theorem statusCase_parties (env : Env) (user : Principal) (body : StatusBody) (c : Case) :
    (statusCase env user body c).parties = c.parties := by
  unfold statusCase; simp only [Case.addHistoryEntry]; split <;> rfl

theorem statusCase_assignedJudge (env : Env) (user : Principal) (body : StatusBody) (c : Case) :
    (statusCase env user body c).assignedJudge = c.assignedJudge := by
  unfold statusCase; simp only [Case.addHistoryEntry]; split <;> rfl

theorem step_users (db : Db) (env : Env) (request : Request) :
    (step db env request).users = db.users := by
  cases request with
  | register user body =>
    rcases registerCase_outcome env db user body with
      ⟨_, _, h⟩ | ⟨_, _, _, _, _, _, _, _, _, _, _, _, _, _, hs, heq⟩
    · show (registerCase env db user body).2.users = _
      rw [h]
    · show (registerCase env db user body).2.users = _
      rw [heq]; exact (save_some hs).2.2.1
  | assign user id body =>
    rcases assignJudge_outcome env db user id body with
      ⟨_, _, h⟩ | ⟨_, _, _, _, _, _, _, _, hs, heq⟩
    · show (assignJudge env db user id body).2.users = _
      rw [h]
    · show (assignJudge env db user id body).2.users = _
      rw [heq]; exact (save_some hs).2.2.1
  | schedule user id body =>
    rcases scheduleHearing_outcome env db user id body with
      ⟨_, _, h⟩ | ⟨_, _, _, _, _, hs, heq⟩
    · show (scheduleHearing env db user id body).2.users = _
      rw [h]
    · show (scheduleHearing env db user id body).2.users = _
      rw [heq]; exact (save_some hs).2.2.1
  | order user id body =>
    rcases addCaseOrder_outcome env db user id body with
      ⟨_, _, h⟩ | ⟨_, _, _, _, _, _, _, _, hs, heq⟩
    · show (addCaseOrder env db user id body).2.users = _
      rw [h]
    · show (addCaseOrder env db user id body).2.users = _
      rw [heq]; exact (save_some hs).2.2.1
  | status user id body =>
    rcases updateCaseStatus_outcome env db user id body with
      ⟨_, _, h⟩ | ⟨_, _, _, _, _, hs, heq⟩
    · show (updateCaseStatus env db user id body).2.users = _
      rw [h]
    · show (updateCaseStatus env db user id body).2.users = _
      rw [heq]; exact (save_some hs).2.2.1

/-- What one request can do to the collection: every case afterwards was there before, or
has the parties of a case that was there and either its judge or a judge the handler
resolved, or is a new case whose parties and judge passed the checks of `registerCase`. -/
theorem step_cases (db : Db) (env : Env) (request : Request) (x : Case)
    (hx : x ∈ (step db env request).cases) :
    x ∈ db.cases ∨
    (∃ c ∈ db.cases, x.parties = c.parties ∧
      (x.assignedJudge = c.assignedJudge ∨
        ∃ judgeId, x.assignedJudge = some judgeId ∧
          resolvesTo db.users (some judgeId) "judge" = true)) ∨
    (x.parties.any (fun party => decide (party.role = "petitioner")) = true ∧
      x.parties.any (fun party => decide (party.role = "respondent")) = true ∧
      checkParties db.users x.parties = none ∧ judgeOk db.users x.assignedJudge = true) := by
  cases request with
  | register user body =>
    rcases registerCase_outcome env db user body with
      ⟨_, _, h⟩ | ⟨ps, s, db1, _, _, _, _, _, _, _, hpet, hres, hcp, hj, hs, heq⟩
    · left
      have : (step db env (.register user body)) = db := h
      rwa [this] at hx
    · have hdb : (step db env (.register user body)) = db1 := by
        show (registerCase env db user body).2 = db1
        rw [heq]
      rw [hdb, (save_some hs).2.2.2] at hx
      simp only [if_true, List.mem_append, List.mem_singleton] at hx
      rcases hx with hx | hx
      · exact Or.inl hx
      · right; right
        subst hx
        have hp : x.parties = ps := saved_parties hs
        have hja : x.assignedJudge = body.assignedJudge := saved_assignedJudge hs
        rw [hp, hja]
        exact ⟨hpet, hres, hcp, hj⟩
  | assign user id body =>
    rcases assignJudge_outcome env db user id body with
      ⟨_, _, h⟩ | ⟨judge, c, s, db1, _, hju, hjr, hc, hs, heq⟩
    · left
      have : (step db env (.assign user id body)) = db := h
      rwa [this] at hx
    · have hdb : (step db env (.assign user id body)) = db1 := by
        show (assignJudge env db user id body).2 = db1
        rw [heq]
      rw [hdb, (save_some hs).2.2.2] at hx
      simp only [Bool.false_eq_true, if_false] at hx
      rcases mem_updateOne hx with hx | hx
      · exact Or.inl hx
      · right; left
        subst hx
        refine ⟨c, findById_mem hc, (saved_parties hs).trans rfl, Or.inr ?_⟩
        have hja : x.assignedJudge = body.judgeId := saved_assignedJudge hs
        cases hjid : body.judgeId with
        | none => rw [hjid] at hju; simp [User.findById] at hju
        | some j =>
          refine ⟨j, by rw [hja, hjid], ?_⟩
          rw [hjid] at hju
          simp [resolvesTo, hju, hjr]
  | schedule user id body =>
    rcases scheduleHearing_outcome env db user id body with
      ⟨_, _, h⟩ | ⟨c, s, db1, _, hc, hs, heq⟩
    · left
      have : (step db env (.schedule user id body)) = db := h
      rwa [this] at hx
    · have hdb : (step db env (.schedule user id body)) = db1 := by
        show (scheduleHearing env db user id body).2 = db1
        rw [heq]
      rw [hdb, (save_some hs).2.2.2] at hx
      simp only [Bool.false_eq_true, if_false] at hx
      rcases mem_updateOne hx with hx | hx
      · exact Or.inl hx
      · right; left
        subst hx
        exact ⟨c, findById_mem hc, (saved_parties hs).trans rfl,
          Or.inl ((saved_assignedJudge hs).trans rfl)⟩
  | order user id body =>
    rcases addCaseOrder_outcome env db user id body with
      ⟨_, _, h⟩ | ⟨c, t, s, db1, _, hc, _, _, hs, heq⟩
    · left
      have : (step db env (.order user id body)) = db := h
      rwa [this] at hx
    · have hdb : (step db env (.order user id body)) = db1 := by
        show (addCaseOrder env db user id body).2 = db1
        rw [heq]
      rw [hdb, (save_some hs).2.2.2] at hx
      simp only [Bool.false_eq_true, if_false] at hx
      rcases mem_updateOne hx with hx | hx
      · exact Or.inl hx
      · right; left
        subst hx
        exact ⟨c, findById_mem hc, (saved_parties hs).trans rfl,
          Or.inl ((saved_assignedJudge hs).trans rfl)⟩
  | status user id body =>
    rcases updateCaseStatus_outcome env db user id body with
      ⟨_, _, h⟩ | ⟨c, s, db1, _, hc, hs, heq⟩
    · left
      have : (step db env (.status user id body)) = db := h
      rwa [this] at hx
    · have hdb : (step db env (.status user id body)) = db1 := by
        show (updateCaseStatus env db user id body).2 = db1
        rw [heq]
      rw [hdb, (save_some hs).2.2.2] at hx
      simp only [Bool.false_eq_true, if_false] at hx
      rcases mem_updateOne hx with hx | hx
      · exact Or.inl hx
      · right; left
        subst hx
        exact ⟨c, findById_mem hc, (saved_parties hs).trans (statusCase_parties _ _ _ _),
          Or.inl ((saved_assignedJudge hs).trans (statusCase_assignedJudge _ _ _ _))⟩

theorem step_partiesInvariant (db : Db) (env : Env) (request : Request)
    (h : ∀ c ∈ db.cases, partiesInvariant db.users c) :
    ∀ c ∈ (step db env request).cases, partiesInvariant db.users c := by
  intro x hx
  rcases step_cases db env request x hx with hx | ⟨c, hc, hp, _⟩ | ⟨hpet, hres, hcp, _⟩
  · exact h x hx
  · have hpi := h c hc
    unfold partiesInvariant at hpi ⊢
    rw [hp]; exact hpi
  · refine ⟨?_, ?_, ?_, ?_⟩
    · simpa using hpet
    · simpa using hres
    · exact fun party hp => (checkParties_none hcp party hp).1
    · exact fun party hp => (checkParties_none hcp party hp).2

theorem step_judgeInvariant (db : Db) (env : Env) (request : Request)
    (h : ∀ c ∈ db.cases, judgeInvariant db.users c) :
    ∀ c ∈ (step db env request).cases, judgeInvariant db.users c := by
  intro x hx
  rcases step_cases db env request x hx with hx | ⟨c, hc, _, hj⟩ | ⟨_, _, _, hj⟩
  · exact h x hx
  · have hji := h c hc
    rcases hj with hj | ⟨j, hj, hres⟩
    · unfold judgeInvariant at hji ⊢
      rw [hj]; exact hji
    · intro judgeId hjid
      rw [hj] at hjid
      simp only [Option.some.injEq] at hjid
      subst hjid
      exact hres
  · intro judgeId hjid
    rw [hjid] at hj
    exact judgeOk_resolves hj

/-- A property of the stored cases that every request preserves holds along every trace,
and the users stay as they were. -/
theorem run_preserves (P : List User → Case → Prop)
    (hstep : ∀ (db : Db) (env : Env) (request : Request),
      (∀ c ∈ db.cases, P db.users c) → ∀ c ∈ (step db env request).cases, P db.users c)
    (trace : List (Env × Request)) (db : Db) (h : ∀ c ∈ db.cases, P db.users c) :
    (run db trace).users = db.users ∧ ∀ c ∈ (run db trace).cases, P db.users c := by
  induction trace generalizing db with
  | nil => exact ⟨rfl, h⟩
  | cons item rest ih =>
    have hu := step_users db item.1 item.2
    have hnext := hstep db item.1 item.2 h
    rw [← hu] at hnext
    have := ih (step db item.1 item.2) hnext
    rw [hu] at this
    exact this

/-! ## Well-formed documents -/

theorem courtPrefixOf_ne_empty (courtType : Option String) : courtPrefixOf courtType ≠ "" := by
  unfold courtPrefixOf
  split
  · decide
  · split
    · decide
    · split
      · decide
      · split
        · decide
        · split <;> decide

theorem append_ne_empty (a b : String) (h : a ≠ "") : a ++ b ≠ "" := by
  intro hab
  have hl : (a ++ b).length = 0 := by rw [hab]; rfl
  rw [String.length_append] at hl
  have ha : a.data.length = 0 := by
    have : a.length = 0 := by omega
    exact this
  exact h (String.ext (by simpa using List.length_eq_zero.1 ha))

theorem preSave_truthy (env : Env) (cases : List Case) (c : Case) :
    truthy (preSave env cases c).caseNumber = true := by
  unfold preSave
  split
  · assumption
  · simp only [truthy, decide_eq_true_eq]
    exact append_ne_empty _ _ (append_ne_empty _ _ (append_ne_empty _ _
      (append_ne_empty _ _ (courtPrefixOf_ne_empty _))))

theorem preSave_validate (env : Env) (cases : List Case) (c : Case) :
    (preSave env cases c).validate = c.validate := by
  unfold preSave; split <;> rfl

/-- Every document `save()` writes is well-formed. -/
theorem save_wellFormed {env : Env} {db db1 : Db} {isNew : Bool} {c s : Case}
    (h : Case.save env db isNew c = some (s, db1)) : s.wellFormed = true := by
  obtain ⟨hv, hs, _, _⟩ := save_some h
  rw [hs]
  simp only [Case.wellFormed, Bool.and_eq_true]
  constructor
  · show (preSave env db.cases c).validate = true
    rw [preSave_validate]; exact hv
  · exact preSave_truthy env db.cases c

/-- After a request every case was there before or has just been written by `save()`. -/
theorem step_saved (db : Db) (env : Env) (request : Request) (x : Case)
    (hx : x ∈ (step db env request).cases) :
    x ∈ db.cases ∨ ∃ isNew c db1, Case.save env db isNew c = some (x, db1) := by
  cases request with
  | register user body =>
    rcases registerCase_outcome env db user body with
      ⟨_, _, h⟩ | ⟨ps, s, db1, _, _, _, _, _, _, _, _, _, _, _, hs, heq⟩
    · left
      have : (step db env (.register user body)) = db := h
      rwa [this] at hx
    · have hdb : (step db env (.register user body)) = db1 := by
        show (registerCase env db user body).2 = db1
        rw [heq]
      rw [hdb, (save_some hs).2.2.2] at hx
      simp only [if_true, List.mem_append, List.mem_singleton] at hx
      rcases hx with hx | hx
      · exact Or.inl hx
      · subst hx; exact Or.inr ⟨_, _, _, hs⟩
  | assign user id body =>
    rcases assignJudge_outcome env db user id body with
      ⟨_, _, h⟩ | ⟨judge, c, s, db1, _, _, _, _, hs, heq⟩
    · left
      have : (step db env (.assign user id body)) = db := h
      rwa [this] at hx
    · have hdb : (step db env (.assign user id body)) = db1 := by
        show (assignJudge env db user id body).2 = db1
        rw [heq]
      rw [hdb, (save_some hs).2.2.2] at hx
      simp only [Bool.false_eq_true, if_false] at hx
      rcases mem_updateOne hx with hx | hx
      · exact Or.inl hx
      · subst hx; exact Or.inr ⟨_, _, _, hs⟩
  | schedule user id body =>
    rcases scheduleHearing_outcome env db user id body with
      ⟨_, _, h⟩ | ⟨c, s, db1, _, _, hs, heq⟩
    · left
      have : (step db env (.schedule user id body)) = db := h
      rwa [this] at hx
    · have hdb : (step db env (.schedule user id body)) = db1 := by
        show (scheduleHearing env db user id body).2 = db1
        rw [heq]
      rw [hdb, (save_some hs).2.2.2] at hx
      simp only [Bool.false_eq_true, if_false] at hx
      rcases mem_updateOne hx with hx | hx
      · exact Or.inl hx
      · subst hx; exact Or.inr ⟨_, _, _, hs⟩
  | order user id body =>
    rcases addCaseOrder_outcome env db user id body with
      ⟨_, _, h⟩ | ⟨c, t, s, db1, _, _, _, _, hs, heq⟩
    · left
      have : (step db env (.order user id body)) = db := h
      rwa [this] at hx
    · have hdb : (step db env (.order user id body)) = db1 := by
        show (addCaseOrder env db user id body).2 = db1
        rw [heq]
      rw [hdb, (save_some hs).2.2.2] at hx
      simp only [Bool.false_eq_true, if_false] at hx
      rcases mem_updateOne hx with hx | hx
      · exact Or.inl hx
      · subst hx; exact Or.inr ⟨_, _, _, hs⟩
  | status user id body =>
    rcases updateCaseStatus_outcome env db user id body with
      ⟨_, _, h⟩ | ⟨c, s, db1, _, _, hs, heq⟩
    · left
      have : (step db env (.status user id body)) = db := h
      rwa [this] at hx
    · have hdb : (step db env (.status user id body)) = db1 := by
        show (updateCaseStatus env db user id body).2 = db1
        rw [heq]
      rw [hdb, (save_some hs).2.2.2] at hx
      simp only [Bool.false_eq_true, if_false] at hx
      rcases mem_updateOne hx with hx | hx
      · exact Or.inl hx
      · subst hx; exact Or.inr ⟨_, _, _, hs⟩

/-- Well-formedness is kept by every request, so it holds of every case of every collection
reached from the empty one. -/
theorem run_wellFormed (trace : List (Env × Request)) (db : Db)
    (h : ∀ c ∈ db.cases, c.wellFormed = true) :
    ∀ c ∈ (run db trace).cases, c.wellFormed = true :=
  (run_preserves (fun _ c => c.wellFormed = true)
    (fun db env request h x hx => by
      rcases step_saved db env request x hx with hx | ⟨_, _, _, hs⟩
      · exact h x hx
      · exact save_wellFormed hs) trace db h).2

/-! ## Order passing is reserved to the assigned judge -/

/-- C1. On an existing case, well-formed as every stored case is (`run_wellFormed`), and
with order fields that pass the order schema, `addCaseOrder` answers 201 exactly when the
principal has role judge and is the judge assigned to the case; in every other situation, a
judge facing a case without assigned judge included, it answers 403 and leaves the
database as it was. -/
theorem addCaseOrder_assigned_judge_only (env : Env) (db : Db) (user : Principal)
    (id : ObjectId) (body : OrderBody) (c : Case)
    (hfind : Case.findById db.cases id = some c) (hc : c.wellFormed = true)
    (hbody : body.wellFormed = true) :
    ((addCaseOrder env db user id body).1.status = HTTP_STATUS.CREATED ↔
      (user.role = "judge" ∧ c.assignedJudge = some user.id)) ∧
    (¬ (user.role = "judge" ∧ c.assignedJudge = some user.id) →
      (addCaseOrder env db user id body).1.status = HTTP_STATUS.FORBIDDEN ∧
      (addCaseOrder env db user id body).2 = db) := by
  simp only [Case.wellFormed, Bool.and_eq_true] at hc
  obtain ⟨hv, hn⟩ := hc
  simp only [OrderBody.wellFormed, Bool.and_eq_true] at hbody
  obtain ⟨⟨h1, h2⟩, h3⟩ := hbody
  by_cases hr : user.role = "judge"
  · by_cases hj : c.assignedJudge = some user.id
    · cases hot : body.orderType with
      | none => simp [hot, requiredText, truthy] at h1
      | some t =>
        have hval : (orderedCase env user body t c).validate = true := by
          simp [orderedCase_validate, hv, CaseOrder.validate, newOrder, h1, h2, h3]
        have hs := save_loaded env db _ hval (show truthy (orderedCase env user body t c).caseNumber = true from hn)
        simp [addCaseOrder, role_judge, hr, hfind, hj, hot, hs]
    · simp [addCaseOrder, role_judge, hr, hfind, hj, Response.failure, HTTP_STATUS.FORBIDDEN,
        HTTP_STATUS.CREATED]
  · simp [addCaseOrder, role_judge, hr, Response.failure, HTTP_STATUS.FORBIDDEN,
      HTTP_STATUS.CREATED]

/-- Witness of C1: on the sample case, assigned to judge 2, judge 2 passes an order. -/
theorem addCaseOrder_assigned_judge_only_witness :
    (addCaseOrder Sample.env Sample.db2 Sample.judge 10 Sample.orderBody).1.status =
        HTTP_STATUS.CREATED ∧
    (addCaseOrder Sample.env Sample.db2 Sample.otherJudge 10 Sample.orderBody).1.status =
        HTTP_STATUS.FORBIDDEN := by
  have hfind : Case.findById Sample.db2.cases 10 =
      some ((assignJudge Sample.env Sample.db1 Sample.registrar 10
        ⟨some 2, some "Court 1"⟩).1.data.get (by decide)) := by decide
  have h1 := addCaseOrder_assigned_judge_only Sample.env Sample.db2 Sample.judge 10
    Sample.orderBody _ hfind (by decide) (by decide)
  have h2 := addCaseOrder_assigned_judge_only Sample.env Sample.db2 Sample.otherJudge 10
    Sample.orderBody _ hfind (by decide) (by decide)
  exact ⟨h1.1.2 (by decide), (h2.2 (by decide)).1⟩

/-! ## The status written by `assignJudge` and `scheduleHearing` -/

/-- C2. Whenever `assignJudge` succeeds, the case it returns and stores has the requested
judge and court number, but its status is unset: `CASE_STATUS.ADMITTED` is not a key of the
table, so the status is not the lifecycle value admitted. -/
theorem assignJudge_status_unset (env : Env) (db : Db) (user : Principal) (id : ObjectId)
    (body : AssignJudgeBody) (saved : Case)
    (h : (assignJudge env db user id body).1.data = some saved) :
    saved.assignedJudge = body.judgeId ∧ saved.courtNumber = body.courtNumber ∧
    saved.status = none ∧ saved.status ≠ some "admitted" ∧
    Case.findById (assignJudge env db user id body).2.cases id = some saved := by
  rcases assignJudge_outcome env db user id body with ⟨_, hd, _⟩ | ⟨judge, c, s, db1, _, _, _, hc, hs, heq⟩
  · rw [hd] at h; exact absurd h (by simp)
  · rw [heq] at h ⊢
    simp only [Option.some.injEq] at h
    subst h
    obtain ⟨_, hst, _, hcases⟩ := save_some hs
    have hid : s._id = id := by
      rw [hst]; show (preSave env db.cases _)._id = id
      rw [preSave_id]; exact (findById_id hc : c._id = id)
    have hstatus : s.status = none := by
      rw [hst]; show (preSave env db.cases _).status = none
      rw [preSave_status]; exact status_admitted
    refine ⟨?_, ?_, hstatus, ?_, ?_⟩
    · rw [hst]; show (preSave env db.cases _).assignedJudge = _
      rw [preSave_assignedJudge]; rfl
    · rw [hst]; show (preSave env db.cases _).courtNumber = _
      rw [preSave_courtNumber]; rfl
    · rw [hstatus]; simp
    · show Case.findById db1.cases id = some s
      rw [hcases]
      exact findById_updateOne hc hid

/-- Witness of C2: the registrar assigns judge 2 to the sample case; the call succeeds and
the status of the case is unset afterwards. -/
theorem assignJudge_status_unset_witness :
    (assignJudge Sample.env Sample.db1 Sample.registrar 10
      ⟨some 2, some "Court 1"⟩).1.status = HTTP_STATUS.OK ∧
    (Case.findById Sample.db2.cases 10).map (fun c => c.status) = some none := by
  have h := assignJudge_status_unset Sample.env Sample.db1 Sample.registrar 10
    ⟨some 2, some "Court 1"⟩ _ (Option.some_get (by decide)).symm
  refine ⟨by decide, ?_⟩
  show Option.map _ (Case.findById (assignJudge Sample.env Sample.db1 Sample.registrar 10
      ⟨some 2, some "Court 1"⟩).2.cases 10) = _
  rw [h.2.2.2.2, Option.map_some', h.2.2.1]

/-- C3. Whenever `scheduleHearing` succeeds, whatever the status was, the stored case has an
unset status: `CASE_STATUS.PENDING` is not a key of the table, so the status is not the
lifecycle value pending. -/
theorem scheduleHearing_status_unset (env : Env) (db : Db) (user : Principal) (id : ObjectId)
    (body : HearingBody) (h : (scheduleHearing env db user id body).1.success = true) :
    ∃ saved, Case.findById (scheduleHearing env db user id body).2.cases id = some saved ∧
      saved.status = none ∧ saved.status ≠ some "pending" := by
  rcases scheduleHearing_outcome env db user id body with ⟨hf, _, _⟩ | ⟨c, s, db1, _, hc, hs, heq⟩
  · rw [hf] at h; exact absurd h (by simp)
  · rw [heq]
    obtain ⟨_, hst, _, hcases⟩ := save_some hs
    have hid : s._id = id := by
      rw [hst]; show (preSave env db.cases _)._id = id
      rw [preSave_id]; exact (findById_id hc : c._id = id)
    have hstatus : s.status = none := by
      rw [hst]; show (preSave env db.cases _).status = none
      rw [preSave_status]; exact status_pending
    refine ⟨s, ?_, hstatus, ?_⟩
    · show Case.findById db1.cases id = some s
      rw [hcases]
      exact findById_updateOne hc hid
    · rw [hstatus]; simp

/-- Witness of C3: judge 2 schedules a hearing on the sample case; the call succeeds. -/
theorem scheduleHearing_status_unset_witness :
    ∃ saved, Case.findById
        (scheduleHearing Sample.env Sample.db2 Sample.judge 10 Sample.hearingBody).2.cases 10 =
          some saved ∧ saved.status = none ∧ saved.status ≠ some "pending" :=
  scheduleHearing_status_unset Sample.env Sample.db2 Sample.judge 10 Sample.hearingBody
    (by decide)

/-! ## The filter of `getCases` under a search term -/

/-- C4. For a judge who supplies a non-empty search term, the filter `getCases` builds has
the three search alternatives as its only `$or` list: the assignment to `filter.$or` made
for the search replaces the one made for the role, so whether a case matches does not
depend on its assigned judge. -/
theorem getCases_search_replaces_judge_scope (env : Env) (user : Principal) (q : CasesQuery)
    (search : String) (hrole : user.role = "judge") (hq : q.search = some search)
    (hne : search ≠ "") :
    ∃ f, getCasesFilter user q = some f ∧
      f.or = some [Clause.titleRegex search, Clause.caseNumberRegex search,
                   Clause.descriptionRegex search] ∧
      ∀ (c : Case) (judgeId : Option ObjectId),
        f.matches env { c with assignedJudge := judgeId } = f.matches env c := by
  have hrf : roleFilter user = some { Filter.base with
      or := some [Clause.assignedJudgeIs user.id, Clause.assignedJudgeMissing] } := by
    simp [roleFilter, hrole, role_registrar, role_judge]
  refine ⟨applyQuery { Filter.base with
      or := some [Clause.assignedJudgeIs user.id, Clause.assignedJudgeMissing] } q, ?_, ?_, ?_⟩
  · simp only [getCasesFilter, hrf]
  · simp only [applyQuery, hq, hne, ne_eq, not_false_eq_true, if_true]
  · intro c judgeId
    simp only [applyQuery, hq, hne, ne_eq, not_false_eq_true, if_true]
    have hj : ∀ f : Filter, f.assignedJudge = none →
        f.or = some [Clause.titleRegex search, Clause.caseNumberRegex search,
                     Clause.descriptionRegex search] →
        f.matches env { c with assignedJudge := judgeId } = f.matches env c := by
      intro f h1 h2
      simp [Filter.matches, h1, h2, keyHolds, Clause.holds]
    apply hj
    · split <;> split <;> split <;> rfl
    · rfl

/-- Witness of C4: judge 6 searches for "ali" and is shown the sample case, which is
assigned to judge 2; without the search term judge 6 is shown nothing. -/
theorem getCases_search_replaces_judge_scope_witness :
    ((getCases Sample.env Sample.db2 Sample.otherJudge ⟨none, none, none, some "ali"⟩).data.map
      (fun list => list.matched.map (fun c => c.assignedJudge))) = some [some 2] ∧
    ((getCases Sample.env Sample.db2 Sample.otherJudge ⟨none, none, none, none⟩).data.map
      (fun list => list.matched.map (fun c => c.assignedJudge))) = some [] ∧
    (∃ f, getCasesFilter Sample.otherJudge ⟨none, none, none, some "ali"⟩ = some f ∧
      f.or = some [Clause.titleRegex "ali", Clause.caseNumberRegex "ali",
                   Clause.descriptionRegex "ali"]) := by
  obtain ⟨f, h1, h2, _⟩ := getCases_search_replaces_judge_scope Sample.env Sample.otherJudge
    ⟨none, none, none, some "ali"⟩ "ali" (by decide) rfl (by decide)
  exact ⟨by decide, by decide, f, h1, h2⟩

/-! ## Validation in `registerCase` -/

/-- C5. A registration in which title, description, case type or court type is missing or
empty, or parties is missing or an empty list, fails and leaves the database as it was; for
a registrar, the principal the authorization step lets through, the answer is 400. -/
theorem registerCase_missing_field (env : Env) (db : Db) (user : Principal)
    (body : RegisterBody)
    (h : truthy body.title = false ∨ truthy body.description = false ∨
      truthy body.caseType = false ∨ truthy body.courtType = false ∨
      body.parties = none ∨ body.parties = some []) :
    (registerCase env db user body).1.success = false ∧
    (registerCase env db user body).2 = db ∧
    (user.role = "registrar" →
      (registerCase env db user body).1.status = HTTP_STATUS.BAD_REQUEST) := by
  have hbad : (match body.parties with
      | none => True
      | some parties => (!truthy body.title || !truthy body.description ||
          !truthy body.caseType || !truthy body.courtType ||
          decide (parties.length = 0)) = true) := by
    cases hp : body.parties with
    | none => trivial
    | some parties =>
      rcases h with h | h | h | h | h | h
      · simp [h]
      · simp [h]
      · simp [h]
      · simp [h]
      · rw [hp] at h; exact absurd h (by simp)
      · rw [hp] at h; simp only [Option.some.injEq] at h; simp [h]
  unfold registerCase
  by_cases hr : user.role = "registrar"
  · have hrole : ¬ (some user.role ≠ prop USER_ROLES "REGISTRAR") := by
      rw [hr, role_registrar]; simp
    rw [if_neg hrole]
    cases hp : body.parties with
    | none => exact ⟨rfl, rfl, fun _ => rfl⟩
    | some parties =>
      rw [hp] at hbad
      simp only at hbad ⊢
      rw [if_pos hbad]
      exact ⟨rfl, rfl, fun _ => rfl⟩
  · have hrole : some user.role ≠ prop USER_ROLES "REGISTRAR" := by
      rw [role_registrar]; simpa using hr
    rw [if_pos hrole]
    exact ⟨rfl, rfl, fun h => absurd h hr⟩

/-- Witness of C5: the sample registration without its title is answered 400 and nothing
is stored. -/
theorem registerCase_missing_field_witness :
    (registerCase Sample.env Sample.db0 Sample.registrar
      { Sample.body with title := none }).1.status = HTTP_STATUS.BAD_REQUEST ∧
    (registerCase Sample.env Sample.db0 Sample.registrar
      { Sample.body with title := none }).2 = Sample.db0 := by
  have h := registerCase_missing_field Sample.env Sample.db0 Sample.registrar
    { Sample.body with title := none } (Or.inl rfl)
  exact ⟨h.2.2 rfl, h.2.1⟩

/-- C6. A registration whose parties list, non-empty or not, has no petitioner or has no
respondent fails and leaves the database as it was; for a registrar, the principal the
authorization step lets through, the answer is 400. -/
theorem registerCase_missing_side (env : Env) (db : Db) (user : Principal)
    (body : RegisterBody) (parties : List Party)
    (hp : body.parties = some parties)
    (h : (∀ party ∈ parties, party.role ≠ "petitioner") ∨
      (∀ party ∈ parties, party.role ≠ "respondent")) :
    (registerCase env db user body).1.success = false ∧
    (registerCase env db user body).2 = db ∧
    (user.role = "registrar" →
      (registerCase env db user body).1.status = HTTP_STATUS.BAD_REQUEST) := by
  have hbad : (!parties.any (fun party => decide (party.role = "petitioner")) ||
      !parties.any (fun party => decide (party.role = "respondent"))) = true := by
    rcases h with h | h
    · have : parties.any (fun party => decide (party.role = "petitioner")) = false := by
        simpa using h
      simp [this]
    · have : parties.any (fun party => decide (party.role = "respondent")) = false := by
        simpa using h
      simp [this]
  unfold registerCase
  by_cases hr : user.role = "registrar"
  · have hrole : ¬ (some user.role ≠ prop USER_ROLES "REGISTRAR") := by
      rw [hr, role_registrar]; simp
    rw [if_neg hrole, hp]
    simp only
    split
    · exact ⟨rfl, rfl, fun _ => rfl⟩
    · simp [hbad, Response.failure]
  · have hrole : some user.role ≠ prop USER_ROLES "REGISTRAR" := by
      rw [role_registrar]; simpa using hr
    rw [if_pos hrole]
    exact ⟨rfl, rfl, fun h => absurd h hr⟩

/-- Witness of C6: the sample registration with two petitioners and no respondent is
answered 400 and nothing is stored. -/
theorem registerCase_missing_side_witness :
    (registerCase Sample.env Sample.db0 Sample.registrar
      { Sample.body with parties := some [⟨some 3, "petitioner", none, true⟩,
          ⟨some 4, "petitioner", none, false⟩] }).1.status = HTTP_STATUS.BAD_REQUEST ∧
    (registerCase Sample.env Sample.db0 Sample.registrar
      { Sample.body with parties := some [⟨some 3, "petitioner", none, true⟩,
          ⟨some 4, "petitioner", none, false⟩] }).2 = Sample.db0 := by
  have h := registerCase_missing_side Sample.env Sample.db0 Sample.registrar
    { Sample.body with parties := some [⟨some 3, "petitioner", none, true⟩,
        ⟨some 4, "petitioner", none, false⟩] }
    [⟨some 3, "petitioner", none, true⟩, ⟨some 4, "petitioner", none, false⟩]
    rfl (Or.inr (by decide))
  exact ⟨h.2.2 rfl, h.2.1⟩

/-! ## The document `registerCase` creates -/

/-- C7. Every case `registerCase` creates has status registered, is registered by the
acting principal and has a history of exactly one entry, with action CASE_REGISTERED and
the acting principal as `actionBy`; it is appended to the collection. -/
theorem registerCase_created (env : Env) (db : Db) (user : Principal) (body : RegisterBody)
    (saved : Case) (h : (registerCase env db user body).1.data = some saved) :
    saved.status = some "registered" ∧ saved.registeredBy = user.id ∧
    (∃ entry, saved.caseHistory = [entry] ∧ entry.action = "CASE_REGISTERED" ∧
      entry.actionBy = user.id) ∧
    (registerCase env db user body).2.cases = db.cases ++ [saved] := by
  rcases registerCase_outcome env db user body with
    ⟨_, hd, _⟩ | ⟨parties, s, db1, _, _, _, _, _, _, _, _, _, _, _, hs, heq⟩
  · rw [hd] at h; exact absurd h (by simp)
  · rw [heq] at h ⊢
    simp only [Option.some.injEq] at h
    subst h
    obtain ⟨_, hst, _, hcases⟩ := save_some hs
    refine ⟨?_, ?_, ?_, ?_⟩
    · rw [hst]; show (preSave env db.cases _).status = _
      rw [preSave_status]; exact status_registered
    · rw [hst]; show (preSave env db.cases _).registeredBy = _
      rw [preSave_registeredBy]; rfl
    · rw [hst]
      refine ⟨⟨"CASE_REGISTERED", user.id, env.now,
        "Case registered by " ++ user.firstName ++ " " ++ user.lastName⟩, ?_, rfl, rfl⟩
      show (preSave env db.cases _).caseHistory = _
      rw [preSave_caseHistory]; rfl
    · simpa using hcases

/-- Witness of C7: the sample registration succeeds and creates such a case. -/
theorem registerCase_created_witness :
    ∃ saved, (registerCase Sample.env Sample.db0 Sample.registrar Sample.body).1.data =
        some saved ∧
      saved.status = some "registered" ∧ saved.registeredBy = 1 ∧
      saved.caseHistory.length = 1 ∧ Sample.db1.cases = [saved] := by
  have hd : ((registerCase Sample.env Sample.db0 Sample.registrar Sample.body).1.data).isSome =
      true := by decide
  obtain ⟨h1, h2, ⟨entry, h3, _, _⟩, h4⟩ :=
    registerCase_created Sample.env Sample.db0 Sample.registrar Sample.body _
      (Option.some_get hd).symm
  exact ⟨_, (Option.some_get hd).symm, h1, h2, by rw [h3]; rfl, h4⟩

/-! ## Invariants of the stored cases -/

/-- C8. The invariant on parties is kept by every request to the five lifecycle handlers:
starting from a collection whose cases satisfy it (the empty one, for a start), after any
sequence of requests the users are as they were and every stored case has a petitioner and
a respondent, every party an existing user of role user and every assigned lawyer an
existing user of role lawyer. -/
theorem parties_invariant (db : Db) (trace : List (Env × Request))
    (h0 : ∀ c ∈ db.cases, partiesInvariant db.users c) (c : Case)
    (h : c ∈ (run db trace).cases) :
    (run db trace).users = db.users ∧ partiesInvariant db.users c := by
  obtain ⟨hu, hall⟩ := run_preserves partiesInvariant step_partiesInvariant trace db h0
  exact ⟨hu, hall c h⟩

/-- Witness of C8: the sample case after registration, judge assignment, a hearing, an
order and a status update. -/
theorem parties_invariant_witness :
    ∃ c, c ∈ (run Sample.db0 Sample.trace).cases ∧ partiesInvariant Sample.users c := by
  have hne : (run Sample.db0 Sample.trace).cases ≠ [] := by decide
  obtain ⟨c, hc⟩ := List.exists_mem_of_ne_nil _ hne
  exact ⟨c, hc, (parties_invariant Sample.db0 Sample.trace
    (fun c hc => absurd hc (List.not_mem_nil c)) c hc).2⟩

/-- C9. The invariant on the judge is kept by every request to the five lifecycle
handlers: starting from a collection whose cases satisfy it (the empty one, for a start),
after any sequence of requests the assigned judge of every stored case is absent or an
existing user of role judge; and `registerCase` and `assignJudge` fail, leaving the
database as it was, when the judge id they are given does not resolve to a user of role
judge. -/
theorem assignedJudge_invariant :
    (∀ (db : Db) (trace : List (Env × Request)),
      (∀ c ∈ db.cases, judgeInvariant db.users c) →
        ∀ c ∈ (run db trace).cases, judgeInvariant db.users c) ∧
    (∀ (env : Env) (db : Db) (user : Principal) (body : RegisterBody) (judgeId : ObjectId),
      body.assignedJudge = some judgeId → resolvesTo db.users (some judgeId) "judge" = false →
        (registerCase env db user body).1.success = false ∧
        (registerCase env db user body).2 = db) ∧
    (∀ (env : Env) (db : Db) (user : Principal) (id : ObjectId) (body : AssignJudgeBody),
      resolvesTo db.users body.judgeId "judge" = false →
        (assignJudge env db user id body).1.success = false ∧
        (assignJudge env db user id body).2 = db) := by
  refine ⟨?_, ?_, ?_⟩
  · intro db trace h0
    exact (run_preserves judgeInvariant step_judgeInvariant trace db h0).2
  · intro env db user body judgeId hj hres
    rcases registerCase_outcome env db user body with
      ⟨h1, _, h2⟩ | ⟨_, _, _, _, _, _, _, _, _, _, _, _, _, hok, _, _⟩
    · exact ⟨h1, h2⟩
    · rw [hj] at hok
      rw [judgeOk_resolves hok] at hres
      exact absurd hres (by simp)
  · intro env db user id body hres
    rcases assignJudge_outcome env db user id body with
      ⟨h1, _, h2⟩ | ⟨judge, _, _, _, _, hju, hjr, _, _, _⟩
    · exact ⟨h1, h2⟩
    · simp [resolvesTo, hju, hjr] at hres

/-- Witness of C9: the sample case keeps a resolvable judge along the sample trace;
registering with lawyer 5 as judge, and assigning user 3 as judge, both fail. -/
theorem assignedJudge_invariant_witness :
    (∃ c, c ∈ (run Sample.db0 Sample.trace).cases ∧ c.assignedJudge = some 2 ∧
      judgeInvariant Sample.users c) ∧
    (registerCase Sample.env Sample.db0 Sample.registrar
      { Sample.body with assignedJudge := some 5 }).2 = Sample.db0 ∧
    (assignJudge Sample.env Sample.db1 Sample.registrar 10 ⟨some 3, none⟩).2 = Sample.db1 := by
  obtain ⟨h1, h2, h3⟩ := assignedJudge_invariant
  refine ⟨?_, ?_, ?_⟩
  · have hne : ((run Sample.db0 Sample.trace).cases.filter
        (fun c => decide (c.assignedJudge = some 2))) ≠ [] := by decide
    obtain ⟨c, hc⟩ := List.exists_mem_of_ne_nil _ hne
    rw [List.mem_filter] at hc
    exact ⟨c, hc.1, by simpa using hc.2,
      h1 Sample.db0 Sample.trace (fun c hc => absurd hc (List.not_mem_nil c)) c hc.1⟩
  · exact (h2 Sample.env Sample.db0 Sample.registrar { Sample.body with assignedJudge := some 5 }
      5 rfl (by decide)).2
  · exact (h3 Sample.env Sample.db1 Sample.registrar 10 ⟨some 3, none⟩ (by decide)).2

/-! ## Authorization by role -/

/-- C10. Each lifecycle handler answers 403, and leaves the database as it was, to every
principal whose role is not among its allowed roles: registrar for `registerCase` and
`assignJudge`, judge for `addCaseOrder`, judge or registrar for `scheduleHearing` and
`updateCaseStatus`. -/
theorem forbidden_outside_allowed_roles :
    (∀ (env : Env) (db : Db) (user : Principal) (body : RegisterBody),
      user.role ≠ "registrar" →
        (registerCase env db user body).1.status = HTTP_STATUS.FORBIDDEN ∧
        (registerCase env db user body).2 = db) ∧
    (∀ (env : Env) (db : Db) (user : Principal) (id : ObjectId) (body : AssignJudgeBody),
      user.role ≠ "registrar" →
        (assignJudge env db user id body).1.status = HTTP_STATUS.FORBIDDEN ∧
        (assignJudge env db user id body).2 = db) ∧
    (∀ (env : Env) (db : Db) (user : Principal) (id : ObjectId) (body : HearingBody),
      user.role ≠ "judge" → user.role ≠ "registrar" →
        (scheduleHearing env db user id body).1.status = HTTP_STATUS.FORBIDDEN ∧
        (scheduleHearing env db user id body).2 = db) ∧
    (∀ (env : Env) (db : Db) (user : Principal) (id : ObjectId) (body : OrderBody),
      user.role ≠ "judge" →
        (addCaseOrder env db user id body).1.status = HTTP_STATUS.FORBIDDEN ∧
        (addCaseOrder env db user id body).2 = db) ∧
    (∀ (env : Env) (db : Db) (user : Principal) (id : ObjectId) (body : StatusBody),
      user.role ≠ "judge" → user.role ≠ "registrar" →
        (updateCaseStatus env db user id body).1.status = HTTP_STATUS.FORBIDDEN ∧
        (updateCaseStatus env db user id body).2 = db) := by
  refine ⟨?_, ?_, ?_, ?_, ?_⟩
  · intro env db user body h
    simp [registerCase, role_registrar, h, Response.failure]
  · intro env db user id body h
    simp [assignJudge, role_registrar, role_admin, h, Response.failure]
  · intro env db user id body h1 h2
    simp [scheduleHearing, role_registrar, role_judge, h1, h2, Response.failure]
  · intro env db user id body h
    simp [addCaseOrder, role_judge, h, Response.failure]
  · intro env db user id body h1 h2
    simp [updateCaseStatus, role_registrar, role_judge, h1, h2, Response.failure]

/-- Witness of C10: lawyer 5 is refused by each of the five handlers. -/
theorem forbidden_outside_allowed_roles_witness :
    (registerCase Sample.env Sample.db2 Sample.lawyer Sample.body).1.status = 403 ∧
    (assignJudge Sample.env Sample.db2 Sample.lawyer 10 ⟨some 2, none⟩).1.status = 403 ∧
    (scheduleHearing Sample.env Sample.db2 Sample.lawyer 10 Sample.hearingBody).1.status = 403 ∧
    (addCaseOrder Sample.env Sample.db2 Sample.lawyer 10 Sample.orderBody).1.status = 403 ∧
    (updateCaseStatus Sample.env Sample.db2 Sample.lawyer 10 ⟨some "disposed", none⟩).1.status =
      403 := by
  obtain ⟨h1, h2, h3, h4, h5⟩ := forbidden_outside_allowed_roles
  exact ⟨(h1 _ _ _ _ (by decide)).1, (h2 _ _ _ _ _ (by decide)).1,
    (h3 _ _ _ _ _ (by decide) (by decide)).1, (h4 _ _ _ _ _ (by decide)).1,
    (h5 _ _ _ _ _ (by decide) (by decide)).1⟩

/-! ## More about the saved document -/

theorem preSave_isDisposed (env : Env) (cases : List Case) (c : Case) :
    (preSave env cases c).isDisposed = c.isDisposed := by
  unfold preSave; split <;> rfl

theorem preSave_disposalDate (env : Env) (cases : List Case) (c : Case) :
    (preSave env cases c).disposalDate = c.disposalDate := by
  unfold preSave; split <;> rfl

theorem saved_id {env : Env} {db db1 : Db} {isNew : Bool} {c s : Case}
    (h : Case.save env db isNew c = some (s, db1)) : s._id = c._id := by
  rw [(save_some h).2.1]
  show (preSave env db.cases c)._id = _
  exact preSave_id _ _ _

theorem saved_status {env : Env} {db db1 : Db} {isNew : Bool} {c s : Case}
    (h : Case.save env db isNew c = some (s, db1)) : s.status = c.status := by
  rw [(save_some h).2.1]
  show (preSave env db.cases c).status = _
  exact preSave_status _ _ _

theorem saved_caseHistory {env : Env} {db db1 : Db} {isNew : Bool} {c s : Case}
    (h : Case.save env db isNew c = some (s, db1)) : s.caseHistory = c.caseHistory := by
  rw [(save_some h).2.1]
  show (preSave env db.cases c).caseHistory = _
  exact preSave_caseHistory _ _ _

theorem saved_isDisposed {env : Env} {db db1 : Db} {isNew : Bool} {c s : Case}
    (h : Case.save env db isNew c = some (s, db1)) : s.isDisposed = c.isDisposed := by
  rw [(save_some h).2.1]
  show (preSave env db.cases c).isDisposed = _
  exact preSave_isDisposed _ _ _

theorem saved_disposalDate {env : Env} {db db1 : Db} {isNew : Bool} {c s : Case}
    (h : Case.save env db isNew c = some (s, db1)) : s.disposalDate = c.disposalDate := by
  rw [(save_some h).2.1]
  show (preSave env db.cases c).disposalDate = _
  exact preSave_disposalDate _ _ _

/-- A successful save of a loaded document puts the saved copy where the document was. -/
theorem saved_stored {env : Env} {db db1 : Db} {c0 c s : Case} {id : ObjectId}
    (hfind : Case.findById db.cases id = some c0) (hid : c._id = c0._id)
    (h : Case.save env db false c = some (s, db1)) :
    Case.findById db1.cases id = some s := by
  have hcases := (save_some h).2.2.2
  simp only [Bool.false_eq_true, if_false] at hcases
  rw [hcases]
  exact findById_updateOne hfind (((saved_id h).trans hid).trans (findById_id hfind))

theorem statusCase_id (env : Env) (user : Principal) (body : StatusBody) (c : Case) :
    (statusCase env user body c)._id = c._id := by
  unfold statusCase; simp only [Case.addHistoryEntry]; split <;> rfl

theorem statusCase_status (env : Env) (user : Principal) (body : StatusBody) (c : Case) :
    (statusCase env user body c).status = body.status := by
  unfold statusCase; simp only [Case.addHistoryEntry]; split <;> rfl

theorem statusCase_caseNumber (env : Env) (user : Principal) (body : StatusBody) (c : Case) :
    (statusCase env user body c).caseNumber = c.caseNumber := by
  unfold statusCase; simp only [Case.addHistoryEntry]; split <;> rfl

theorem statusCase_disposed (env : Env) (user : Principal) (body : StatusBody) (c : Case)
    (h : body.status = some "disposed") :
    (statusCase env user body c).isDisposed = true ∧
      (statusCase env user body c).disposalDate = some env.now := by
  unfold statusCase
  simp only [Case.addHistoryEntry, h, status_disposed, if_true, and_self]

theorem statusCase_not_disposed (env : Env) (user : Principal) (body : StatusBody) (c : Case)
    (h : body.status ≠ some "disposed") :
    (statusCase env user body c).isDisposed = c.isDisposed ∧
      (statusCase env user body c).disposalDate = c.disposalDate := by
  unfold statusCase
  simp only [Case.addHistoryEntry, status_disposed, if_neg h, and_self]

theorem statusCase_validate (env : Env) (user : Principal) (body : StatusBody) (c : Case)
    (hv : c.validate = true) (hs : enumText (objectValues CASE_STATUS) body.status = true) :
    (statusCase env user body c).validate = true := by
  unfold statusCase
  simp only [Case.validate, Case.addHistoryEntry, Bool.and_eq_true] at hv ⊢
  split <;> simp only [hv, hs, and_self]

/-! ## Status updates -/

/-- C11. Whenever `updateCaseStatus` succeeds on a case, a target status disposed leaves the
case with `isDisposed = true` and a disposal date (the time of the request); any other
target leaves `isDisposed` and `disposalDate` as they were, so a set flag is never cleared.
The case returned is the one stored. -/
theorem updateCaseStatus_disposal (env : Env) (db : Db) (user : Principal) (id : ObjectId)
    (body : StatusBody) (c saved : Case) (hfind : Case.findById db.cases id = some c)
    (h : (updateCaseStatus env db user id body).1.data = some saved) :
    (body.status = some "disposed" →
      saved.isDisposed = true ∧ saved.disposalDate = some env.now) ∧
    (body.status ≠ some "disposed" →
      saved.isDisposed = c.isDisposed ∧ saved.disposalDate = c.disposalDate) ∧
    Case.findById (updateCaseStatus env db user id body).2.cases id = some saved := by
  rcases updateCaseStatus_outcome env db user id body with
    ⟨_, hd, _⟩ | ⟨c0, s, db1, _, hc, hs, heq⟩
  · rw [hd] at h; exact absurd h (by simp)
  · rw [heq] at h ⊢
    simp only [Option.some.injEq] at h
    subst h
    rw [hfind] at hc
    simp only [Option.some.injEq] at hc
    subst hc
    refine ⟨fun hb => ?_, fun hb => ?_, saved_stored hfind (statusCase_id _ _ _ _) hs⟩
    · rw [saved_isDisposed hs, saved_disposalDate hs]
      exact statusCase_disposed env user body c hb
    · rw [saved_isDisposed hs, saved_disposalDate hs]
      exact statusCase_not_disposed env user body c hb

/-- Witness of C11: judge 2 disposes of the sample case, then the registrar sets it back
to registered; the flag and the date stay. -/
theorem updateCaseStatus_disposal_witness :
    ∃ first second,
      (updateCaseStatus Sample.env Sample.db2 Sample.judge 10 ⟨some "disposed", none⟩).1.data =
        some first ∧
      first.isDisposed = true ∧ first.disposalDate = some Sample.env.now ∧
      (updateCaseStatus Sample.env
        (updateCaseStatus Sample.env Sample.db2 Sample.judge 10 ⟨some "disposed", none⟩).2
        Sample.registrar 10 ⟨some "registered", none⟩).1.data = some second ∧
      second.isDisposed = true ∧ second.disposalDate = some Sample.env.now := by
  have h1 : ((updateCaseStatus Sample.env Sample.db2 Sample.judge 10
      ⟨some "disposed", none⟩).1.data).isSome = true := by decide
  have h2 : ((updateCaseStatus Sample.env
      (updateCaseStatus Sample.env Sample.db2 Sample.judge 10 ⟨some "disposed", none⟩).2
      Sample.registrar 10 ⟨some "registered", none⟩).1.data).isSome = true := by decide
  have hf1 : (Case.findById Sample.db2.cases 10).isSome = true := by decide
  obtain ⟨a1, _, a3⟩ := updateCaseStatus_disposal Sample.env Sample.db2 Sample.judge 10
    ⟨some "disposed", none⟩ _ _ (Option.some_get hf1).symm (Option.some_get h1).symm
  obtain ⟨_, b2, _⟩ := updateCaseStatus_disposal Sample.env
    (updateCaseStatus Sample.env Sample.db2 Sample.judge 10 ⟨some "disposed", none⟩).2
    Sample.registrar 10 ⟨some "registered", none⟩ _ _ a3 (Option.some_get h2).symm
  have hb := b2 (by decide)
  have ha := a1 rfl
  exact ⟨_, _, (Option.some_get h1).symm, ha.1, ha.2, (Option.some_get h2).symm,
    hb.1.trans ha.1, hb.2.trans ha.2⟩

/-- A target of the status enum of the schema is accepted on a well-formed case, whatever
its current status. -/
theorem updateCaseStatus_accepts (env : Env) (db : Db) (user : Principal) (id : ObjectId)
    (c : Case) (target : String) (remarks : Option String)
    (hfind : Case.findById db.cases id = some c) (hc : c.wellFormed = true)
    (hrole : user.role = "judge" ∨ user.role = "registrar")
    (htarget : target ∈ objectValues CASE_STATUS) :
    ∃ saved,
      (updateCaseStatus env db user id ⟨some target, remarks⟩).1 =
        { status := HTTP_STATUS.OK, success := true, message := some MESSAGES.CASE_UPDATED,
          data := some saved } ∧
      saved.status = some target ∧
      Case.findById (updateCaseStatus env db user id ⟨some target, remarks⟩).2.cases id =
        some saved := by
  simp only [Case.wellFormed, Bool.and_eq_true] at hc
  obtain ⟨hv, hn⟩ := hc
  have hval : (statusCase env user ⟨some target, remarks⟩ c).validate = true :=
    statusCase_validate env user _ c hv (by simpa [enumText] using htarget)
  have hnum : truthy (statusCase env user ⟨some target, remarks⟩ c).caseNumber = true := by
    rw [statusCase_caseNumber]; exact hn
  have hs := save_loaded env db _ hval hnum
  have hrole2 : ¬ (some user.role ∉ [prop USER_ROLES "JUDGE", prop USER_ROLES "REGISTRAR"]) :=
    not_not.2 ((mem_judge_registrar _).2 hrole)
  have heq : updateCaseStatus env db user id ⟨some target, remarks⟩ =
      ({ status := HTTP_STATUS.OK, success := true, message := some MESSAGES.CASE_UPDATED,
         data := some (stamp env false (statusCase env user ⟨some target, remarks⟩ c)) },
       Db.mk db.users (updateOne db.cases
          (stamp env false (statusCase env user ⟨some target, remarks⟩ c)))) := by
    unfold updateCaseStatus
    rw [if_neg hrole2, hfind]
    simp only [hs]
  refine ⟨_, by rw [heq], ?_, ?_⟩
  · rw [saved_status hs, statusCase_status]
  · rw [heq]
    exact saved_stored hfind (statusCase_id _ _ _ _) hs

/-- A target outside the status enum of the schema, such as pending or admitted, is refused
by the validator: the catch block answers 500 and nothing is written. -/
theorem updateCaseStatus_outside_enum (env : Env) (db : Db) (user : Principal)
    (id : ObjectId) (c : Case) (target : String) (remarks : Option String)
    (hfind : Case.findById db.cases id = some c)
    (hrole : user.role = "judge" ∨ user.role = "registrar")
    (htarget : target ∉ objectValues CASE_STATUS) :
    updateCaseStatus env db user id ⟨some target, remarks⟩ = (Response.serverError, db) := by
  have hval : (statusCase env user ⟨some target, remarks⟩ c).validate = false := by
    have hs : enumText (objectValues CASE_STATUS) (some target) = false := by
      simpa [enumText] using htarget
    unfold statusCase
    simp only [Case.validate, Case.addHistoryEntry]
    split <;> simp [hs]
  have hsave : Case.save env db false (statusCase env user ⟨some target, remarks⟩ c) = none := by
    simp [Case.save, hval]
  unfold updateCaseStatus
  rw [if_neg (not_not.2 ((mem_judge_registrar _).2 hrole)), hfind]
  simp only [hsave]

/-- Counterexample to C12: pending, the status the specification gives a case after
`scheduleHearing`, is no value of the status enum of the schema, and neither are admitted
and in_progress: the registrar who asks for one of them on the sample case is answered 500
and the case stays as it was. -/
theorem updateCaseStatus_pending_refused :
    "pending" ∈ specStatuses ∧
    (∀ target ∈ ["admitted", "pending", "in_progress"],
      target ∉ objectValues CASE_STATUS ∧
      (updateCaseStatus Sample.env Sample.db2 Sample.registrar 10
        ⟨some target, none⟩).1.status = HTTP_STATUS.INTERNAL_SERVER_ERROR ∧
      (updateCaseStatus Sample.env Sample.db2 Sample.registrar 10
        ⟨some target, none⟩).1.success = false ∧
      (updateCaseStatus Sample.env Sample.db2 Sample.registrar 10
        ⟨some target, none⟩).2 = Sample.db2) := by
  decide

/-- C12, amended. On an existing case, well-formed as every stored case is, whatever its
current status, a judge or a registrar can set any value of the status enum of the schema
(registered, case_admitted, notice_issued, appearance, evidence_stage, arguments, reserved,
disposed, dismissed, withdrawn): `updateCaseStatus` answers 200 and the case returned and
stored has the target status; no relation between the current and the target status is
examined.  Every other target is refused: the answer is 500 and nothing is written. -/
theorem updateCaseStatus_enum_targets (env : Env) (db : Db) (user : Principal)
    (id : ObjectId) (c : Case) (remarks : Option String)
    (hfind : Case.findById db.cases id = some c) (hc : c.wellFormed = true)
    (hrole : user.role = "judge" ∨ user.role = "registrar") :
    objectValues CASE_STATUS =
      ["registered", "case_admitted", "notice_issued", "appearance", "evidence_stage",
       "arguments", "reserved", "disposed", "dismissed", "withdrawn"] ∧
    (∀ target, target ∈ objectValues CASE_STATUS →
      ∃ saved,
        (updateCaseStatus env db user id ⟨some target, remarks⟩).1 =
          { status := HTTP_STATUS.OK, success := true, message := some MESSAGES.CASE_UPDATED,
            data := some saved } ∧
        saved.status = some target ∧
        Case.findById (updateCaseStatus env db user id ⟨some target, remarks⟩).2.cases id =
          some saved) ∧
    (∀ target, target ∉ objectValues CASE_STATUS →
      updateCaseStatus env db user id ⟨some target, remarks⟩ = (Response.serverError, db)) :=
  ⟨rfl,
    fun target htarget =>
      updateCaseStatus_accepts env db user id c target remarks hfind hc hrole htarget,
    fun target htarget =>
      updateCaseStatus_outside_enum env db user id c target remarks hfind hrole htarget⟩

/-- Witness of C12, amended: the sample case, disposed at the end of the sample trace, is
set back to registered by the registrar. -/
theorem updateCaseStatus_enum_targets_witness :
    (Case.findById (run Sample.db0 Sample.trace).cases 10).map (fun c => c.status) =
      some (some "disposed") ∧
    ∃ saved, Case.findById (updateCaseStatus Sample.env (run Sample.db0 Sample.trace)
        Sample.registrar 10 ⟨some "registered", none⟩).2.cases 10 = some saved ∧
      saved.status = some "registered" := by
  have hf : (Case.findById (run Sample.db0 Sample.trace).cases 10).isSome = true := by decide
  obtain ⟨c, hc⟩ := Option.isSome_iff_exists.1 hf
  have hwf := run_wellFormed Sample.trace Sample.db0
    (fun c hc => absurd hc (List.not_mem_nil c)) c (findById_mem hc)
  obtain ⟨saved, _, h2, h3⟩ := (updateCaseStatus_enum_targets Sample.env
    (run Sample.db0 Sample.trace) Sample.registrar 10 c none
    hc hwf (Or.inr rfl)).2.1 "registered" (by decide)
  exact ⟨by decide, saved, h3, h2⟩

/-! ## The history of a case along a trace -/

theorem findById_updateOne_ne {cases : List Case} {id : ObjectId} {s : Case}
    (hs : s._id ≠ id) : Case.findById (updateOne cases s) id = Case.findById cases id := by
  induction cases with
  | nil => rfl
  | cons d ds ih =>
    unfold updateOne
    by_cases hd : d._id = s._id
    · have hne : d._id ≠ id := by rw [hd]; exact hs
      simp only [hd, if_true]
      simp only [Case.findById, List.find?_cons, hs, hne, decide_False]
    · simp only [hd, if_false]
      simp only [Case.findById, List.find?_cons] at ih ⊢
      rw [ih]

theorem findById_append {cases : List Case} {id : ObjectId} {c : Case} (s : Case)
    (h : Case.findById cases id = some c) : Case.findById (cases ++ [s]) id = some c := by
  unfold Case.findById at h ⊢
  rw [List.find?_append, h]
  rfl

/-- A successful insertion puts the new document where `findById` finds it: the unique
index on `_id` has checked that no stored document has its id. -/
theorem save_new_find {env : Env} {db db1 : Db} {c s : Case}
    (h : Case.save env db true c = some (s, db1)) :
    Case.findById db1.cases s._id = some s := by
  have hall := save_some h
  obtain ⟨hv, hs, _, hcases⟩ := hall
  have hfresh : db.cases.find? (fun d => decide (d._id = s._id)) = none := by
    unfold Case.save at h
    simp only [hv, Bool.not_true, Bool.false_eq_true, if_false, if_true] at h
    split at h
    · exact absurd h (by simp)
    · rename_i hany
      rw [← hs] at hany
      rw [List.find?_eq_none]
      intro d hd hdid
      apply hany
      rw [List.any_eq_true]
      exact ⟨d, hd, by simp [hdid]⟩
  simp only [if_true] at hcases
  rw [hcases]
  unfold Case.findById
  rw [List.find?_append, hfresh]
  simp

theorem statusCase_caseHistory (env : Env) (user : Principal) (body : StatusBody) (c : Case) :
    ∃ entry, (statusCase env user body c).caseHistory = c.caseHistory ++ [entry] ∧
      entry.actionBy = user.id ∧ entry.actionDate = env.now := by
  unfold statusCase
  simp only [Case.addHistoryEntry]
  split
  · exact ⟨_, rfl, rfl, rfl⟩
  · exact ⟨_, rfl, rfl, rfl⟩

/-- What one request does to the history of the case `id`: a successful mutation of that
case appends one entry, by the acting principal at the time of the request; any other
request leaves the history as it is. -/
theorem step_history (db : Db) (env : Env) (request : Request) (id : ObjectId) (c : Case)
    (hfind : Case.findById db.cases id = some c) :
    ∃ c', Case.findById (step db env request).cases id = some c' ∧
      ((request.mutates id && succeeds db env request) = true →
        ∃ entry, c'.caseHistory = c.caseHistory ++ [entry] ∧
          entry.actionBy = request.user.id ∧ entry.actionDate = env.now) ∧
      ((request.mutates id && succeeds db env request) = false →
        c'.caseHistory = c.caseHistory) := by
  cases request with
  | register user body =>
    refine ⟨c, ?_, fun h => absurd h (by simp [Request.mutates]), fun _ => rfl⟩
    rcases registerCase_outcome env db user body with
      ⟨_, _, h⟩ | ⟨_, s, db1, _, _, _, _, _, _, _, _, _, _, _, hs, heq⟩
    · show Case.findById (registerCase env db user body).2.cases id = some c
      rw [h]; exact hfind
    · show Case.findById (registerCase env db user body).2.cases id = some c
      rw [heq]
      have hcases := (save_some hs).2.2.2
      simp only [if_true] at hcases
      show Case.findById db1.cases id = some c
      rw [hcases]
      exact findById_append s hfind
  | assign user target body =>
    rcases assignJudge_outcome env db user target body with
      ⟨hf, _, h⟩ | ⟨judge, c0, s, db1, _, _, _, hc, hs, heq⟩
    · refine ⟨c, ?_, fun hm => ?_, fun _ => rfl⟩
      · show Case.findById (assignJudge env db user target body).2.cases id = some c
        rw [h]; exact hfind
      · simp [succeeds, hf] at hm
    · have hstep : (step db env (.assign user target body)) = db1 := by
        show (assignJudge env db user target body).2 = db1
        rw [heq]
      have hsucc : succeeds db env (.assign user target body) = true := by
        show (assignJudge env db user target body).1.success = true
        rw [heq]
      have hcases := (save_some hs).2.2.2
      simp only [Bool.false_eq_true, if_false] at hcases
      have hsid : s._id = target := by
        rw [saved_id hs]; show c0._id = target; exact findById_id hc
      rw [hstep]
      by_cases ht : target = id
      · subst ht
        rw [hfind] at hc
        simp only [Option.some.injEq] at hc
        subst hc
        refine ⟨s, ?_, fun _ => ?_, fun hm => ?_⟩
        · rw [hcases]; exact findById_updateOne hfind hsid
        · exact ⟨_, (saved_caseHistory hs).trans rfl, rfl, rfl⟩
        · simp [Request.mutates, hsucc] at hm
      · refine ⟨c, ?_, fun hm => ?_, fun _ => rfl⟩
        · rw [hcases, findById_updateOne_ne (by rw [hsid]; exact ht)]; exact hfind
        · simp [Request.mutates, ht] at hm
  | schedule user target body =>
    rcases scheduleHearing_outcome env db user target body with
      ⟨hf, _, h⟩ | ⟨c0, s, db1, _, hc, hs, heq⟩
    · refine ⟨c, ?_, fun hm => ?_, fun _ => rfl⟩
      · show Case.findById (scheduleHearing env db user target body).2.cases id = some c
        rw [h]; exact hfind
      · simp [succeeds, hf] at hm
    · have hstep : (step db env (.schedule user target body)) = db1 := by
        show (scheduleHearing env db user target body).2 = db1
        rw [heq]
      have hsucc : succeeds db env (.schedule user target body) = true := by
        show (scheduleHearing env db user target body).1.success = true
        rw [heq]
      have hcases := (save_some hs).2.2.2
      simp only [Bool.false_eq_true, if_false] at hcases
      have hsid : s._id = target := by
        rw [saved_id hs]; show c0._id = target; exact findById_id hc
      rw [hstep]
      by_cases ht : target = id
      · subst ht
        rw [hfind] at hc
        simp only [Option.some.injEq] at hc
        subst hc
        refine ⟨s, ?_, fun _ => ?_, fun hm => ?_⟩
        · rw [hcases]; exact findById_updateOne hfind hsid
        · exact ⟨_, (saved_caseHistory hs).trans rfl, rfl, rfl⟩
        · simp [Request.mutates, hsucc] at hm
      · refine ⟨c, ?_, fun hm => ?_, fun _ => rfl⟩
        · rw [hcases, findById_updateOne_ne (by rw [hsid]; exact ht)]; exact hfind
        · simp [Request.mutates, ht] at hm
  | order user target body =>
    rcases addCaseOrder_outcome env db user target body with
      ⟨hf, _, h⟩ | ⟨c0, t, s, db1, _, hc, _, _, hs, heq⟩
    · refine ⟨c, ?_, fun hm => ?_, fun _ => rfl⟩
      · show Case.findById (addCaseOrder env db user target body).2.cases id = some c
        rw [h]; exact hfind
      · simp [succeeds, hf] at hm
    · have hstep : (step db env (.order user target body)) = db1 := by
        show (addCaseOrder env db user target body).2 = db1
        rw [heq]
      have hsucc : succeeds db env (.order user target body) = true := by
        show (addCaseOrder env db user target body).1.success = true
        rw [heq]
      have hcases := (save_some hs).2.2.2
      simp only [Bool.false_eq_true, if_false] at hcases
      have hsid : s._id = target := by
        rw [saved_id hs]; show c0._id = target; exact findById_id hc
      rw [hstep]
      by_cases ht : target = id
      · subst ht
        rw [hfind] at hc
        simp only [Option.some.injEq] at hc
        subst hc
        refine ⟨s, ?_, fun _ => ?_, fun hm => ?_⟩
        · rw [hcases]; exact findById_updateOne hfind hsid
        · exact ⟨_, (saved_caseHistory hs).trans rfl, rfl, rfl⟩
        · simp [Request.mutates, hsucc] at hm
      · refine ⟨c, ?_, fun hm => ?_, fun _ => rfl⟩
        · rw [hcases, findById_updateOne_ne (by rw [hsid]; exact ht)]; exact hfind
        · simp [Request.mutates, ht] at hm
  | status user target body =>
    rcases updateCaseStatus_outcome env db user target body with
      ⟨hf, _, h⟩ | ⟨c0, s, db1, _, hc, hs, heq⟩
    · refine ⟨c, ?_, fun hm => ?_, fun _ => rfl⟩
      · show Case.findById (updateCaseStatus env db user target body).2.cases id = some c
        rw [h]; exact hfind
      · simp [succeeds, hf] at hm
    · have hstep : (step db env (.status user target body)) = db1 := by
        show (updateCaseStatus env db user target body).2 = db1
        rw [heq]
      have hsucc : succeeds db env (.status user target body) = true := by
        show (updateCaseStatus env db user target body).1.success = true
        rw [heq]
      have hcases := (save_some hs).2.2.2
      simp only [Bool.false_eq_true, if_false] at hcases
      have hsid : s._id = target :=
        ((saved_id hs).trans (statusCase_id _ _ _ _)).trans (findById_id hc)
      rw [hstep]
      by_cases ht : target = id
      · subst ht
        rw [hfind] at hc
        simp only [Option.some.injEq] at hc
        subst hc
        refine ⟨s, ?_, fun _ => ?_, fun hm => ?_⟩
        · rw [hcases]; exact findById_updateOne hfind hsid
        · obtain ⟨entry, he, h1, h2⟩ := statusCase_caseHistory env user body c
          exact ⟨entry, (saved_caseHistory hs).trans he, h1, h2⟩
        · simp [Request.mutates, hsucc] at hm
      · refine ⟨c, ?_, fun hm => ?_, fun _ => rfl⟩
        · rw [hcases, findById_updateOne_ne (by rw [hsid]; exact ht)]; exact hfind
        · simp [Request.mutates, ht] at hm

/-- Along a trace the history of a case only grows at its end, by one entry for each
successful mutation of the case. -/
theorem run_history (trace : List (Env × Request)) (db : Db) (id : ObjectId) (c : Case)
    (hfind : Case.findById db.cases id = some c) :
    ∃ c' more, Case.findById (run db trace).cases id = some c' ∧
      c'.caseHistory = c.caseHistory ++ more ∧ more.length = countMutations id db trace := by
  induction trace generalizing db c with
  | nil => exact ⟨c, [], hfind, by simp, rfl⟩
  | cons item rest ih =>
    obtain ⟨c1, hf1, hyes, hno⟩ := step_history db item.1 item.2 id c hfind
    obtain ⟨c', more, hf', hh, hl⟩ := ih (step db item.1 item.2) c1 hf1
    by_cases hm : (item.2.mutates id && succeeds db item.1 item.2) = true
    · obtain ⟨entry, he, _, _⟩ := hyes hm
      refine ⟨c', entry :: more, hf', ?_, ?_⟩
      · rw [hh, he]; simp
      · simp only [countMutations, hm, if_true, List.length_cons, hl]; omega
    · have hm' : (item.2.mutates id && succeeds db item.1 item.2) = false := by
        simpa using hm
      refine ⟨c', more, hf', ?_, ?_⟩
      · rw [hh, hno hm']
      · simp only [countMutations, hm', Bool.false_eq_true, if_false, hl]; omega

/-- C13. A successful `assignJudge`, `scheduleHearing`, `addCaseOrder` or `updateCaseStatus`
on a case keeps every earlier history entry in place and appends exactly one entry, by the
acting principal and dated at the time of the request.  Along any trace the history of a
case is its earlier history followed by one entry for each successful mutation of the case;
so a freshly registered case has 1 + N entries after N successful mutations. -/
theorem history_append_only :
    (∀ (db : Db) (env : Env) (request : Request) (id : ObjectId) (c : Case),
      Case.findById db.cases id = some c → request.mutates id = true →
      succeeds db env request = true →
        ∃ c' entry, Case.findById (step db env request).cases id = some c' ∧
          c'.caseHistory = c.caseHistory ++ [entry] ∧
          entry.actionBy = request.user.id ∧ entry.actionDate = env.now) ∧
    (∀ (db : Db) (trace : List (Env × Request)) (id : ObjectId) (c : Case),
      Case.findById db.cases id = some c →
        ∃ c' more, Case.findById (run db trace).cases id = some c' ∧
          c'.caseHistory = c.caseHistory ++ more ∧
          more.length = countMutations id db trace) ∧
    (∀ (env : Env) (db : Db) (user : Principal) (body : RegisterBody) (fresh : Case)
        (trace : List (Env × Request)),
      (registerCase env db user body).1.data = some fresh →
        ∃ c', Case.findById (run (registerCase env db user body).2 trace).cases fresh._id =
            some c' ∧
          c'.caseHistory.length =
            1 + countMutations fresh._id (registerCase env db user body).2 trace) := by
  refine ⟨?_, ?_, ?_⟩
  · intro db env request id c hfind hm hs
    obtain ⟨c', hf', hyes, _⟩ := step_history db env request id c hfind
    obtain ⟨entry, he, h1, h2⟩ := hyes (by simp [hm, hs])
    exact ⟨c', entry, hf', he, h1, h2⟩
  · intro db trace id c hfind
    exact run_history trace db id c hfind
  · intro env db user body fresh trace h
    rcases registerCase_outcome env db user body with
      ⟨_, hd, _⟩ | ⟨parties, s, db1, _, _, _, _, _, _, _, _, _, _, _, hs, heq⟩
    · rw [hd] at h; exact absurd h (by simp)
    · rw [heq] at h ⊢
      simp only [Option.some.injEq] at h
      subst h
      obtain ⟨c', more, hf', hh, hl⟩ := run_history trace db1 s._id s (save_new_find hs)
      refine ⟨c', hf', ?_⟩
      have hone : s.caseHistory.length = 1 := by
        rw [saved_caseHistory hs]; rfl
      rw [hh, List.length_append, hone, hl]

/-- Witness of C13: the sample case, freshly registered, has five history entries after the
four mutations of the sample trace, the last one by judge 2. -/
theorem history_append_only_witness :
    ∃ c', Case.findById (run Sample.db1 Sample.trace.tail).cases 10 = some c' ∧
      c'.caseHistory.length = 5 ∧
      (c'.caseHistory.map (fun entry => entry.actionBy)) = [1, 1, 2, 2, 2] := by
  have hd : ((registerCase Sample.env Sample.db0 Sample.registrar Sample.body).1.data).isSome =
      true := by decide
  obtain ⟨fresh, hfresh⟩ := Option.isSome_iff_exists.1 hd
  have hid : fresh._id = 10 := by
    have h10 : (registerCase Sample.env Sample.db0 Sample.registrar Sample.body).1.data.map
        (fun c => c._id) = some 10 := by decide
    rw [hfresh] at h10
    simpa using h10
  obtain ⟨c', hf', hl⟩ := history_append_only.2.2 Sample.env Sample.db0 Sample.registrar
    Sample.body fresh Sample.trace.tail hfresh
  rw [hid] at hf' hl
  have hcount : countMutations 10 (registerCase Sample.env Sample.db0 Sample.registrar
      Sample.body).2 Sample.trace.tail = 4 := by decide
  rw [hcount] at hl
  refine ⟨c', hf', hl, ?_⟩
  have hby : (Case.findById (run Sample.db1 Sample.trace.tail).cases 10).map
      (fun c => c.caseHistory.map (fun entry => entry.actionBy)) = some [1, 1, 2, 2, 2] := by
    decide
  have hf'' : Case.findById (run Sample.db1 Sample.trace.tail).cases 10 = some c' := hf'
  rw [hf''] at hby
  simpa using hby

/-! ## Lookup by id -/

/-- Counterexample to C14: the sample case, soft-deleted, is still found by id: the
registrar updates its status, assigns a judge, schedules a hearing and reads it, and none
of the answers is 404.  And `assignJudge`, which checks the judge before it looks the case
up, answers 400 when neither the judge (user 3) nor the case (99) resolves. -/
theorem inactive_case_is_found :
    (Case.findById Sample.inactiveDb.cases 10).map (fun c => c.isActive) = some false ∧
    (updateCaseStatus Sample.env Sample.inactiveDb Sample.registrar 10
      ⟨some "disposed", none⟩).1.status = HTTP_STATUS.OK ∧
    (updateCaseStatus Sample.env Sample.inactiveDb Sample.registrar 10
      ⟨some "disposed", none⟩).2 ≠ Sample.inactiveDb ∧
    (assignJudge Sample.env Sample.inactiveDb Sample.registrar 10
      ⟨some 2, none⟩).1.status = HTTP_STATUS.OK ∧
    (scheduleHearing Sample.env Sample.inactiveDb Sample.registrar 10
      Sample.hearingBody).1.status = HTTP_STATUS.CREATED ∧
    (getCaseById Sample.inactiveDb Sample.registrar 10).status = HTTP_STATUS.OK ∧
    (assignJudge Sample.env Sample.db2 Sample.registrar 99
      ⟨some 3, none⟩).1.status = HTTP_STATUS.BAD_REQUEST := by
  decide

/-- C14, amended. When the case id does not resolve to a stored case, active or not,
`assignJudge`, `scheduleHearing`, `addCaseOrder` and `updateCaseStatus` fail and leave the
database as it was, and `getCaseById` fails; the answer is 404 once the checks made before
the lookup pass: the role check and, in `assignJudge`, the check of the judge. -/
theorem missing_case_not_found :
    (∀ (env : Env) (db : Db) (user : Principal) (id : ObjectId) (body : AssignJudgeBody),
      Case.findById db.cases id = none →
        (assignJudge env db user id body).1.success = false ∧
        (assignJudge env db user id body).2 = db ∧
        (user.role = "registrar" → resolvesTo db.users body.judgeId "judge" = true →
          (assignJudge env db user id body).1.status = HTTP_STATUS.NOT_FOUND)) ∧
    (∀ (env : Env) (db : Db) (user : Principal) (id : ObjectId) (body : HearingBody),
      Case.findById db.cases id = none →
        (scheduleHearing env db user id body).1.success = false ∧
        (scheduleHearing env db user id body).2 = db ∧
        (user.role = "judge" ∨ user.role = "registrar" →
          (scheduleHearing env db user id body).1.status = HTTP_STATUS.NOT_FOUND)) ∧
    (∀ (env : Env) (db : Db) (user : Principal) (id : ObjectId) (body : OrderBody),
      Case.findById db.cases id = none →
        (addCaseOrder env db user id body).1.success = false ∧
        (addCaseOrder env db user id body).2 = db ∧
        (user.role = "judge" →
          (addCaseOrder env db user id body).1.status = HTTP_STATUS.NOT_FOUND)) ∧
    (∀ (env : Env) (db : Db) (user : Principal) (id : ObjectId) (body : StatusBody),
      Case.findById db.cases id = none →
        (updateCaseStatus env db user id body).1.success = false ∧
        (updateCaseStatus env db user id body).2 = db ∧
        (user.role = "judge" ∨ user.role = "registrar" →
          (updateCaseStatus env db user id body).1.status = HTTP_STATUS.NOT_FOUND)) ∧
    (∀ (db : Db) (user : Principal) (id : ObjectId),
      Case.findById db.cases id = none →
        (getCaseById db user id).success = false ∧
        (getCaseById db user id).status = HTTP_STATUS.NOT_FOUND) := by
  refine ⟨?_, ?_, ?_, ?_, ?_⟩
  · intro env db user id body hnone
    refine ⟨?_, ?_, ?_⟩
    · rcases assignJudge_outcome env db user id body with
        ⟨h, _, _⟩ | ⟨_, _, _, _, _, _, _, hc, _, _⟩
      · exact h
      · rw [hnone] at hc; exact absurd hc (by simp)
    · rcases assignJudge_outcome env db user id body with
        ⟨_, _, h⟩ | ⟨_, _, _, _, _, _, _, hc, _, _⟩
      · exact h
      · rw [hnone] at hc; exact absurd hc (by simp)
    · intro hr hj
      unfold resolvesTo at hj
      unfold assignJudge
      rw [if_neg (not_not.2 ((mem_registrar_admin _).2 hr))]
      split at hj
      · exact absurd hj (by simp)
      · rename_i judge hju
        have hjr : ¬ (some judge.role ≠ prop USER_ROLES "JUDGE") := by
          rw [role_judge]; simpa using hj
        simp only [hju, if_neg hjr, hnone]
        rfl
  · intro env db user id body hnone
    refine ⟨?_, ?_, ?_⟩
    · rcases scheduleHearing_outcome env db user id body with
        ⟨h, _, _⟩ | ⟨_, _, _, _, hc, _, _⟩
      · exact h
      · rw [hnone] at hc; exact absurd hc (by simp)
    · rcases scheduleHearing_outcome env db user id body with
        ⟨_, _, h⟩ | ⟨_, _, _, _, hc, _, _⟩
      · exact h
      · rw [hnone] at hc; exact absurd hc (by simp)
    · intro hr
      unfold scheduleHearing
      rw [if_neg (not_not.2 ((mem_judge_registrar _).2 hr)), hnone]
      rfl
  · intro env db user id body hnone
    refine ⟨?_, ?_, ?_⟩
    · rcases addCaseOrder_outcome env db user id body with
        ⟨h, _, _⟩ | ⟨_, _, _, _, _, hc, _, _, _, _⟩
      · exact h
      · rw [hnone] at hc; exact absurd hc (by simp)
    · rcases addCaseOrder_outcome env db user id body with
        ⟨_, _, h⟩ | ⟨_, _, _, _, _, hc, _, _, _, _⟩
      · exact h
      · rw [hnone] at hc; exact absurd hc (by simp)
    · intro hr
      have hrole : ¬ (some user.role ≠ prop USER_ROLES "JUDGE") := by
        rw [hr, role_judge]; simp
      unfold addCaseOrder
      rw [if_neg hrole, hnone]
      rfl
  · intro env db user id body hnone
    refine ⟨?_, ?_, ?_⟩
    · rcases updateCaseStatus_outcome env db user id body with
        ⟨h, _, _⟩ | ⟨_, _, _, _, hc, _, _⟩
      · exact h
      · rw [hnone] at hc; exact absurd hc (by simp)
    · rcases updateCaseStatus_outcome env db user id body with
        ⟨_, _, h⟩ | ⟨_, _, _, _, hc, _, _⟩
      · exact h
      · rw [hnone] at hc; exact absurd hc (by simp)
    · intro hr
      unfold updateCaseStatus
      rw [if_neg (not_not.2 ((mem_judge_registrar _).2 hr)), hnone]
      rfl
  · intro db user id hnone
    unfold getCaseById
    rw [hnone]
    exact ⟨rfl, rfl⟩

/-- Witness of C14, amended: no case has id 99 in the sample collection. -/
theorem missing_case_not_found_witness :
    (assignJudge Sample.env Sample.db2 Sample.registrar 99 ⟨some 2, none⟩).1.status = 404 ∧
    (scheduleHearing Sample.env Sample.db2 Sample.judge 99 Sample.hearingBody).1.status = 404 ∧
    (addCaseOrder Sample.env Sample.db2 Sample.judge 99 Sample.orderBody).1.status = 404 ∧
    (updateCaseStatus Sample.env Sample.db2 Sample.judge 99 ⟨some "disposed", none⟩).1.status =
      404 ∧
    (getCaseById Sample.db2 Sample.judge 99).status = 404 := by
  obtain ⟨h1, h2, h3, h4, h5⟩ := missing_case_not_found
  exact ⟨(h1 Sample.env Sample.db2 Sample.registrar 99 ⟨some 2, none⟩ (by decide)).2.2 rfl
      (by decide),
    (h2 Sample.env Sample.db2 Sample.judge 99 Sample.hearingBody (by decide)).2.2 (Or.inl rfl),
    (h3 Sample.env Sample.db2 Sample.judge 99 Sample.orderBody (by decide)).2.2 rfl,
    (h4 Sample.env Sample.db2 Sample.judge 99 ⟨some "disposed", none⟩ (by decide)).2.2
      (Or.inl rfl),
    (h5 Sample.db2 Sample.judge 99 (by decide)).2⟩

/-! ## No partial write -/

/-- C15. When a lifecycle handler answers 400 (validation or role mismatch), 403 or 404,
the database after the call is the database before it. -/
theorem errors_leave_database_unchanged :
    (∀ (env : Env) (db : Db) (user : Principal) (body : RegisterBody),
      ((registerCase env db user body).1.status = HTTP_STATUS.BAD_REQUEST ∨
        (registerCase env db user body).1.status = HTTP_STATUS.FORBIDDEN ∨
        (registerCase env db user body).1.status = HTTP_STATUS.NOT_FOUND) →
        (registerCase env db user body).2 = db) ∧
    (∀ (env : Env) (db : Db) (user : Principal) (id : ObjectId) (body : AssignJudgeBody),
      ((assignJudge env db user id body).1.status = HTTP_STATUS.BAD_REQUEST ∨
        (assignJudge env db user id body).1.status = HTTP_STATUS.FORBIDDEN ∨
        (assignJudge env db user id body).1.status = HTTP_STATUS.NOT_FOUND) →
        (assignJudge env db user id body).2 = db) ∧
    (∀ (env : Env) (db : Db) (user : Principal) (id : ObjectId) (body : HearingBody),
      ((scheduleHearing env db user id body).1.status = HTTP_STATUS.BAD_REQUEST ∨
        (scheduleHearing env db user id body).1.status = HTTP_STATUS.FORBIDDEN ∨
        (scheduleHearing env db user id body).1.status = HTTP_STATUS.NOT_FOUND) →
        (scheduleHearing env db user id body).2 = db) ∧
    (∀ (env : Env) (db : Db) (user : Principal) (id : ObjectId) (body : OrderBody),
      ((addCaseOrder env db user id body).1.status = HTTP_STATUS.BAD_REQUEST ∨
        (addCaseOrder env db user id body).1.status = HTTP_STATUS.FORBIDDEN ∨
        (addCaseOrder env db user id body).1.status = HTTP_STATUS.NOT_FOUND) →
        (addCaseOrder env db user id body).2 = db) ∧
    (∀ (env : Env) (db : Db) (user : Principal) (id : ObjectId) (body : StatusBody),
      ((updateCaseStatus env db user id body).1.status = HTTP_STATUS.BAD_REQUEST ∨
        (updateCaseStatus env db user id body).1.status = HTTP_STATUS.FORBIDDEN ∨
        (updateCaseStatus env db user id body).1.status = HTTP_STATUS.NOT_FOUND) →
        (updateCaseStatus env db user id body).2 = db) := by
  refine ⟨?_, ?_, ?_, ?_, ?_⟩
  · intro env db user body h
    rcases registerCase_outcome env db user body with
      ⟨_, _, hdb⟩ | ⟨_, _, _, _, _, _, _, _, _, _, _, _, _, _, _, heq⟩
    · exact hdb
    · rw [heq] at h
      simp [HTTP_STATUS.CREATED, HTTP_STATUS.BAD_REQUEST, HTTP_STATUS.FORBIDDEN,
        HTTP_STATUS.NOT_FOUND] at h
  · intro env db user id body h
    rcases assignJudge_outcome env db user id body with
      ⟨_, _, hdb⟩ | ⟨_, _, _, _, _, _, _, _, _, heq⟩
    · exact hdb
    · rw [heq] at h
      simp [HTTP_STATUS.OK, HTTP_STATUS.BAD_REQUEST, HTTP_STATUS.FORBIDDEN,
        HTTP_STATUS.NOT_FOUND] at h
  · intro env db user id body h
    rcases scheduleHearing_outcome env db user id body with
      ⟨_, _, hdb⟩ | ⟨_, _, _, _, _, _, heq⟩
    · exact hdb
    · rw [heq] at h
      simp [HTTP_STATUS.CREATED, HTTP_STATUS.BAD_REQUEST, HTTP_STATUS.FORBIDDEN,
        HTTP_STATUS.NOT_FOUND] at h
  · intro env db user id body h
    rcases addCaseOrder_outcome env db user id body with
      ⟨_, _, hdb⟩ | ⟨_, _, _, _, _, _, _, _, _, heq⟩
    · exact hdb
    · rw [heq] at h
      simp [HTTP_STATUS.CREATED, HTTP_STATUS.BAD_REQUEST, HTTP_STATUS.FORBIDDEN,
        HTTP_STATUS.NOT_FOUND] at h
  · intro env db user id body h
    rcases updateCaseStatus_outcome env db user id body with
      ⟨_, _, hdb⟩ | ⟨_, _, _, _, _, _, heq⟩
    · exact hdb
    · rw [heq] at h
      simp [HTTP_STATUS.OK, HTTP_STATUS.BAD_REQUEST, HTTP_STATUS.FORBIDDEN,
        HTTP_STATUS.NOT_FOUND] at h

/-- Witness of C15: a registration without respondent (400), an order by a judge the case
is not assigned to (403) and a status update of a case that does not exist (404) leave
the sample collection as it was. -/
theorem errors_leave_database_unchanged_witness :
    (registerCase Sample.env Sample.db2 Sample.registrar
      { Sample.body with parties := some [⟨some 3, "petitioner", none, true⟩] }).2 =
      Sample.db2 ∧
    (addCaseOrder Sample.env Sample.db2 Sample.otherJudge 10 Sample.orderBody).2 = Sample.db2 ∧
    (updateCaseStatus Sample.env Sample.db2 Sample.judge 99 ⟨some "disposed", none⟩).2 =
      Sample.db2 := by
  obtain ⟨h1, _, _, h4, h5⟩ := errors_leave_database_unchanged
  exact ⟨h1 Sample.env Sample.db2 Sample.registrar
      { Sample.body with parties := some [⟨some 3, "petitioner", none, true⟩] }
      (Or.inl (by decide)),
    h4 Sample.env Sample.db2 Sample.otherJudge 10 Sample.orderBody (Or.inr (Or.inl (by decide))),
    h5 Sample.env Sample.db2 Sample.judge 99 ⟨some "disposed", none⟩
      (Or.inr (Or.inr (by decide)))⟩

/-! ## Access fails closed -/

/-- C18. Access fails closed: to a principal whose role is none of registrar, judge, lawyer
and user, `checkCaseAccess` returns false for every case and `getCases` answers 403 with
no case listed; to a registrar `checkCaseAccess` returns true for every case. -/
theorem access_fails_closed :
    (∀ (user : Principal) (c : PopulatedCase),
      user.role ≠ "registrar" → user.role ≠ "judge" → user.role ≠ "lawyer" →
      user.role ≠ "user" → checkCaseAccess user c = some false) ∧
    (∀ (env : Env) (db : Db) (user : Principal) (q : CasesQuery),
      user.role ≠ "registrar" → user.role ≠ "judge" → user.role ≠ "lawyer" →
      user.role ≠ "user" →
        (getCases env db user q).status = HTTP_STATUS.FORBIDDEN ∧
        (getCases env db user q).success = false ∧ (getCases env db user q).data = none) ∧
    (∀ (user : Principal) (c : PopulatedCase), user.role = "registrar" →
      checkCaseAccess user c = some true) := by
  refine ⟨?_, ?_, ?_⟩
  · intro user c h1 h2 h3 h4
    simp [checkCaseAccess, role_registrar, role_judge, role_lawyer, role_user, h1, h2, h3, h4]
  · intro env db user q h1 h2 h3 h4
    have hf : getCasesFilter user q = none := by
      simp [getCasesFilter, roleFilter, role_registrar, role_judge, role_lawyer, role_user,
        h1, h2, h3, h4]
    unfold getCases
    rw [hf]
    exact ⟨rfl, rfl, rfl⟩
  · intro user c h
    simp [checkCaseAccess, role_registrar, h]

/-- Witness of C18: a principal of role clerk is refused the sample case and the list; the
registrar may view the sample case. -/
theorem access_fails_closed_witness :
    ((Case.findById Sample.db2.cases 10).map (populate Sample.users)).bind
      (checkCaseAccess Sample.clerk) = some false ∧
    (getCases Sample.env Sample.db2 Sample.clerk Sample.noQuery).status = 403 ∧
    ((Case.findById Sample.db2.cases 10).map (populate Sample.users)).bind
      (checkCaseAccess Sample.registrar) = some true := by
  have h2 : (Case.findById Sample.db2.cases 10).isSome = true := by decide
  obtain ⟨c, hc⟩ := Option.isSome_iff_exists.1 h2
  rw [hc]
  obtain ⟨a, b, d⟩ := access_fails_closed
  exact ⟨a Sample.clerk (populate Sample.users c) (by decide) (by decide) (by decide)
      (by decide),
    (b Sample.env Sample.db2 Sample.clerk Sample.noQuery (by decide) (by decide) (by decide)
      (by decide)).1,
    d Sample.registrar (populate Sample.users c) rfl⟩

/-! ## The list of a lawyer -/

/-- C19. For a lawyer who supplies no explicit filter, the filter `getCases` builds matches
a case exactly when the case is active and some party has the lawyer as assigned lawyer,
and the cases listed are exactly the stored cases of that kind. -/
theorem getCases_lawyer_scope (env : Env) (db : Db) (user : Principal) (q : CasesQuery)
    (hrole : user.role = "lawyer")
    (hq : truthy q.status = false ∧ truthy q.caseType = false ∧ truthy q.priority = false ∧
      truthy q.search = false) :
    ∃ f list, getCasesFilter user q = some f ∧
      (∀ c : Case, f.matches env c = true ↔
        (c.isActive = true ∧ ∃ party ∈ c.parties, party.assignedLawyer = some user.id)) ∧
      (getCases env db user q).data = some list ∧
      (∀ c : Case, c ∈ list.matched ↔
        (c ∈ db.cases ∧ c.isActive = true ∧
          ∃ party ∈ c.parties, party.assignedLawyer = some user.id)) := by
  obtain ⟨h1, h2, h3, h4⟩ := hq
  have hrf : roleFilter user = some { Filter.base with partiesAssignedLawyer := some user.id } := by
    unfold roleFilter
    rw [role_registrar, role_judge, role_lawyer, hrole]
    rw [if_neg (by decide), if_neg (by decide), if_pos rfl]
  have hsearch : (match q.search with
      | none => ({ Filter.base with partiesAssignedLawyer := some user.id } : Filter)
      | some search =>
        if search ≠ "" then
          { ({ Filter.base with partiesAssignedLawyer := some user.id } : Filter) with
            or := some [Clause.titleRegex search, Clause.caseNumberRegex search,
                        Clause.descriptionRegex search] }
        else { Filter.base with partiesAssignedLawyer := some user.id }) =
      { Filter.base with partiesAssignedLawyer := some user.id } := by
    cases hs : q.search with
    | none => rfl
    | some search =>
      rw [hs] at h4
      simp only [truthy, decide_eq_false_iff_not, not_not] at h4
      simp [h4]
  have hf : getCasesFilter user q =
      some { Filter.base with partiesAssignedLawyer := some user.id } := by
    simp only [getCasesFilter, hrf, applyQuery, h1, h2, h3, Bool.false_eq_true, if_false]
    rw [hsearch]
  have hm : ∀ c : Case,
      Filter.matches env { Filter.base with partiesAssignedLawyer := some user.id } c = true ↔
        (c.isActive = true ∧ ∃ party ∈ c.parties, party.assignedLawyer = some user.id) := by
    intro c
    simp [Filter.matches, Filter.base, keyHolds, statusHolds, List.any_eq_true]
  have hdata : ∃ list, (getCases env db user q).data = some list ∧
      list.matched = db.cases.filter (fun c =>
        Filter.matches env { Filter.base with partiesAssignedLawyer := some user.id } c) := by
    unfold getCases
    rw [hf]
    exact ⟨_, rfl, rfl⟩
  obtain ⟨list, hd, hlist⟩ := hdata
  refine ⟨_, list, hf, hm, hd, ?_⟩
  intro c
  rw [hlist, List.mem_filter, hm c]

/-- Witness of C19: lawyer 5, who represents the petitioner of the sample case, is shown
the case; lawyer 8, who represents nobody, is shown nothing. -/
theorem getCases_lawyer_scope_witness :
    (∃ list, (getCases Sample.env Sample.db2 Sample.lawyer Sample.noQuery).data = some list ∧
      list.matched.map (fun c => c._id) = [10]) ∧
    (∃ list, (getCases Sample.env Sample.db2 ⟨8, "lawyer", "Lubna", "Mir"⟩
        Sample.noQuery).data = some list ∧ list.matched = []) := by
  obtain ⟨_, list, _, _, hd, _⟩ := getCases_lawyer_scope Sample.env Sample.db2 Sample.lawyer
    Sample.noQuery rfl (by decide)
  obtain ⟨_, list8, _, _, hd8, hmem8⟩ := getCases_lawyer_scope Sample.env Sample.db2
    ⟨8, "lawyer", "Lubna", "Mir"⟩ Sample.noQuery rfl (by decide)
  refine ⟨⟨list, hd, ?_⟩, ⟨list8, hd8, ?_⟩⟩
  · have : (getCases Sample.env Sample.db2 Sample.lawyer Sample.noQuery).data.map
        (fun l => l.matched.map (fun c => c._id)) = some [10] := by decide
    rw [hd] at this
    simpa using this
  · have : (getCases Sample.env Sample.db2 ⟨8, "lawyer", "Lubna", "Mir"⟩
        Sample.noQuery).data.map (fun l => l.matched) = some [] := by decide
    rw [hd8] at this
    simpa using this

/-! ## The total of the dashboard -/

theorem applyQuery_empty (f : Filter) : applyQuery f ⟨none, none, none, none⟩ = f := rfl

/-- Counterexample to C20: judge 2 is listed the unassigned sample case by `getCases`, but
the total of `getDashboardStats` is 0 for him; and a principal of role clerk, whom
`getCases` answers 403, is answered 200 by `getDashboardStats`. -/
theorem dashboard_total_differs :
    (getCases Sample.env Sample.db1 Sample.judge Sample.noQuery).data.map
      (fun list => list.totalCases) = some 1 ∧
    (getDashboardStats Sample.env Sample.db1 Sample.judge).data.map
      (fun stats => stats.total) = some 0 ∧
    (getCases Sample.env Sample.db1 Sample.clerk Sample.noQuery).status =
      HTTP_STATUS.FORBIDDEN ∧
    (getDashboardStats Sample.env Sample.db1 Sample.clerk).status = HTTP_STATUS.OK := by
  decide

/-- C20, amended. The total of `getDashboardStats` is, for a registrar, a lawyer and a
user, the number of cases `getCases` matches for the principal when no explicit filter is
supplied; for a judge it is the number of active cases assigned to that judge, the cases
without assigned judge not being counted. -/
theorem dashboard_total_scope (env : Env) (db : Db) (user : Principal) :
    ∃ stats, (getDashboardStats env db user).data = some stats ∧
      ((user.role = "registrar" ∨ user.role = "lawyer" ∨ user.role = "user") →
        ∃ list, (getCases env db user ⟨none, none, none, none⟩).data = some list ∧
          stats.total = list.totalCases ∧ list.totalCases = list.matched.length) ∧
      (user.role = "judge" →
        stats.total = db.cases.countP (fun c =>
          c.isActive && decide (c.assignedJudge = some user.id))) := by
  refine ⟨_, rfl, ?_, ?_⟩
  · intro hrole
    have hf : roleFilter user = some (statsFilter user) := by
      unfold roleFilter statsFilter
      rw [role_registrar, role_judge, role_lawyer, role_user]
      rcases hrole with h | h | h
      · rw [h, if_pos rfl, if_neg (by decide), if_neg (by decide), if_neg (by decide)]
      · rw [h, if_neg (by decide), if_neg (by decide), if_pos rfl, if_neg (by decide),
          if_pos rfl]
      · rw [h, if_neg (by decide), if_neg (by decide), if_neg (by decide), if_pos rfl,
          if_neg (by decide), if_neg (by decide), if_pos rfl]
    have hg : getCasesFilter user ⟨none, none, none, none⟩ = some (statsFilter user) := by
      simp only [getCasesFilter, hf, applyQuery_empty]
    refine ⟨⟨db.cases.filter (fun c => (statsFilter user).matches env c),
      (db.cases.filter (fun c => (statsFilter user).matches env c)).length⟩, ?_, ?_, rfl⟩
    · unfold getCases
      rw [hg]
    · show countDocuments env db.cases (statsFilter user) = _
      unfold countDocuments
      rw [List.countP_eq_length_filter]
  · intro hrole
    show countDocuments env db.cases (statsFilter user) = _
    have hf : statsFilter user = { Filter.base with assignedJudge := some user.id } := by
      unfold statsFilter
      rw [role_judge, hrole, if_pos rfl]
    rw [hf]
    unfold countDocuments
    congr 1
    funext c
    simp [Filter.matches, Filter.base, keyHolds, statusHolds]

/-- Witness of C20, amended: on the sample collection, whose case is assigned to judge 2,
the totals of lawyer 5 and of judge 2 are 1 and the total of judge 6 is 0. -/
theorem dashboard_total_scope_witness :
    (∃ stats list, (getDashboardStats Sample.env Sample.db2 Sample.lawyer).data = some stats ∧
      (getCases Sample.env Sample.db2 Sample.lawyer Sample.noQuery).data = some list ∧
      stats.total = list.totalCases ∧ list.totalCases = 1) ∧
    (∃ stats, (getDashboardStats Sample.env Sample.db2 Sample.judge).data = some stats ∧
      stats.total = 1) ∧
    (∃ stats, (getDashboardStats Sample.env Sample.db2 Sample.otherJudge).data = some stats ∧
      stats.total = 0) := by
  obtain ⟨s1, hs1, hl, _⟩ := dashboard_total_scope Sample.env Sample.db2 Sample.lawyer
  obtain ⟨list, hlist, htot, _⟩ := hl (Or.inr (Or.inl rfl))
  obtain ⟨s2, hs2, _, hj2⟩ := dashboard_total_scope Sample.env Sample.db2 Sample.judge
  obtain ⟨s3, hs3, _, hj3⟩ := dashboard_total_scope Sample.env Sample.db2 Sample.otherJudge
  refine ⟨⟨s1, list, hs1, hlist, htot, ?_⟩, ⟨s2, hs2, ?_⟩, ⟨s3, hs3, ?_⟩⟩
  · have : (getCases Sample.env Sample.db2 Sample.lawyer Sample.noQuery).data.map
        (fun l => l.totalCases) = some 1 := by decide
    have hlist' : (getCases Sample.env Sample.db2 Sample.lawyer Sample.noQuery).data =
        some list := hlist
    rw [hlist'] at this
    simpa using this
  · rw [hj2 rfl]; decide
  · rw [hj3 rfl]; decide


/-! ## The status buckets of the dashboard -/

theorem statsFilter_status (user : Principal) : (statsFilter user).status = none := by
  unfold statsFilter
  split
  · rfl
  · split
    · rfl
    · split <;> rfl

/-- Adding a condition on `status` to a filter that has none. -/
theorem matches_with_status (env : Env) (f : Filter) (key : Option String) (c : Case)
    (hf : f.status = none) :
    Filter.matches env { f with status := some key } c =
      (f.matches env c && statusHolds env (some key) c.status) := by
  rw [Bool.eq_iff_iff]
  simp only [Filter.matches, hf, statusHolds, Bool.and_eq_true, Bool.and_true]
  tauto

theorem countDocuments_with_status (env : Env) (cases : List Case) (f : Filter)
    (key : Option String) (hf : f.status = none) :
    countDocuments env cases { f with status := some key } =
      cases.countP (fun c => f.matches env c && statusHolds env (some key) c.status) := by
  unfold countDocuments
  congr 1
  funext c
  exact matches_with_status env f key c hf

/-- C21. The values `registered` and `disposed` of `getDashboardStats` are the numbers of
cases its role filter matches whose status is registered and disposed.  The values
`pending` and `inProgress` are not counts by status: `CASE_STATUS.PENDING` and
`CASE_STATUS.IN_PROGRESS` are not keys of the table, so both count the matched cases whose
status is unset, or all the matched cases when the driver drops an `undefined` key. -/
theorem getDashboardStats_buckets (env : Env) (db : Db) (user : Principal) :
    ∃ stats, (getDashboardStats env db user).data = some stats ∧
      stats.registered = db.cases.countP (fun c =>
        (statsFilter user).matches env c && decide (c.status = some "registered")) ∧
      stats.disposed = db.cases.countP (fun c =>
        (statsFilter user).matches env c && decide (c.status = some "disposed")) ∧
      stats.pending = db.cases.countP (fun c =>
        (statsFilter user).matches env c && (env.ignoreUndefined || c.status.isNone)) ∧
      stats.inProgress = stats.pending := by
  refine ⟨_, rfl, ?_, ?_, ?_, ?_⟩
  · show countDocuments env db.cases
      { statsFilter user with status := some (prop CASE_STATUS "REGISTERED") } = _
    rw [countDocuments_with_status env db.cases _ _ (statsFilter_status user),
      status_registered]
    rfl
  · show countDocuments env db.cases
      { statsFilter user with status := some (prop CASE_STATUS "DISPOSED") } = _
    rw [countDocuments_with_status env db.cases _ _ (statsFilter_status user),
      status_disposed]
    rfl
  · show countDocuments env db.cases
      { statsFilter user with status := some (prop CASE_STATUS "PENDING") } = _
    rw [countDocuments_with_status env db.cases _ _ (statsFilter_status user),
      status_pending]
    rfl
  · rfl

/-- Witness of C21: after the judge assignment no sample case has the status pending or
in_progress, yet the registrar is shown 1 for both, whether the driver sends an
`undefined` key as `null` or drops it. -/
theorem getDashboardStats_buckets_witness :
    Sample.db2.cases.countP (fun c => decide (c.status = some "pending")) = 0 ∧
    Sample.db2.cases.countP (fun c => decide (c.status = some "in_progress")) = 0 ∧
    (getDashboardStats Sample.env Sample.db2 Sample.registrar).data.map
      (fun stats => (stats.pending, stats.inProgress)) = some (1, 1) ∧
    (getDashboardStats Sample.envDropping Sample.db2 Sample.registrar).data.map
      (fun stats => (stats.pending, stats.inProgress)) = some (1, 1) := by
  obtain ⟨s1, h1, _, _, hp1, hi1⟩ :=
    getDashboardStats_buckets Sample.env Sample.db2 Sample.registrar
  obtain ⟨s2, h2, _, _, hp2, hi2⟩ :=
    getDashboardStats_buckets Sample.envDropping Sample.db2 Sample.registrar
  refine ⟨by decide, by decide, ?_, ?_⟩
  · rw [h1, Option.map_some', hi1, hp1]; decide
  · rw [h2, Option.map_some', hi2, hp2]; decide


/-! ## Decimal digits -/

theorem digitChar_isDigit (n : Nat) (h : n < 10) : (Nat.digitChar n).isDigit = true := by
  interval_cases n <;> decide

theorem toDigitsCore_all_digit (f n : Nat) (ds : List Char)
    (h : ds.all Char.isDigit = true) :
    (Nat.toDigitsCore 10 f n ds).all Char.isDigit = true := by
  induction f generalizing n ds with
  | zero => simpa [Nat.toDigitsCore] using h
  | succ f ih =>
    have hd : (Nat.digitChar (n % 10)).isDigit = true :=
      digitChar_isDigit _ (Nat.mod_lt _ (by decide))
    have hcons : (Nat.digitChar (n % 10) :: ds).all Char.isDigit = true := by
      simp only [List.all_cons, hd, h, Bool.and_self]
    unfold Nat.toDigitsCore
    simp only
    split
    · exact hcons
    · exact ih _ _ hcons

theorem toDigits_all_digit (n : Nat) : (Nat.toDigits 10 n).all Char.isDigit = true :=
  toDigitsCore_all_digit _ _ _ rfl

/-- A number of `e + 1` decimal digits is printed with `e + 1` characters. -/
theorem toDigitsCore_length_eq (e : Nat) : ∀ (f n : Nat), 10 ^ e ≤ n → n < 10 ^ (e + 1) →
    e < f → (Nat.toDigitsCore 10 f n []).length = e + 1 := by
  induction e with
  | zero =>
    intro f n _ h2 hf
    obtain ⟨f, rfl⟩ : ∃ g, f = g + 1 := ⟨f - 1, by omega⟩
    have hdiv : n / 10 = 0 := Nat.div_eq_of_lt (by simpa using h2)
    simp [Nat.toDigitsCore, hdiv]
  | succ e ih =>
    intro f n h1 h2 hf
    obtain ⟨f, rfl⟩ : ∃ g, f = g + 1 := ⟨f - 1, by omega⟩
    have hlow : 10 ^ e ≤ n / 10 := by
      rw [Nat.le_div_iff_mul_le (by decide)]
      calc 10 ^ e * 10 = 10 ^ (e + 1) := by ring
        _ ≤ n := h1
    have hhigh : n / 10 < 10 ^ (e + 1) := by
      rw [Nat.div_lt_iff_lt_mul (by decide)]
      calc n < 10 ^ (e + 1 + 1) := h2
        _ = 10 ^ (e + 1) * 10 := by ring
    have hne : n / 10 ≠ 0 := by
      have : 0 < 10 ^ e := pow_pos (by decide) e
      omega
    unfold Nat.toDigitsCore
    simp only [hne, if_false]
    rw [Nat.toDigitsCore_lens_eq, ih f (n / 10) hlow hhigh (by omega)]

theorem toString_toList (n : Nat) : (toString n).toList = Nat.toDigits 10 n := rfl

theorem toString_length (n : Nat) : (toString n).length = (Nat.toDigits 10 n).length := rfl

/-- A year of four digits is printed with four digits. -/
theorem year_isDigits (year : Nat) (h1 : 1000 ≤ year) (h2 : year ≤ 9999) :
    isDigits 4 (toString year).toList = true := by
  have hlen : (Nat.toDigits 10 year).length = 4 :=
    toDigitsCore_length_eq 3 (year + 1) year (by norm_num; exact h1) (by norm_num; omega)
      (by omega)
  simp only [isDigits, toString_toList, hlen, decide_True, Bool.true_and]
  exact toDigits_all_digit year

theorem padStart_eq_fourDigitText (n : Nat) :
    padStart (toString n) 4 '0' = fourDigitText n := rfl

/-- A number below ten thousand, padded, is printed with four digits. -/
theorem fourDigitText_isDigits (n : Nat) (h : n ≤ 9999) :
    isDigits 4 (fourDigitText n).toList = true := by
  have hlen : (Nat.toDigits 10 n).length ≤ 4 := by
    have := Nat.repr_length n 4 (by decide) (by norm_num; omega)
    exact this
  have hall := toDigits_all_digit n
  simp only [isDigits, fourDigitText, String.toList, List.length_append, List.length_replicate,
    List.all_append, Bool.and_eq_true, decide_eq_true_eq]
  refine ⟨by omega, ?_, hall⟩
  simp [List.all_eq_true]

/-! ## The case number the pre-save hook generates -/

theorem courtPrefixOf_eq_spec (courtType : Option String) :
    courtPrefixOf courtType = specCourtCode courtType := by
  cases courtType with
  | none => rfl
  | some t =>
    unfold courtPrefixOf specCourtCode
    simp only [Option.some.injEq, courtCodes, List.lookup]
    by_cases h1 : t = "district_court"
    · subst h1; rfl
    by_cases h2 : t = "high_court"
    · subst h2; rfl
    by_cases h3 : t = "supreme_court"
    · subst h3; rfl
    by_cases h4 : t = "family_court"
    · subst h4; rfl
    by_cases h5 : t = "commercial_court"
    · subst h5; rfl
    have b1 : (t == "district_court") = false := by simpa using h1
    have b2 : (t == "high_court") = false := by simpa using h2
    have b3 : (t == "supreme_court") = false := by simpa using h3
    have b4 : (t == "family_court") = false := by simpa using h4
    have b5 : (t == "commercial_court") = false := by simpa using h5
    simp [h1, h2, h3, h4, h5, b1, b2, b3, b4, b5]

theorem courtPrefixOf_isCapitals (courtType : Option String) :
    isCapitals 2 (courtPrefixOf courtType).toList = true := by
  unfold courtPrefixOf
  split
  · decide
  · split
    · decide
    · split
      · decide
      · split
        · decide
        · split <;> decide

theorem dateInYear (year : Nat) (d : Date) :
    (Date.le ⟨year, 0⟩ d && Date.lt d ⟨year + 1, 0⟩) = decide (d.year = year) := by
  rw [Bool.eq_iff_iff]
  simp only [Date.le, Date.lt, Bool.and_eq_true, Bool.or_eq_true, Bool.not_eq_true',
    decide_eq_true_eq, Bool.or_eq_false_iff, Bool.and_eq_false_iff, decide_eq_false_iff_not]
  omega

theorem countCreatedIn_eq (cases : List Case) (year : Nat) :
    countCreatedIn cases year = createdInYear cases year := by
  unfold countCreatedIn createdInYear
  congr 1
  funext c
  cases hc : c.createdAt with
  | none => simp
  | some d => simp [dateInYear]

theorem preSave_generated (env : Env) (cases : List Case) (c : Case)
    (h : truthy c.caseNumber = false) :
    (preSave env cases c).caseNumber =
      some (specCaseNumber c.courtType env.now.year (createdInYear cases env.now.year)) := by
  unfold preSave
  simp only [h, Bool.false_eq_true, if_false, specCaseNumber]
  rw [padStart_eq_fourDigitText, courtPrefixOf_eq_spec, countCreatedIn_eq]

theorem saved_caseNumber {env : Env} {db db1 : Db} {isNew : Bool} {c s : Case}
    (h : Case.save env db isNew c = some (s, db1)) :
    s.caseNumber = (preSave env db.cases c).caseNumber := by
  rw [(save_some h).2.1]
  rfl


theorem no_slash_of_isUpper (text : List Char) (h : text.all Char.isUpper = true) :
    ∀ x ∈ text, ¬ ((x == '/') = true) := by
  intro x hx hs
  have hu := List.all_eq_true.1 h x hx
  rw [beq_iff_eq] at hs
  subst hs
  exact absurd hu (by decide)

theorem no_slash_of_isDigit (text : List Char) (h : text.all Char.isDigit = true) :
    ∀ x ∈ text, ¬ ((x == '/') = true) := by
  intro x hx hs
  have hu := List.all_eq_true.1 h x hx
  rw [beq_iff_eq] at hs
  subst hs
  exact absurd hu (by decide)

/-- A text made of two capitals, a slash, four digits, a slash and four digits matches the
pattern of a case number. -/
theorem pattern_of_parts (code year sequence : String)
    (hc : isCapitals 2 code.toList = true) (hy : isDigits 4 year.toList = true)
    (hs : isDigits 4 sequence.toList = true) :
    matchesCaseNumberPattern (code ++ "/" ++ year ++ "/" ++ sequence) = true := by
  have hlist : (code ++ "/" ++ year ++ "/" ++ sequence).toList =
      code.toList ++ '/' :: (year.toList ++ '/' :: sequence.toList) := by
    simp [String.toList, String.data_append]
  have hc2 := hc
  have hy2 := hy
  have hs2 := hs
  simp only [isCapitals, isDigits, Bool.and_eq_true, decide_eq_true_eq] at hc2 hy2 hs2
  have hsplit : (code.toList ++ '/' :: (year.toList ++ '/' :: sequence.toList)).splitOn '/' =
      [code.toList, year.toList, sequence.toList] := by
    unfold List.splitOn
    rw [List.splitOnP_first _ _ (no_slash_of_isUpper _ hc2.2) '/' (by decide),
      List.splitOnP_first _ _ (no_slash_of_isDigit _ hy2.2) '/' (by decide),
      List.splitOnP_eq_single _ _ (no_slash_of_isDigit _ hs2.2)]
  unfold matchesCaseNumberPattern
  rw [hlist, hsplit]
  simp only [hc, hy, hs, Bool.true_or, Bool.and_self]

theorem createdInYear_fullYear : createdInYear Sample.fullYear 2025 = 9999 := by
  unfold createdInYear Sample.fullYear
  rw [List.countP_map, List.countP_eq_length.2 (fun i _ => by simp [Sample.stored]),
    List.length_range]

/-! ## The format of a case number -/

/-- C22. A case saved without a case number gets the number the specification describes:
the court code of its court type (DC, HC, SC, FC, CC, and CT for every other court type), a
slash, the year of the clock, a slash, and one more than the count of cases created in that
year, left-padded with zeros to four digits. -/
theorem caseNumber_format (env : Env) (db db1 : Db) (isNew : Bool) (c saved : Case)
    (hnone : truthy c.caseNumber = false)
    (hsave : Case.save env db isNew c = some (saved, db1)) :
    saved.caseNumber =
      some (specCaseNumber c.courtType env.now.year (createdInYear db.cases env.now.year)) := by
  rw [saved_caseNumber hsave]
  exact preSave_generated env db.cases c hnone

/-- Witness of C22: the sample registration, a high court case, the first of 2025, is saved
as HC/2025/0001. -/
theorem caseNumber_format_witness :
    ∃ saved, Case.save Sample.env Sample.db0 true Sample.draft = some (saved, Sample.db1) ∧
      saved.caseNumber = some "HC/2025/0001" := by
  have hs : (Case.save Sample.env Sample.db0 true Sample.draft).map (fun pair => pair.2) =
      some Sample.db1 := by decide
  cases hsave : Case.save Sample.env Sample.db0 true Sample.draft with
  | none => rw [hsave] at hs; exact absurd hs (by simp)
  | some pair =>
    obtain ⟨saved, db1⟩ := pair
    rw [hsave] at hs
    simp only [Option.map_some', Option.some.injEq] at hs
    subst hs
    refine ⟨saved, rfl, ?_⟩
    rw [caseNumber_format Sample.env Sample.db0 _ true Sample.draft saved rfl hsave]
    decide

/-- Counterexample to C23: with 9999 cases created in 2025, the hook gives the sample
registration the number HC/2025/10000, whose sequence part has five digits, so the number
does not match the pattern. -/
theorem caseNumber_five_digits :
    Sample.fullYear.length = 9999 ∧
    (∀ c ∈ Sample.fullYear, c.createdAt.map Date.year = some 2025) ∧
    (preSave Sample.env Sample.fullYear Sample.draft).caseNumber = some "HC/2025/10000" ∧
    matchesCaseNumberPattern "HC/2025/10000" = false := by
  refine ⟨by simp [Sample.fullYear], ?_, ?_, by decide⟩
  · intro c hc
    simp only [Sample.fullYear, List.mem_map] at hc
    obtain ⟨i, _, rfl⟩ := hc
    rfl
  · rw [preSave_generated Sample.env Sample.fullYear Sample.draft rfl]
    have hy : Sample.env.now.year = 2025 := rfl
    rw [hy, createdInYear_fullYear]
    decide

/-- C23, amended. In a year of four digits and while fewer than 9999 cases have been created
in the year, the case number the hook generates matches the pattern: its sequence part has
exactly four decimal digits. -/
theorem caseNumber_pattern (env : Env) (db db1 : Db) (isNew : Bool) (c saved : Case)
    (hnone : truthy c.caseNumber = false)
    (hsave : Case.save env db isNew c = some (saved, db1))
    (hyear : 1000 ≤ env.now.year ∧ env.now.year ≤ 9999)
    (hcount : createdInYear db.cases env.now.year < 9999) :
    isDigits 4 (fourDigitText (createdInYear db.cases env.now.year + 1)).toList = true ∧
    ∃ number, saved.caseNumber = some number ∧ matchesCaseNumberPattern number = true := by
  have hseq := fourDigitText_isDigits (createdInYear db.cases env.now.year + 1) (by omega)
  refine ⟨hseq, _, (saved_caseNumber hsave).trans (preSave_generated env db.cases c hnone), ?_⟩
  unfold specCaseNumber
  rw [← courtPrefixOf_eq_spec]
  exact pattern_of_parts _ _ _ (courtPrefixOf_isCapitals _)
    (year_isDigits _ hyear.1 hyear.2) hseq

/-- Witness of C23, amended: the number of the sample registration matches the pattern. -/
theorem caseNumber_pattern_witness :
    ∃ saved number, Case.save Sample.env Sample.db0 true Sample.draft =
        some (saved, Sample.db1) ∧
      saved.caseNumber = some number ∧ matchesCaseNumberPattern number = true := by
  have hs : (Case.save Sample.env Sample.db0 true Sample.draft).map (fun pair => pair.2) =
      some Sample.db1 := by decide
  cases hsave : Case.save Sample.env Sample.db0 true Sample.draft with
  | none => rw [hsave] at hs; exact absurd hs (by simp)
  | some pair =>
    obtain ⟨saved, db1⟩ := pair
    rw [hsave] at hs
    simp only [Option.map_some', Option.some.injEq] at hs
    subst hs
    obtain ⟨_, number, h1, h2⟩ := caseNumber_pattern Sample.env Sample.db0 _ true
      Sample.draft saved rfl hsave (by decide) (by decide)
    exact ⟨saved, number, rfl, h1, h2⟩


/-! ## What `save()` and the requests leave as it was -/

/-- The fields `save()` hands over as it got them; the case number too when there is one. -/
theorem saved_frame {env : Env} {db db1 : Db} {isNew : Bool} {c s : Case}
    (h : Case.save env db isNew c = some (s, db1)) :
    s.title = c.title ∧ s.description = c.description ∧ s.caseType = c.caseType ∧
    s.courtType = c.courtType ∧ s.registeredBy = c.registeredBy ∧ s.hearings = c.hearings ∧
    s.nextHearing = c.nextHearing ∧ s.orders = c.orders ∧
    s.createdAt = (if isNew then some env.now else c.createdAt) ∧
    (truthy c.caseNumber = true → s.caseNumber = c.caseNumber) := by
  rw [(save_some h).2.1]
  unfold stamp preSave
  by_cases hn : truthy c.caseNumber = true
  · simp only [hn, if_true, implies_true, and_self]
  · simp only [hn, Bool.false_eq_true, if_false, false_implies, and_self]

/-- Writing a document over the stored one keeps every field list of the collection in
which the two agree. -/
theorem map_updateOne {α : Type} (f : Case → α) {cases : List Case} {id : ObjectId}
    {c0 s : Case} (hfind : Case.findById cases id = some c0) (hid : s._id = id)
    (hf : f s = f c0) : (updateOne cases s).map f = cases.map f := by
  induction cases with
  | nil => simp [Case.findById] at hfind
  | cons d ds ih =>
    unfold updateOne
    by_cases hd : d._id = s._id
    · have hdid : d._id = id := hd.trans hid
      simp only [Case.findById, List.find?_cons, hdid, decide_True, Option.some.injEq]
        at hfind
      subst hfind
      simp only [hd, if_true, List.map_cons, hf]
    · have hne : d._id ≠ id := by rw [← hid]; exact hd
      simp only [hd, if_false, List.map_cons]
      simp only [Case.findById, List.find?_cons, hne, decide_False] at hfind
      rw [ih hfind]

/-- After a request every case was there before, or is the saved copy of the document
`registerCase` created, or the saved copy of a stored case as one of the four mutations
changed it. -/
theorem step_origin (db : Db) (env : Env) (request : Request) (x : Case)
    (hx : x ∈ (step db env request).cases) :
    x ∈ db.cases ∨
    (∃ user body parties db1,
      Case.save env db true (createdCase env user body parties) = some (x, db1)) ∨
    (∃ c0 ∈ db.cases, ∃ m db1, Case.save env db false m = some (x, db1) ∧
      ((∃ user judge body, m = assignedCase env user judge body c0) ∨
       (∃ user body, m = scheduledCase env user body c0) ∨
       (∃ user body orderType, m = orderedCase env user body orderType c0) ∨
       (∃ user body, m = statusCase env user body c0))) := by
  cases request with
  | register user body =>
    rcases registerCase_outcome env db user body with
      ⟨_, _, h⟩ | ⟨ps, s, db1, _, _, _, _, _, _, _, _, _, _, _, hs, heq⟩
    · left
      have : (step db env (.register user body)) = db := h
      rwa [this] at hx
    · have hdb : (step db env (.register user body)) = db1 := by
        show (registerCase env db user body).2 = db1
        rw [heq]
      rw [hdb, (save_some hs).2.2.2] at hx
      simp only [if_true, List.mem_append, List.mem_singleton] at hx
      rcases hx with hx | hx
      · exact Or.inl hx
      · subst hx; exact Or.inr (Or.inl ⟨_, _, _, _, hs⟩)
  | assign user id body =>
    rcases assignJudge_outcome env db user id body with
      ⟨_, _, h⟩ | ⟨judge, c, s, db1, _, _, _, hc, hs, heq⟩
    · left
      have : (step db env (.assign user id body)) = db := h
      rwa [this] at hx
    · have hdb : (step db env (.assign user id body)) = db1 := by
        show (assignJudge env db user id body).2 = db1
        rw [heq]
      rw [hdb, (save_some hs).2.2.2] at hx
      simp only [Bool.false_eq_true, if_false] at hx
      rcases mem_updateOne hx with hx | hx
      · exact Or.inl hx
      · subst hx
        exact Or.inr (Or.inr ⟨c, findById_mem hc, _, _, hs, Or.inl ⟨_, _, _, rfl⟩⟩)
  | schedule user id body =>
    rcases scheduleHearing_outcome env db user id body with
      ⟨_, _, h⟩ | ⟨c, s, db1, _, hc, hs, heq⟩
    · left
      have : (step db env (.schedule user id body)) = db := h
      rwa [this] at hx
    · have hdb : (step db env (.schedule user id body)) = db1 := by
        show (scheduleHearing env db user id body).2 = db1
        rw [heq]
      rw [hdb, (save_some hs).2.2.2] at hx
      simp only [Bool.false_eq_true, if_false] at hx
      rcases mem_updateOne hx with hx | hx
      · exact Or.inl hx
      · subst hx
        exact Or.inr (Or.inr ⟨c, findById_mem hc, _, _, hs, Or.inr (Or.inl ⟨_, _, rfl⟩)⟩)
  | order user id body =>
    rcases addCaseOrder_outcome env db user id body with
      ⟨_, _, h⟩ | ⟨c, t, s, db1, _, hc, _, _, hs, heq⟩
    · left
      have : (step db env (.order user id body)) = db := h
      rwa [this] at hx
    · have hdb : (step db env (.order user id body)) = db1 := by
        show (addCaseOrder env db user id body).2 = db1
        rw [heq]
      rw [hdb, (save_some hs).2.2.2] at hx
      simp only [Bool.false_eq_true, if_false] at hx
      rcases mem_updateOne hx with hx | hx
      · exact Or.inl hx
      · subst hx
        exact Or.inr (Or.inr ⟨c, findById_mem hc, _, _, hs,
          Or.inr (Or.inr (Or.inl ⟨_, _, _, rfl⟩))⟩)
  | status user id body =>
    rcases updateCaseStatus_outcome env db user id body with
      ⟨_, _, h⟩ | ⟨c, s, db1, _, hc, hs, heq⟩
    · left
      have : (step db env (.status user id body)) = db := h
      rwa [this] at hx
    · have hdb : (step db env (.status user id body)) = db1 := by
        show (updateCaseStatus env db user id body).2 = db1
        rw [heq]
      rw [hdb, (save_some hs).2.2.2] at hx
      simp only [Bool.false_eq_true, if_false] at hx
      rcases mem_updateOne hx with hx | hx
      · exact Or.inl hx
      · subst hx
        exact Or.inr (Or.inr ⟨c, findById_mem hc, _, _, hs,
          Or.inr (Or.inr (Or.inr ⟨_, _, rfl⟩))⟩)


/-! ## Hearings and the cache of the next hearing -/

/-- The stored case a successful `scheduleHearing` leaves: the saved copy of the loaded
case as the handler changed it. -/
theorem scheduleHearing_stored (env : Env) (db : Db) (user : Principal) (id : ObjectId)
    (body : HearingBody) (hok : (scheduleHearing env db user id body).1.success = true) :
    ∃ c0 saved,
      Case.findById db.cases id = some c0 ∧
      Case.findById (scheduleHearing env db user id body).2.cases id = some saved ∧
      saved.hearings = c0.hearings ++ [newHearing env user body c0] ∧
      saved.nextHearing = some ⟨body.hearingDate.bind env.parseDate, body.hearingTime,
        body.courtRoom, body.hearingType⟩ ∧
      (scheduleHearing env db user id body).1.data = some (newHearing env user body c0) := by
  rcases scheduleHearing_outcome env db user id body with
    ⟨hf, _, _⟩ | ⟨c0, saved, db1, _, hc, hs, heq⟩
  · rw [hf] at hok; exact absurd hok (by decide)
  · have hframe := saved_frame hs
    have hh : saved.hearings = c0.hearings ++ [newHearing env user body c0] :=
      hframe.2.2.2.2.2.1.trans rfl
    refine ⟨c0, saved, hc, ?_, hh, hframe.2.2.2.2.2.2.1.trans rfl, ?_⟩
    · rw [heq]
      exact saved_stored hc (show (scheduledCase env user body c0)._id = c0._id from rfl) hs
    · rw [heq]
      show saved.hearings.getLast? = _
      rw [hh, List.getLast?_concat]

theorem step_mirrorsLastHearing (db : Db) (env : Env) (request : Request)
    (h : ∀ c ∈ db.cases, mirrorsLastHearing c) :
    ∀ c ∈ (step db env request).cases, mirrorsLastHearing c := by
  intro x hx
  rcases step_origin db env request x hx with hx | ⟨user, body, ps, db1, hs⟩ |
    ⟨c0, hc0, m, db1, hs, hm⟩
  · exact h x hx
  · intro hearing hlast
    rw [(saved_frame hs).2.2.2.2.2.1] at hlast
    exact absurd hlast (by simp [createdCase, newCase, Case.addHistoryEntry])
  · have hframe := saved_frame hs
    have h0 := h c0 hc0
    rcases hm with ⟨user, judge, body, rfl⟩ | ⟨user, body, rfl⟩ | ⟨user, body, t, rfl⟩ |
      ⟨user, body, rfl⟩
    · intro hearing hlast
      rw [hframe.2.2.2.2.2.1] at hlast
      rw [hframe.2.2.2.2.2.2.1]
      exact h0 hearing hlast
    · intro hearing hlast
      rw [hframe.2.2.2.2.2.1] at hlast
      rw [hframe.2.2.2.2.2.2.1]
      have hl : (scheduledCase env user body c0).hearings =
          c0.hearings ++ [newHearing env user body c0] := rfl
      rw [hl, List.getLast?_concat] at hlast
      simp only [Option.some.injEq] at hlast
      subst hlast
      rfl
    · intro hearing hlast
      rw [hframe.2.2.2.2.2.1] at hlast
      rw [hframe.2.2.2.2.2.2.1]
      exact h0 hearing hlast
    · intro hearing hlast
      rw [hframe.2.2.2.2.2.1] at hlast
      rw [hframe.2.2.2.2.2.2.1]
      have e1 : (statusCase env user body c0).hearings = c0.hearings := by
        unfold statusCase; simp only [Case.addHistoryEntry]; split <;> rfl
      have e2 : (statusCase env user body c0).nextHearing = c0.nextHearing := by
        unfold statusCase; simp only [Case.addHistoryEntry]; split <;> rfl
      rw [e1] at hlast
      rw [e2]
      exact h0 hearing hlast

/-- C26. A successful `scheduleHearing` leaves `nextHearing` equal to the date, time, court
room and type of the hearing just scheduled, whatever the hearings scheduled before; and in
every collection reached from one whose cases mirror their last hearing (the empty one
among them), every case with a hearing has the date, time, court room and type of the last
element of `hearings` in `nextHearing`. -/
theorem nextHearing_mirrors_last_hearing :
    (∀ (env : Env) (db : Db) (user : Principal) (id : ObjectId) (body : HearingBody),
      (scheduleHearing env db user id body).1.success = true →
      ∃ saved hearing,
        Case.findById (scheduleHearing env db user id body).2.cases id = some saved ∧
        (scheduleHearing env db user id body).1.data = some hearing ∧
        saved.hearings.getLast? = some hearing ∧
        saved.nextHearing = some ⟨hearing.hearingDate, hearing.hearingTime,
          hearing.courtRoom, hearing.hearingType⟩ ∧
        hearing.hearingDate = body.hearingDate.bind env.parseDate ∧
        hearing.hearingTime = body.hearingTime ∧ hearing.courtRoom = body.courtRoom ∧
        hearing.hearingType = body.hearingType) ∧
    (∀ (db : Db) (trace : List (Env × Request)),
      (∀ c ∈ db.cases, mirrorsLastHearing c) →
      ∀ c ∈ (run db trace).cases, mirrorsLastHearing c) := by
  constructor
  · intro env db user id body hok
    obtain ⟨c0, saved, _, hfind, hh, hn, hdata⟩ := scheduleHearing_stored env db user id body hok
    refine ⟨saved, newHearing env user body c0, hfind, hdata, ?_, hn.trans rfl,
      rfl, rfl, rfl, rfl⟩
    rw [hh, List.getLast?_concat]
  · intro db trace h
    exact (run_preserves (fun _ c => mirrorsLastHearing c)
      (fun db env request h => step_mirrorsLastHearing db env request h) trace db h).2


/-- Witness of C26: the hearing scheduled for the sample case is its last hearing and fills
`nextHearing`; and the case mirrors it at the end of the sample trace. -/
theorem nextHearing_mirrors_last_hearing_witness :
    (∃ saved hearing,
      Case.findById (scheduleHearing Sample.env Sample.db2 Sample.judge 10
        Sample.hearingBody).2.cases 10 = some saved ∧
      saved.hearings.getLast? = some hearing ∧
      saved.nextHearing =
        some ⟨some ⟨2025, 5000⟩, some "10:00", some "Room 4", some "first_hearing"⟩) ∧
    (∀ c ∈ (run Sample.db0 Sample.trace).cases, mirrorsLastHearing c) := by
  obtain ⟨saved, hearing, hf, _, hl, hn, h1, h2, h3, h4⟩ :=
    nextHearing_mirrors_last_hearing.1 Sample.env Sample.db2 Sample.judge 10
      Sample.hearingBody (by decide)
  refine ⟨⟨saved, hearing, hf, hl, ?_⟩,
    nextHearing_mirrors_last_hearing.2 Sample.db0 Sample.trace
      (fun c hc => absurd hc (List.not_mem_nil c))⟩
  rw [hn, h1, h2, h3, h4]
  rfl

/-- C27. A successful `scheduleHearing` leaves the hearings of the case as they were, with
exactly one hearing appended at the end; the judge of that hearing is the assigned judge
of the case when there is one, and the acting principal otherwise. -/
theorem scheduleHearing_appends_one_hearing (env : Env) (db : Db) (user : Principal)
    (id : ObjectId) (body : HearingBody)
    (hok : (scheduleHearing env db user id body).1.success = true) :
    ∃ c0 saved hearing,
      Case.findById db.cases id = some c0 ∧
      Case.findById (scheduleHearing env db user id body).2.cases id = some saved ∧
      saved.hearings = c0.hearings ++ [hearing] ∧
      (scheduleHearing env db user id body).1.data = some hearing ∧
      (∀ judgeId, c0.assignedJudge = some judgeId → hearing.judge = judgeId) ∧
      (c0.assignedJudge = none → hearing.judge = user.id) := by
  obtain ⟨c0, saved, hc, hfind, hh, _, hdata⟩ := scheduleHearing_stored env db user id body hok
  refine ⟨c0, saved, newHearing env user body c0, hc, hfind, hh, hdata, ?_, ?_⟩
  · intro judgeId hj
    show c0.assignedJudge.getD user.id = judgeId
    rw [hj]; rfl
  · intro hj
    show c0.assignedJudge.getD user.id = user.id
    rw [hj]; rfl

/-- Witness of C27: a hearing the registrar schedules for the sample case goes to judge 2,
the assigned judge, when the case has one, and to the registrar, user 1, before any judge
is assigned. -/
theorem scheduleHearing_appends_one_hearing_witness :
    (∃ hearing, (scheduleHearing Sample.env Sample.db2 Sample.registrar 10
        Sample.hearingBody).1.data = some hearing ∧ hearing.judge = 2) ∧
    (∃ hearing, (scheduleHearing Sample.env Sample.db1 Sample.registrar 10
        Sample.hearingBody).1.data = some hearing ∧ hearing.judge = 1) := by
  constructor
  · obtain ⟨c0, saved, hearing, hc, _, _, hdata, hj, _⟩ :=
      scheduleHearing_appends_one_hearing Sample.env Sample.db2 Sample.registrar 10
        Sample.hearingBody (by decide)
    have hassigned : (Case.findById Sample.db2.cases 10).map (fun c => c.assignedJudge) =
        some (some 2) := by decide
    rw [hc] at hassigned
    simp only [Option.map_some', Option.some.injEq] at hassigned
    exact ⟨hearing, hdata, hj 2 hassigned⟩
  · obtain ⟨c0, saved, hearing, hc, _, _, hdata, _, hn⟩ :=
      scheduleHearing_appends_one_hearing Sample.env Sample.db1 Sample.registrar 10
        Sample.hearingBody (by decide)
    have hassigned : (Case.findById Sample.db1.cases 10).map (fun c => c.assignedJudge) =
        some none := by decide
    rw [hc] at hassigned
    simp only [Option.map_some', Option.some.injEq] at hassigned
    exact ⟨hearing, hdata, hn hassigned⟩

/-! ## Orders -/

/-- C28. A successful `addCaseOrder` leaves the orders of the case as they were, with
exactly one order appended at the end: the order of the supplied type and text, passed by
the acting judge. -/
theorem addCaseOrder_appends_one_order (env : Env) (db : Db) (user : Principal)
    (id : ObjectId) (body : OrderBody)
    (hok : (addCaseOrder env db user id body).1.success = true) :
    ∃ c0 saved order,
      Case.findById db.cases id = some c0 ∧
      Case.findById (addCaseOrder env db user id body).2.cases id = some saved ∧
      saved.orders = c0.orders ++ [order] ∧
      (addCaseOrder env db user id body).1.data = some order ∧
      order.orderType = body.orderType ∧ order.orderText = body.orderText ∧
      order.passedBy = user.id ∧ user.role = "judge" := by
  rcases addCaseOrder_outcome env db user id body with
    ⟨hf, _, _⟩ | ⟨c0, t, saved, db1, hrole, hc, _, _, hs, heq⟩
  · rw [hf] at hok; exact absurd hok (by decide)
  · have ho : saved.orders = c0.orders ++ [newOrder env user body] :=
      (saved_frame hs).2.2.2.2.2.2.2.1.trans rfl
    refine ⟨c0, saved, newOrder env user body, hc, ?_, ho, ?_, rfl, rfl, rfl, hrole⟩
    · rw [heq]
      exact saved_stored hc (show (orderedCase env user body t c0)._id = c0._id from rfl) hs
    · rw [heq]
      show saved.orders.getLast? = _
      rw [ho, List.getLast?_concat]

/-- Witness of C28: the interim order judge 2 passes in the sample case is its only order. -/
theorem addCaseOrder_appends_one_order_witness :
    ∃ saved order,
      Case.findById (addCaseOrder Sample.env Sample.db2 Sample.judge 10
        Sample.orderBody).2.cases 10 = some saved ∧
      saved.orders = [order] ∧ order.orderType = some "interim" ∧
      order.orderText = some "Stay granted" ∧ order.passedBy = 2 := by
  obtain ⟨c0, saved, order, hc, hf, ho, _, h1, h2, h3, _⟩ :=
    addCaseOrder_appends_one_order Sample.env Sample.db2 Sample.judge 10 Sample.orderBody
      (by decide)
  have hnone : (Case.findById Sample.db2.cases 10).map (fun c => c.orders) = some [] := by
    decide
  rw [hc] at hnone
  simp only [Option.map_some', Option.some.injEq] at hnone
  rw [hnone] at ho
  exact ⟨saved, order, hf, ho, h1, h2, h3⟩

/-! ## Disposal -/

theorem step_disposalInvariant (db : Db) (env : Env) (request : Request)
    (h : ∀ c ∈ db.cases, disposalInvariant c) :
    ∀ c ∈ (step db env request).cases, disposalInvariant c := by
  intro x hx
  rcases step_origin db env request x hx with hx | ⟨user, body, ps, db1, hs⟩ |
    ⟨c0, hc0, m, db1, hs, hm⟩
  · exact h x hx
  · unfold disposalInvariant
    rw [saved_status hs, saved_isDisposed hs, saved_disposalDate hs]
    constructor
    · intro hst
      exact absurd hst (by simp [createdCase, newCase, Case.addHistoryEntry, status_registered])
    · intro hd
      exact absurd hd (by simp [createdCase, newCase, Case.addHistoryEntry])
  · have h0 := h c0 hc0
    unfold disposalInvariant at h0 ⊢
    rw [saved_status hs, saved_isDisposed hs, saved_disposalDate hs]
    rcases hm with ⟨user, judge, body, rfl⟩ | ⟨user, body, rfl⟩ | ⟨user, body, t, rfl⟩ |
      ⟨user, body, rfl⟩
    · constructor
      · intro hst
        have : (assignedCase env user judge body c0).status = none := status_admitted
        rw [this] at hst
        exact absurd hst (by simp)
      · exact h0.2
    · constructor
      · intro hst
        have : (scheduledCase env user body c0).status = none := status_pending
        rw [this] at hst
        exact absurd hst (by simp)
      · exact h0.2
    · exact h0
    · by_cases hb : body.status = some "disposed"
      · obtain ⟨h1, h2⟩ := statusCase_disposed env user body c0 hb
        rw [h1, h2]
        exact ⟨fun _ => rfl, fun _ => by simp⟩
      · obtain ⟨h1, h2⟩ := statusCase_not_disposed env user body c0 hb
        rw [statusCase_status, h1, h2]
        exact ⟨fun hst => absurd hst hb, h0.2⟩

/-- C30. The disposal invariant is kept by every request to the five lifecycle handlers:
in every collection reached from one whose cases satisfy it (the empty one, for a start),
a case of status disposed has the flag `isDisposed`, and a case with the flag has a
disposal date. -/
theorem disposal_invariant (db : Db) (trace : List (Env × Request))
    (h0 : ∀ c ∈ db.cases, disposalInvariant c) :
    ∀ c ∈ (run db trace).cases, disposalInvariant c :=
  (run_preserves (fun _ c => disposalInvariant c)
    (fun db env request h => step_disposalInvariant db env request h) trace db h0).2

/-- Witness of C30: the sample case, disposed at the end of the sample trace. -/
theorem disposal_invariant_witness :
    (run Sample.db0 Sample.trace).cases.map (fun c => c.status) = [some "disposed"] ∧
    ∀ c ∈ (run Sample.db0 Sample.trace).cases, disposalInvariant c :=
  ⟨by decide, disposal_invariant Sample.db0 Sample.trace
    (fun c hc => absurd hc (List.not_mem_nil c))⟩


/-! ## The facts of a case that no mutation touches -/

theorem statusCase_keeps (env : Env) (user : Principal) (body : StatusBody) (c : Case) :
    keepsBusinessFacts c (statusCase env user body c) := by
  unfold keepsBusinessFacts statusCase
  simp only [Case.addHistoryEntry]
  split <;> exact ⟨rfl, rfl, rfl, rfl, rfl, rfl⟩

/-- The saved copy of a changed document keeps what the change kept. -/
theorem saved_keeps {env : Env} {db db1 : Db} {isNew : Bool} {c0 m s : Case}
    (hs : Case.save env db isNew m = some (s, db1)) (hm : keepsBusinessFacts c0 m)
    (hn : m.caseNumber = c0.caseNumber) :
    keepsBusinessFacts c0 s ∧ (truthy c0.caseNumber = true → s.caseNumber = c0.caseNumber) := by
  obtain ⟨f1, f2, f3, f4, f5, _, _, _, _, f10⟩ := saved_frame hs
  obtain ⟨m1, m2, m3, m4, m5, m6⟩ := hm
  refine ⟨⟨f1.trans m1, f2.trans m2, f3.trans m3, f4.trans m4, (saved_parties hs).trans m5,
    f5.trans m6⟩, ?_⟩
  intro ht
  rw [← hn] at ht ⊢
  exact f10 ht

/-- C25. A successful `assignJudge`, `scheduleHearing`, `addCaseOrder` or
`updateCaseStatus` leaves the title, description, case type, court type, parties and
registrar of the case as they were, and its case number too when it has one; `save()`
never regenerates the number of a document that has one; and every case of every
collection reached from well-formed documents (from the empty collection, for a start) has
a case number. -/
theorem mutations_keep_business_facts :
    (∀ (db : Db) (env : Env) (request : Request) (id : ObjectId),
      request.mutates id = true → succeeds db env request = true →
      ∃ c0 s, Case.findById db.cases id = some c0 ∧
        Case.findById (step db env request).cases id = some s ∧
        keepsBusinessFacts c0 s ∧
        (truthy c0.caseNumber = true → s.caseNumber = c0.caseNumber)) ∧
    (∀ (env : Env) (db db1 : Db) (isNew : Bool) (c saved : Case),
      truthy c.caseNumber = true → Case.save env db isNew c = some (saved, db1) →
      saved.caseNumber = c.caseNumber) ∧
    (∀ (db : Db) (trace : List (Env × Request)),
      (∀ c ∈ db.cases, c.wellFormed = true) →
      ∀ c ∈ (run db trace).cases, truthy c.caseNumber = true) := by
  refine ⟨?_, ?_, ?_⟩
  · intro db env request id hm hok
    cases request with
    | register user body => exact absurd hm (by simp [Request.mutates])
    | assign user target body =>
      have ht : target = id := by simpa [Request.mutates] using hm
      subst ht
      rcases assignJudge_outcome env db user target body with
        ⟨hf, _, _⟩ | ⟨judge, c0, s, db1, _, _, _, hc, hs, heq⟩
      · have : (assignJudge env db user target body).1.success = true := hok
        rw [hf] at this; exact absurd this (by decide)
      · have hm0 : keepsBusinessFacts c0 (assignedCase env user judge body c0) :=
          ⟨rfl, rfl, rfl, rfl, rfl, rfl⟩
        have hn0 : (assignedCase env user judge body c0).caseNumber = c0.caseNumber := rfl
        obtain ⟨hk, hnum⟩ := saved_keeps hs hm0 hn0
        refine ⟨c0, s, hc, ?_, hk, hnum⟩
        show Case.findById (assignJudge env db user target body).2.cases target = some s
        rw [heq]
        exact saved_stored hc
          (show (assignedCase env user judge body c0)._id = c0._id from rfl) hs
    | schedule user target body =>
      have ht : target = id := by simpa [Request.mutates] using hm
      subst ht
      rcases scheduleHearing_outcome env db user target body with
        ⟨hf, _, _⟩ | ⟨c0, s, db1, _, hc, hs, heq⟩
      · have : (scheduleHearing env db user target body).1.success = true := hok
        rw [hf] at this; exact absurd this (by decide)
      · have hm0 : keepsBusinessFacts c0 (scheduledCase env user body c0) :=
          ⟨rfl, rfl, rfl, rfl, rfl, rfl⟩
        have hn0 : (scheduledCase env user body c0).caseNumber = c0.caseNumber := rfl
        obtain ⟨hk, hnum⟩ := saved_keeps hs hm0 hn0
        refine ⟨c0, s, hc, ?_, hk, hnum⟩
        show Case.findById (scheduleHearing env db user target body).2.cases target = some s
        rw [heq]
        exact saved_stored hc
          (show (scheduledCase env user body c0)._id = c0._id from rfl) hs
    | order user target body =>
      have ht : target = id := by simpa [Request.mutates] using hm
      subst ht
      rcases addCaseOrder_outcome env db user target body with
        ⟨hf, _, _⟩ | ⟨c0, t, s, db1, _, hc, _, _, hs, heq⟩
      · have : (addCaseOrder env db user target body).1.success = true := hok
        rw [hf] at this; exact absurd this (by decide)
      · have hm0 : keepsBusinessFacts c0 (orderedCase env user body t c0) :=
          ⟨rfl, rfl, rfl, rfl, rfl, rfl⟩
        have hn0 : (orderedCase env user body t c0).caseNumber = c0.caseNumber := rfl
        obtain ⟨hk, hnum⟩ := saved_keeps hs hm0 hn0
        refine ⟨c0, s, hc, ?_, hk, hnum⟩
        show Case.findById (addCaseOrder env db user target body).2.cases target = some s
        rw [heq]
        exact saved_stored hc
          (show (orderedCase env user body t c0)._id = c0._id from rfl) hs
    | status user target body =>
      have ht : target = id := by simpa [Request.mutates] using hm
      subst ht
      rcases updateCaseStatus_outcome env db user target body with
        ⟨hf, _, _⟩ | ⟨c0, s, db1, _, hc, hs, heq⟩
      · have : (updateCaseStatus env db user target body).1.success = true := hok
        rw [hf] at this; exact absurd this (by decide)
      · obtain ⟨hk, hnum⟩ := saved_keeps hs (statusCase_keeps env user body c0)
          (statusCase_caseNumber env user body c0)
        refine ⟨c0, s, hc, ?_, hk, hnum⟩
        show Case.findById (updateCaseStatus env db user target body).2.cases target = some s
        rw [heq]
        exact saved_stored hc (statusCase_id env user body c0) hs
  · intro env db db1 isNew c saved ht hs
    exact (saved_frame hs).2.2.2.2.2.2.2.2.2 ht
  · intro db trace h c hc
    have hw := run_wellFormed trace db h c hc
    simp only [Case.wellFormed, Bool.and_eq_true] at hw
    exact hw.2

/-- Witness of C25: the judge assignment of the sample trace leaves the business facts and
the case number of the sample case as the registration wrote them. -/
theorem mutations_keep_business_facts_witness :
    ∃ c0 s, Case.findById Sample.db1.cases 10 = some c0 ∧
      Case.findById Sample.db2.cases 10 = some s ∧ keepsBusinessFacts c0 s ∧
      s.caseNumber = some "HC/2025/0001" := by
  obtain ⟨c0, s, hc, hs, hk, hnum⟩ := mutations_keep_business_facts.1 Sample.db1 Sample.env
    (.assign Sample.registrar 10 ⟨some 2, some "Court 1"⟩) 10 (by decide) (by decide)
  have hn : (Case.findById Sample.db1.cases 10).map (fun c => c.caseNumber) =
      some (some "HC/2025/0001") := by decide
  rw [hc] at hn
  simp only [Option.map_some', Option.some.injEq] at hn
  refine ⟨c0, s, hc, hs, hk, ?_⟩
  rw [hnum (by rw [hn]; decide), hn]


/-! ## Sequence numbers along a trace -/

/-- An insertion passes the unique indexes: no stored document has the case number of the
new one. -/
theorem save_new_fresh {env : Env} {db db1 : Db} {c s : Case}
    (h : Case.save env db true c = some (s, db1)) :
    ∀ d ∈ db.cases, d.caseNumber ≠ s.caseNumber := by
  obtain ⟨hv, hs, _, _⟩ := save_some h
  unfold Case.save at h
  simp only [hv, Bool.not_true, Bool.false_eq_true, if_false, if_true] at h
  split at h
  · exact absurd h (by simp)
  · rename_i hany
    rw [← hs] at hany
    intro d hd hnum
    apply hany
    rw [List.any_eq_true]
    exact ⟨d, hd, by simp [hnum]⟩

/-- A successful mutation leaves the creation dates of the collection as they were, and the
case numbers too when the case it changes has one. -/
theorem mutation_lists {env : Env} {db db1 : Db} {id : ObjectId} {c0 m s : Case}
    (hfind : Case.findById db.cases id = some c0) (hid : m._id = c0._id)
    (hcreated : m.createdAt = c0.createdAt) (hnumber : m.caseNumber = c0.caseNumber)
    (hs : Case.save env db false m = some (s, db1)) :
    db1.cases.map (fun c => c.createdAt) = db.cases.map (fun c => c.createdAt) ∧
    (truthy c0.caseNumber = true →
      db1.cases.map (fun c => c.caseNumber) = db.cases.map (fun c => c.caseNumber)) := by
  have hcases := (save_some hs).2.2.2
  simp only [Bool.false_eq_true, if_false] at hcases
  have hsid : s._id = id := ((saved_id hs).trans hid).trans (findById_id hfind)
  have hframe := saved_frame hs
  have hc : s.createdAt = c0.createdAt := by
    have := hframe.2.2.2.2.2.2.2.2.1
    simp only [Bool.false_eq_true, if_false] at this
    exact this.trans hcreated
  rw [hcases]
  refine ⟨map_updateOne (fun c => c.createdAt) hfind hsid hc, ?_⟩
  intro ht
  have hn : s.caseNumber = c0.caseNumber := by
    rw [← hnumber] at ht ⊢
    exact hframe.2.2.2.2.2.2.2.2.2 ht
  exact map_updateOne (fun c => c.caseNumber) hfind hsid hn

/-- What a request does to the creation dates and the case numbers of the collection:
nothing, and then no sequence number was generated; or one case was inserted, created at
the time of the request, with a case number no other case has, and the sequence number
generated is the count of the year plus one. -/
theorem step_lists (db : Db) (env : Env) (request : Request) :
    ((step db env request).cases.map (fun c => c.createdAt) =
        db.cases.map (fun c => c.createdAt) ∧
      ((∀ c ∈ db.cases, truthy c.caseNumber = true) →
        (step db env request).cases.map (fun c => c.caseNumber) =
          db.cases.map (fun c => c.caseNumber)) ∧
      generatedSequence db env request = []) ∨
    (∃ s, (step db env request).cases = db.cases ++ [s] ∧ s.createdAt = some env.now ∧
      (∀ d ∈ db.cases, d.caseNumber ≠ s.caseNumber) ∧
      generatedSequence db env request = [countCreatedIn db.cases env.now.year + 1]) := by
  cases request with
  | register user body =>
    rcases registerCase_outcome env db user body with
      ⟨hf, _, h⟩ | ⟨ps, s, db1, _, _, _, _, _, _, _, _, _, _, _, hs, heq⟩
    · left
      have hdb : (step db env (.register user body)) = db := h
      have hno : succeeds db env (.register user body) = false := hf
      rw [hdb]
      exact ⟨rfl, fun _ => rfl, by simp [generatedSequence, hno]⟩
    · right
      have hdb : (step db env (.register user body)) = db1 := by
        show (registerCase env db user body).2 = db1
        rw [heq]
      have hyes : succeeds db env (.register user body) = true := by
        show (registerCase env db user body).1.success = true
        rw [heq]
      have hcases := (save_some hs).2.2.2
      simp only [if_true] at hcases
      have hc := (saved_frame hs).2.2.2.2.2.2.2.2.1
      simp only [if_true] at hc
      rw [hdb]
      exact ⟨s, hcases, hc, save_new_fresh hs, by simp [generatedSequence, hyes]⟩
  | assign user id body =>
    left
    rcases assignJudge_outcome env db user id body with
      ⟨_, _, h⟩ | ⟨judge, c, s, db1, _, _, _, hc, hs, heq⟩
    · have hdb : (step db env (.assign user id body)) = db := h
      rw [hdb]
      exact ⟨rfl, fun _ => rfl, rfl⟩
    · have hdb : (step db env (.assign user id body)) = db1 := by
        show (assignJudge env db user id body).2 = db1
        rw [heq]
      have hm := mutation_lists hc
        (show (assignedCase env user judge body c)._id = c._id from rfl) rfl rfl hs
      rw [hdb]
      exact ⟨hm.1, fun hall => hm.2 (hall c (findById_mem hc)), rfl⟩
  | schedule user id body =>
    left
    rcases scheduleHearing_outcome env db user id body with
      ⟨_, _, h⟩ | ⟨c, s, db1, _, hc, hs, heq⟩
    · have hdb : (step db env (.schedule user id body)) = db := h
      rw [hdb]
      exact ⟨rfl, fun _ => rfl, rfl⟩
    · have hdb : (step db env (.schedule user id body)) = db1 := by
        show (scheduleHearing env db user id body).2 = db1
        rw [heq]
      have hm := mutation_lists hc
        (show (scheduledCase env user body c)._id = c._id from rfl) rfl rfl hs
      rw [hdb]
      exact ⟨hm.1, fun hall => hm.2 (hall c (findById_mem hc)), rfl⟩
  | order user id body =>
    left
    rcases addCaseOrder_outcome env db user id body with
      ⟨_, _, h⟩ | ⟨c, t, s, db1, _, hc, _, _, hs, heq⟩
    · have hdb : (step db env (.order user id body)) = db := h
      rw [hdb]
      exact ⟨rfl, fun _ => rfl, rfl⟩
    · have hdb : (step db env (.order user id body)) = db1 := by
        show (addCaseOrder env db user id body).2 = db1
        rw [heq]
      have hm := mutation_lists hc
        (show (orderedCase env user body t c)._id = c._id from rfl) rfl rfl hs
      rw [hdb]
      exact ⟨hm.1, fun hall => hm.2 (hall c (findById_mem hc)), rfl⟩
  | status user id body =>
    left
    rcases updateCaseStatus_outcome env db user id body with
      ⟨_, _, h⟩ | ⟨c, s, db1, _, hc, hs, heq⟩
    · have hdb : (step db env (.status user id body)) = db := h
      rw [hdb]
      exact ⟨rfl, fun _ => rfl, rfl⟩
    · have hdb : (step db env (.status user id body)) = db1 := by
        show (updateCaseStatus env db user id body).2 = db1
        rw [heq]
      have hcreated : (statusCase env user body c).createdAt = c.createdAt := by
        unfold statusCase; simp only [Case.addHistoryEntry]; split <;> rfl
      have hm := mutation_lists hc (statusCase_id env user body c) hcreated
        (statusCase_caseNumber env user body c) hs
      rw [hdb]
      exact ⟨hm.1, fun hall => hm.2 (hall c (findById_mem hc)), rfl⟩

/-- The count of the hook depends on the creation dates only. -/
theorem countCreatedIn_map (cases : List Case) (year : Nat) :
    countCreatedIn cases year =
      (cases.map (fun c => c.createdAt)).countP
        (fun created => decide (created.map Date.year = some year)) := by
  rw [countCreatedIn_eq, List.countP_map]
  rfl

/-- No request lowers the count of a year, and a successful registration in the year
raises it by one. -/
theorem step_count (db : Db) (env : Env) (request : Request) :
    countCreatedIn (step db env request).cases env.now.year =
      countCreatedIn db.cases env.now.year + (generatedSequence db env request).length := by
  rcases step_lists db env request with ⟨h, _, hg⟩ | ⟨s, hcases, hc, _, hg⟩
  · rw [countCreatedIn_map, h, ← countCreatedIn_map, hg]
    rfl
  · rw [countCreatedIn_map, hcases, List.map_append, List.countP_append, ← countCreatedIn_map,
      hg]
    simp [hc]

theorem sequenceNumbers_increasing (year : Nat) (trace : List (Env × Request)) :
    ∀ db : Db, (∀ item ∈ trace, item.1.now.year = year) →
      (∀ n ∈ sequenceNumbers db trace, countCreatedIn db.cases year < n) ∧
      (sequenceNumbers db trace).Pairwise (fun a b => a < b) := by
  induction trace with
  | nil =>
    intro db _
    exact ⟨fun n hn => absurd hn (List.not_mem_nil n), List.Pairwise.nil⟩
  | cons item rest ih =>
    intro db hyear
    have hy : item.1.now.year = year := hyear item (List.mem_cons_self _ _)
    obtain ⟨hlow, hpair⟩ := ih (step db item.1 item.2)
      (fun other ho => hyear other (List.mem_cons_of_mem _ ho))
    have hcount := step_count db item.1 item.2
    rw [hy] at hcount
    have hhead : generatedSequence db item.1 item.2 = [] ∨
        generatedSequence db item.1 item.2 = [countCreatedIn db.cases year + 1] := by
      rcases step_lists db item.1 item.2 with ⟨_, _, hg⟩ | ⟨_, _, _, _, hg⟩
      · exact Or.inl hg
      · rw [hy] at hg; exact Or.inr hg
    have hseq : sequenceNumbers db (item :: rest) =
        generatedSequence db item.1 item.2 ++ sequenceNumbers (step db item.1 item.2) rest :=
      rfl
    rw [hseq]
    rcases hhead with hg | hg
    · rw [hg] at hcount ⊢
      simp only [List.length_nil, Nat.add_zero] at hcount
      rw [hcount] at hlow
      exact ⟨hlow, hpair⟩
    · rw [hg] at hcount ⊢
      simp only [List.length_singleton] at hcount
      rw [hcount] at hlow
      constructor
      · intro n hn
        rcases List.mem_append.1 hn with hn | hn
        · rw [List.mem_singleton.1 hn]; omega
        · have := hlow n hn; omega
      · rw [List.pairwise_append]
        refine ⟨List.pairwise_singleton _ _, hpair, ?_⟩
        intro a ha b hb
        rw [List.mem_singleton.1 ha]
        exact hlow b hb

theorem caseNumbers_nodup (trace : List (Env × Request)) :
    ∀ db : Db, (∀ c ∈ db.cases, c.wellFormed = true) →
      (db.cases.map (fun c => c.caseNumber)).Nodup →
      ((run db trace).cases.map (fun c => c.caseNumber)).Nodup := by
  induction trace with
  | nil => intro db _ h; exact h
  | cons item rest ih =>
    intro db hwf hnd
    have hrun : run db (item :: rest) = run (step db item.1 item.2) rest := rfl
    rw [hrun]
    apply ih
    · exact run_wellFormed [item] db hwf
    · rcases step_lists db item.1 item.2 with ⟨_, h, _⟩ | ⟨s, hcases, _, hfresh, _⟩
      · rw [h (fun c hc => by
          have := hwf c hc
          simp only [Case.wellFormed, Bool.and_eq_true] at this
          exact this.2)]
        exact hnd
      · rw [hcases, List.map_append, List.map_singleton]
        rw [List.nodup_append]
        refine ⟨hnd, List.nodup_singleton _, ?_⟩
        intro a ha hb
        rw [List.mem_singleton] at hb
        obtain ⟨d, hd, hda⟩ := List.mem_map.1 ha
        exact hfresh d hd (hda.trans hb)

/-- The sequence number generated for a successful registration is the one in the case
number of the case it creates. -/
theorem registerCase_sequence (env : Env) (db : Db) (user : Principal) (body : RegisterBody)
    (hok : (registerCase env db user body).1.success = true) :
    ∃ saved, (registerCase env db user body).1.data = some saved ∧
      saved.caseNumber = some (courtPrefixOf saved.courtType ++ "/" ++
        toString env.now.year ++ "/" ++
        padStart (toString (countCreatedIn db.cases env.now.year + 1)) 4 '0') ∧
      generatedSequence db env (.register user body) =
        [countCreatedIn db.cases env.now.year + 1] := by
  rcases registerCase_outcome env db user body with
    ⟨hf, _, _⟩ | ⟨ps, s, db1, _, _, _, _, _, _, _, _, _, _, _, hs, heq⟩
  · rw [hf] at hok; exact absurd hok (by decide)
  · have hyes : succeeds db env (.register user body) = true := hok
    refine ⟨s, by rw [heq], ?_, by simp [generatedSequence, hyes]⟩
    rw [saved_caseNumber hs, (saved_frame hs).2.2.2.1]
    rfl

/-- C24. Along requests served one after another in the same calendar year (nothing
deletes a case), the sequence numbers generated for the successful registrations are
strictly increasing in the order of the registrations, each above the count of cases the
year had at the start; and when the stored cases are well-formed with case numbers that
differ from one another (as in the empty collection), no two cases of the collection
reached share a case number. -/
theorem sequence_numbers_strictly_increase (db : Db) (trace : List (Env × Request))
    (year : Nat) (hyear : ∀ item ∈ trace, item.1.now.year = year)
    (hwf : ∀ c ∈ db.cases, c.wellFormed = true)
    (hnd : (db.cases.map (fun c => c.caseNumber)).Nodup) :
    (sequenceNumbers db trace).Pairwise (fun a b => a < b) ∧
    (∀ n ∈ sequenceNumbers db trace, countCreatedIn db.cases year < n) ∧
    ((run db trace).cases.map (fun c => c.caseNumber)).Nodup :=
  ⟨(sequenceNumbers_increasing year trace db hyear).2,
    (sequenceNumbers_increasing year trace db hyear).1, caseNumbers_nodup trace db hwf hnd⟩

/-- Witness of C24: two registrations in 2025, around a judge assignment, generate the
sequence numbers 1 and 2, and the two cases get different case numbers. -/
theorem sequence_numbers_strictly_increase_witness :
    sequenceNumbers Sample.db0 Sample.registrations = [1, 2] ∧
    (run Sample.db0 Sample.registrations).cases.map (fun c => c.caseNumber) =
      [some "HC/2025/0001", some "DC/2025/0002"] ∧
    (sequenceNumbers Sample.db0 Sample.registrations).Pairwise (fun a b => a < b) ∧
    ((run Sample.db0 Sample.registrations).cases.map (fun c => c.caseNumber)).Nodup :=
  have h := sequence_numbers_strictly_increase Sample.db0 Sample.registrations 2025
    (by decide) (fun c hc => absurd hc (List.not_mem_nil c)) List.nodup_nil
  ⟨by decide, by decide, h.1, h.2.2⟩


/-! ## A party that is not a user -/

/-- The loop over the parties stops at a party whose user id resolves to no user, or to a
user of another role than user. -/
theorem checkParties_unresolved {users : List User} {parties : List Party}
    (h : ∃ party ∈ parties, User.findById users party.user = none ∨
      ∃ u, User.findById users party.user = some u ∧ u.role ≠ "user") :
    ∃ r, checkParties users parties = some r := by
  cases hcp : checkParties users parties with
  | some r => exact ⟨r, rfl⟩
  | none =>
    obtain ⟨party, hp, hbad⟩ := h
    have hres := (checkParties_none hcp party hp).1
    unfold resolvesTo at hres
    rcases hbad with hnone | ⟨u, hu, hrole⟩
    · rw [hnone] at hres
      exact absurd hres (by simp)
    · rw [hu] at hres
      simp only [decide_eq_true_eq] at hres
      exact absurd hres hrole

/-- Counterexample to C29: the sample registration with a petitioner whose user id is the
id of no user is answered 400, the status of bad input, not 404. -/
theorem registerCase_unknown_party_is_bad_input :
    User.findById Sample.db0.users (some 99) = none ∧
    (registerCase Sample.env Sample.db0 Sample.registrar Sample.unknownPartyBody).1.status =
      HTTP_STATUS.BAD_REQUEST ∧
    (registerCase Sample.env Sample.db0 Sample.registrar Sample.unknownPartyBody).1.status ≠
      HTTP_STATUS.NOT_FOUND ∧
    (registerCase Sample.env Sample.db0 Sample.registrar Sample.unknownPartyBody).1.message =
      some "User not found for party: 99" := by
  decide

/-- C29, amended. A registration by a registrar, with the required fields present and a
petitioner and a respondent among the parties, fails with status 400, the status of bad
input, when the user id of some party resolves to no user, as it does when the id resolves
to a user of another role than user; no case is stored. -/
theorem registerCase_unresolved_party (env : Env) (db : Db) (user : Principal)
    (body : RegisterBody) (parties : List Party)
    (hrole : user.role = "registrar") (hp : body.parties = some parties)
    (hfields : truthy body.title = true ∧ truthy body.description = true ∧
      truthy body.caseType = true ∧ truthy body.courtType = true)
    (hpet : ∃ party ∈ parties, party.role = "petitioner")
    (hres : ∃ party ∈ parties, party.role = "respondent")
    (hbad : ∃ party ∈ parties, User.findById db.users party.user = none ∨
      ∃ u, User.findById db.users party.user = some u ∧ u.role ≠ "user") :
    (registerCase env db user body).1.status = HTTP_STATUS.BAD_REQUEST ∧
    (registerCase env db user body).1.success = false ∧
    (registerCase env db user body).1.data = none ∧
    (registerCase env db user body).2 = db := by
  obtain ⟨r, hr⟩ := checkParties_unresolved hbad
  obtain ⟨h1, h2, h3⟩ := checkParties_failure hr
  have hrole2 : ¬ (some user.role ≠ prop USER_ROLES "REGISTRAR") := by
    rw [hrole, role_registrar]; simp
  have hne : parties.length ≠ 0 := by
    obtain ⟨party, hmem, _⟩ := hbad
    exact fun h0 => absurd hmem (by rw [List.length_eq_zero.1 h0]; simp)
  have hpet2 : parties.any (fun party => decide (party.role = "petitioner")) = true := by
    simpa using hpet
  have hres2 : parties.any (fun party => decide (party.role = "respondent")) = true := by
    simpa using hres
  have heq : registerCase env db user body = (r, db) := by
    unfold registerCase
    rw [if_neg hrole2, hp]
    simp only [hfields.1, hfields.2.1, hfields.2.2.1, hfields.2.2.2, hne, hpet2, hres2,
      Bool.not_true, Bool.or_self, decide_False, Bool.false_eq_true, if_false, hr]
  rw [heq]
  exact ⟨h1, h2, h3, rfl⟩

/-- Witness of C29, amended: the sample registration with the unknown petitioner is
answered 400 and nothing is stored. -/
theorem registerCase_unresolved_party_witness :
    (registerCase Sample.env Sample.db0 Sample.registrar Sample.unknownPartyBody).1.status =
      400 ∧
    (registerCase Sample.env Sample.db0 Sample.registrar Sample.unknownPartyBody).2 =
      Sample.db0 := by
  have h := registerCase_unresolved_party Sample.env Sample.db0 Sample.registrar
    Sample.unknownPartyBody
    [⟨some 99, "petitioner", none, true⟩, ⟨some 4, "respondent", none, false⟩]
    rfl rfl (by decide) (by decide) (by decide)
    ⟨⟨some 99, "petitioner", none, true⟩, by simp, Or.inl (by decide)⟩
  exact ⟨h.1, h.2.2.2⟩


/-! ## Who may view a case -/

/-- The text of a populated document is the text of no id: it opens with a brace, and the
text of an id has digits only. -/
theorem inspect_ne_idText (u : User) (id : ObjectId) : u.inspect ≠ idText id := by
  intro h
  have hall : (idText id).toList.all Char.isDigit = true := toDigits_all_digit id
  rw [← h] at hall
  simp [User.inspect, String.toList, String.data_append] at hall

theorem someUserIs_populated (parties : List PopulatedParty) (id : ObjectId) :
    someUserIs parties (idText id) =
      if parties.all (fun party => party.user.isSome) then some false else none := by
  induction parties with
  | nil => rfl
  | cons p ps ih =>
    unfold someUserIs
    cases hu : p.user with
    | none => simp [hu]
    | some doc =>
      simp only [if_neg (inspect_ne_idText doc id), ih, List.all_cons, hu, Option.isSome_some,
        Bool.true_and]

theorem populate_parties_resolved (users : List User) (c : Case)
    (h : ∀ party ∈ c.parties, (User.findById users party.user).isSome = true) :
    (populate users c).parties.all (fun party => party.user.isSome) = true := by
  simp only [populate, List.all_eq_true, List.mem_map]
  rintro _ ⟨party, hp, rfl⟩
  exact h party hp

/-- C16. For a principal of role judge, `checkCaseAccess` on the populated document that
`getCaseById` passes returns true exactly when the case has no assigned judge (or one that
resolves to no user).  The text of the populated judge is never the id of the principal,
so the judge a case is assigned to is refused like any other judge: `getCaseById` answers
403 whenever the assigned judge resolves, and 200 when there is none. -/
theorem checkCaseAccess_judge_populated (user : Principal) (hrole : user.role = "judge") :
    (∀ p : PopulatedCase, checkCaseAccess user p = some p.assignedJudge.isNone) ∧
    (∀ (db : Db) (id : ObjectId) (c : Case) (assigned : User),
      Case.findById db.cases id = some c →
      User.findById db.users c.assignedJudge = some assigned →
      (getCaseById db user id).status = HTTP_STATUS.FORBIDDEN) ∧
    (∀ (db : Db) (id : ObjectId) (c : Case),
      Case.findById db.cases id = some c →
      User.findById db.users c.assignedJudge = none →
      (getCaseById db user id).status = HTTP_STATUS.OK) := by
  have hcheck : ∀ p : PopulatedCase, checkCaseAccess user p = some p.assignedJudge.isNone := by
    intro p
    unfold checkCaseAccess
    rw [role_registrar, role_judge, hrole]
    rw [if_neg (by decide), if_pos rfl]
    cases hj : p.assignedJudge with
    | none => rfl
    | some doc => simp [inspect_ne_idText doc user.id]
  refine ⟨hcheck, ?_, ?_⟩
  · intro db id c assigned hc hj
    unfold getCaseById
    rw [hc]
    simp only [hcheck]
    have : (populate db.users c).assignedJudge = some assigned := hj
    rw [this]
    rfl
  · intro db id c hc hj
    unfold getCaseById
    rw [hc]
    simp only [hcheck]
    have : (populate db.users c).assignedJudge = none := hj
    rw [this]
    rfl

/-- Witness of C16: judge 2, to whom the sample case is assigned, is answered 403 when
asking for it, and so is judge 6; while the case had no judge, judge 6 was answered 200. -/
theorem checkCaseAccess_judge_populated_witness :
    (Case.findById Sample.db2.cases 10).map (fun c => c.assignedJudge) = some (some 2) ∧
    (getCaseById Sample.db2 Sample.judge 10).status = 403 ∧
    (getCaseById Sample.db2 Sample.otherJudge 10).status = 403 ∧
    (getCaseById Sample.db1 Sample.otherJudge 10).status = 200 := by
  have h1 : (Case.findById Sample.db1.cases 10).isSome = true := by decide
  have h2 : (Case.findById Sample.db2.cases 10).isSome = true := by decide
  obtain ⟨c1, hc1⟩ := Option.isSome_iff_exists.1 h1
  obtain ⟨c2, hc2⟩ := Option.isSome_iff_exists.1 h2
  have j1 : c1.assignedJudge = none := by
    have : (Case.findById Sample.db1.cases 10).map (fun c => c.assignedJudge) = some none := by
      decide
    rw [hc1] at this; simpa using this
  have j2 : c2.assignedJudge = some 2 := by
    have : (Case.findById Sample.db2.cases 10).map (fun c => c.assignedJudge) =
        some (some 2) := by decide
    rw [hc2] at this; simpa using this
  have r2 : User.findById Sample.db2.users c2.assignedJudge =
      some ⟨2, "judge", "Javed", "Iqbal"⟩ := by rw [j2]; decide
  have r1 : User.findById Sample.db1.users c1.assignedJudge = none := by rw [j1]; rfl
  exact ⟨by decide,
    (checkCaseAccess_judge_populated Sample.judge rfl).2.1 Sample.db2 10 c2 _ hc2 r2,
    (checkCaseAccess_judge_populated Sample.otherJudge rfl).2.1 Sample.db2 10 c2 _ hc2 r2,
    (checkCaseAccess_judge_populated Sample.otherJudge rfl).2.2 Sample.db1 10 c1 hc1 r1⟩

/-- C17. For a principal of role lawyer, `checkCaseAccess` on the populated document that
`getCaseById` passes returns false for every case, and for a principal of role user it
never returns true (it returns false when every party has a user): the text of a populated
lawyer or user is never the id of the principal.  So `getCaseById` answers 403 to the
lawyer of a party and to a party of the case, as to every other lawyer and user. -/
theorem checkCaseAccess_lawyer_user_populated :
    (∀ (user : Principal) (p : PopulatedCase), user.role = "lawyer" →
      checkCaseAccess user p = some false) ∧
    (∀ (user : Principal) (p : PopulatedCase), user.role = "user" →
      checkCaseAccess user p =
        if p.parties.all (fun party => party.user.isSome) then some false else none) ∧
    (∀ (db : Db) (user : Principal) (id : ObjectId) (c : Case),
      user.role = "lawyer" → Case.findById db.cases id = some c →
      (getCaseById db user id).status = HTTP_STATUS.FORBIDDEN) ∧
    (∀ (db : Db) (user : Principal) (id : ObjectId) (c : Case),
      user.role = "user" → Case.findById db.cases id = some c →
      (∀ party ∈ c.parties, (User.findById db.users party.user).isSome = true) →
      (getCaseById db user id).status = HTTP_STATUS.FORBIDDEN) := by
  have hlawyer : ∀ (user : Principal) (p : PopulatedCase), user.role = "lawyer" →
      checkCaseAccess user p = some false := by
    intro user p hrole
    unfold checkCaseAccess
    rw [role_registrar, role_judge, role_lawyer, hrole]
    rw [if_neg (by decide), if_neg (by decide), if_pos rfl]
    apply congrArg
    rw [List.any_eq_false]
    intro party _
    cases hl : party.assignedLawyer with
    | none => simp
    | some doc => simp [inspect_ne_idText doc user.id]
  have huser : ∀ (user : Principal) (p : PopulatedCase), user.role = "user" →
      checkCaseAccess user p =
        if p.parties.all (fun party => party.user.isSome) then some false else none := by
    intro user p hrole
    unfold checkCaseAccess
    rw [role_registrar, role_judge, role_lawyer, role_user, hrole]
    rw [if_neg (by decide), if_neg (by decide), if_neg (by decide), if_pos rfl]
    exact someUserIs_populated p.parties user.id
  refine ⟨hlawyer, huser, ?_, ?_⟩
  · intro db user id c hrole hc
    unfold getCaseById
    rw [hc]
    simp only [hlawyer user _ hrole]
    rfl
  · intro db user id c hrole hc hres
    unfold getCaseById
    rw [hc]
    simp only [huser user _ hrole, populate_parties_resolved db.users c hres, if_true]
    rfl

/-- Witness of C17: lawyer 5, who represents the petitioner of the sample case, and user 3,
the petitioner, are both answered 403 when they ask for the case. -/
theorem checkCaseAccess_lawyer_user_populated_witness :
    (Case.findById Sample.db2.cases 10).map (fun c => c.parties) = some Sample.parties ∧
    Sample.parties.any (fun party => decide (party.assignedLawyer = some Sample.lawyer.id)) =
      true ∧
    Sample.parties.any (fun party => decide (party.user = some Sample.litigant.id)) = true ∧
    (getCaseById Sample.db2 Sample.lawyer 10).status = 403 ∧
    (getCaseById Sample.db2 Sample.litigant 10).status = 403 := by
  have h2 : (Case.findById Sample.db2.cases 10).isSome = true := by decide
  obtain ⟨c, hc⟩ := Option.isSome_iff_exists.1 h2
  have hp : c.parties = Sample.parties := by
    have : (Case.findById Sample.db2.cases 10).map (fun c => c.parties) =
        some Sample.parties := by decide
    rw [hc] at this; simpa using this
  have hres : ∀ party ∈ c.parties,
      (User.findById Sample.db2.users party.user).isSome = true := by
    rw [hp]; decide
  exact ⟨by decide, by decide, by decide,
    checkCaseAccess_lawyer_user_populated.2.2.1 Sample.db2 Sample.lawyer 10 c rfl hc,
    checkCaseAccess_lawyer_user_populated.2.2.2 Sample.db2 Sample.litigant 10 c rfl hc hres⟩

end CaseManagement
